import Mathlib

/-!
# HD44780 character-LCD driver (4-bit bus): embedding of `src/src/HD44780.c`

The driver talks to the display only through the nine function pointers stored
in `HD44780_Handler_t`.  A call through one of these slots is recorded as an
`Event`; the list of events is the bus trace.  `PlatformReadData` is the only
slot that returns a value: its results come from a stream `rd : Nat → Nat` of
samples, the `i`-th call returning `rd i % 256` (the slot returns `uint8_t`).

* `uint8_t` values are natural numbers; where the C code converts an `int`
  expression to `uint8_t` the embedding reduces it modulo `256`.
* `char` values are integers (so that both a signed and an unsigned `char` are
  covered); the conversion to `uint8_t` is `C % 256`.
* `char *Str` is the list of the characters stored from `Str` onwards; reading
  beyond the list halts with `Halt.outOfBuffer`.
* A call through a slot that holds `NULL` halts with `Halt.nullCall`.
* The `while` loop of `HD44780_WaitBusy` has no bound in the source; the
  embedding takes the number of loop iterations it may run as `fuel` and halts
  with `Halt.outOfFuel` once they are used up.
-/

namespace HD44780

/-! ## Data model -/

/-- One call through a binding slot of the handler. -/
inductive Event where
  | InitRsRwE
  | SetRS (level : Nat)
  | SetRW (level : Nat)
  | SetE (level : Nat)
  | SetDirData (dir : Nat)
  | WriteData (data : Nat)
  | ReadData
  | DelayMs (ms : Nat)
  | DelayUs (us : Nat)
  deriving DecidableEq

/-- The type `HD44780_Result_t` of `HD44780.h`. -/
inductive HD44780_Result_t where
  | HD44780_OK
  | HD44780_FAIL
  deriving DecidableEq

/-- The type `HD44780_Handler_t` of `HD44780.h`.  A function pointer is `none`
when it is `NULL` and `some a` when it holds the address `a` of a function. -/
structure HD44780_Handler_t where
  Lines : Nat
  Length : Nat
  PlatformInitRsRwE : Option Nat
  PlatformSetValRs : Option Nat
  PlatformSetValRw : Option Nat
  PlatformSetValE : Option Nat
  PlatformSetDirData : Option Nat
  PlatformWriteData : Option Nat
  PlatformReadData : Option Nat
  PlatformDelayMs : Option Nat
  PlatformDelayUs : Option Nat
  deriving DecidableEq

/-- Why a run did not return. -/
inductive Halt where
  | nullCall
  | outOfFuel
  | outOfBuffer
  deriving DecidableEq

/-- What a run produced: a returned value, or the reason it did not return. -/
inductive Outcome (α : Type) where
  | ret (a : α)
  | halt (r : Halt)
  deriving DecidableEq

/-- The state a driver function runs in: the handler it was given a pointer to,
the number of `PlatformReadData` samples taken so far, and the bus trace. -/
structure World where
  Handler : HD44780_Handler_t
  reads : Nat
  trace : List Event
  deriving DecidableEq

/-- A driver computation. -/
def Bus (α : Type) : Type := World → Outcome α × World

/-- Sequencing: a halted run stays halted, with the world it halted in. -/
def Bus.bind {α β : Type} (m : Bus α) (f : α → Bus β) : Bus β := fun w =>
  match m w with
  | (Outcome.ret a, w1) => f a w1
  | (Outcome.halt r, w1) => (Outcome.halt r, w1)

/-- Returning a value leaves the world as it is. -/
def Bus.pure {α : Type} (a : α) : Bus α := fun w => (Outcome.ret a, w)

instance : Monad Bus where
  pure := Bus.pure
  bind := Bus.bind

/-- A run halts without changing the world. -/
def Bus.halt {α : Type} (r : Halt) : Bus α := fun w => (Outcome.halt r, w)

/-- Call through a slot of type `void (*)(...)`: the event is appended to the
trace; a `NULL` slot halts the run. -/
def call (slot : HD44780_Handler_t → Option Nat) (e : Event) : Bus Unit := fun w =>
  if (slot w.Handler).isSome then
    (Outcome.ret (), { w with trace := w.trace ++ [e] })
  else
    (Outcome.halt Halt.nullCall, w)

/-- Read a field of the handler. -/
def getHandler : Bus HD44780_Handler_t := fun w => (Outcome.ret w.Handler, w)

/-- Store to fields of the handler. -/
def modifyHandler (f : HD44780_Handler_t → HD44780_Handler_t) : Bus Unit := fun w =>
  (Outcome.ret (), { w with Handler := f w.Handler })

/-! ## The binding slots -/

/-- The call `Handler->PlatformInitRsRwE()`. -/
def PlatformInitRsRwE : Bus Unit :=
  call (fun h => h.PlatformInitRsRwE) Event.InitRsRwE

/-- The call `Handler->PlatformSetValRs(v)`. -/
def PlatformSetValRs (v : Nat) : Bus Unit :=
  call (fun h => h.PlatformSetValRs) (Event.SetRS v)

/-- The call `Handler->PlatformSetValRw(v)`. -/
def PlatformSetValRw (v : Nat) : Bus Unit :=
  call (fun h => h.PlatformSetValRw) (Event.SetRW v)

/-- The call `Handler->PlatformSetValE(v)`. -/
def PlatformSetValE (v : Nat) : Bus Unit :=
  call (fun h => h.PlatformSetValE) (Event.SetE v)

/-- The call `Handler->PlatformSetDirData(v)`. -/
def PlatformSetDirData (v : Nat) : Bus Unit :=
  call (fun h => h.PlatformSetDirData) (Event.SetDirData v)

/-- The call `Handler->PlatformWriteData(v)`. -/
def PlatformWriteData (v : Nat) : Bus Unit :=
  call (fun h => h.PlatformWriteData) (Event.WriteData v)

/-- The call `Handler->PlatformReadData()`: it returns the next sample of the
stream as a `uint8_t`. -/
def PlatformReadData (rd : Nat → Nat) : Bus Nat := fun w =>
  if w.Handler.PlatformReadData.isSome then
    (Outcome.ret (rd w.reads % 256),
      { w with reads := w.reads + 1, trace := w.trace ++ [Event.ReadData] })
  else
    (Outcome.halt Halt.nullCall, w)

/-- The call `Handler->PlatformDelayMs(v)`. -/
def PlatformDelayMs (v : Nat) : Bus Unit :=
  call (fun h => h.PlatformDelayMs) (Event.DelayMs v)

/-- The call `Handler->PlatformDelayUs(v)`. -/
def PlatformDelayUs (v : Nat) : Bus Unit :=
  call (fun h => h.PlatformDelayUs) (Event.DelayUs v)

/-! ## Private constants of `HD44780.c` and command constants of `HD44780.h` -/

def HD44780_CLR : Nat := 0
def HD44780_HOME : Nat := 1
def HD44780_ENTRY_MODE : Nat := 2
def HD44780_ENTRY_INC : Nat := 1
def HD44780_DDRAM : Nat := 7
def HD44780_BUSY : Nat := 7
def Hd44780_FUNCTION_4BIT_2LINES : Nat := 0x28
def HD44780_START_LINE1 : Nat := 0x00
def HD44780_START_LINE2 : Nat := 0x40
def HD44780_START_LINE3 : Nat := 0x14
def HD44780_START_LINE4 : Nat := 0x54
def HD44780_FUNCTION_DEFAULT : Nat := Hd44780_FUNCTION_4BIT_2LINES
def HD44780_MODE_DEFAULT : Nat := (1 <<< HD44780_ENTRY_MODE) ||| (1 <<< HD44780_ENTRY_INC)
def HD44780_DISP_OFF : Nat := 0x08

/-! ## Private functions -/

/-- The function `HD44780_ToggleE`. -/
def HD44780_ToggleE : Bus Unit := do
  PlatformSetValE 1
  PlatformDelayUs 1
  PlatformSetValE 0

/-- The function `HD44780_Read`. -/
def HD44780_Read (rd : Nat → Nat) (RS : Nat) : Bus Nat := do
  (if RS ≠ 0 then PlatformSetValRs 1 else PlatformSetValRs 0)
  PlatformSetValRw 1
  PlatformSetDirData 0
  PlatformSetValE 1
  PlatformDelayUs 1
  let s1 ← PlatformReadData rd
  let data := s1 &&& 0xF0
  PlatformSetValE 0
  PlatformDelayUs 1
  PlatformSetValE 1
  PlatformDelayUs 1
  let s2 ← PlatformReadData rd
  let data := data ||| (s2 >>> 4)
  PlatformSetValE 0
  pure data

/-- The function `HD44780_Write`. -/
def HD44780_Write (Data RS : Nat) : Bus Unit := do
  (if RS ≠ 0 then PlatformSetValRs 1 else PlatformSetValRs 0)
  PlatformSetValRw 0
  PlatformSetDirData 1
  PlatformWriteData (Data &&& 0xF0)
  HD44780_ToggleE
  PlatformWriteData ((Data <<< 4) &&& 0xF0)
  HD44780_ToggleE
  PlatformWriteData 0xFF

/-- The function `HD44780_WaitBusy`; `fuel` bounds the iterations of its
`while` loop. -/
def HD44780_WaitBusy (rd : Nat → Nat) : Nat → Bus Nat
  | 0 => Bus.halt Halt.outOfFuel
  | fuel + 1 => do
    let c ← HD44780_Read rd 0
    if c &&& (1 <<< HD44780_BUSY) ≠ 0 then
      PlatformDelayMs 1
      HD44780_WaitBusy rd fuel
    else
      PlatformDelayUs 2
      HD44780_Read rd 0

/-! ## Public functions -/

/-- The function `HD44780_Command`. -/
def HD44780_Command (rd : Nat → Nat) (fuel : Nat) (Cmd : Nat) : Bus HD44780_Result_t := do
  let _ ← HD44780_WaitBusy rd fuel
  HD44780_Write Cmd 0
  pure HD44780_Result_t.HD44780_OK

/-- The function `HD44780_NewLine` (private, defined after `HD44780_Command`
which it calls).  The argument of `HD44780_Command` is converted to `uint8_t`. -/
def HD44780_NewLine (rd : Nat → Nat) (fuel : Nat) (Pos : Nat) : Bus Unit := do
  let addressCounter :=
    if Pos < HD44780_START_LINE3 then HD44780_START_LINE2
    else if Pos ≥ HD44780_START_LINE2 ∧ Pos < HD44780_START_LINE4 then HD44780_START_LINE3
    else if Pos ≥ HD44780_START_LINE3 ∧ Pos < HD44780_START_LINE2 then HD44780_START_LINE4
    else HD44780_START_LINE1
  let _ ← HD44780_Command rd fuel (((1 <<< HD44780_DDRAM) + addressCounter) % 256)
  pure ()

/-- The function `HD44780_ClearScreen`. -/
def HD44780_ClearScreen (rd : Nat → Nat) (fuel : Nat) : Bus HD44780_Result_t := do
  let _ ← HD44780_Command rd fuel (1 <<< HD44780_CLR)
  pure HD44780_Result_t.HD44780_OK

/-- The function `HD44780_Home`. -/
def HD44780_Home (rd : Nat → Nat) (fuel : Nat) : Bus HD44780_Result_t := do
  let _ ← HD44780_Command rd fuel (1 <<< HD44780_HOME)
  pure HD44780_Result_t.HD44780_OK

/-- The function `HD44780_Init`. -/
def HD44780_Init (rd : Nat → Nat) (fuel : Nat) (Lines Length DispAttr : Nat) :
    Bus HD44780_Result_t := do
  let h ← getHandler
  (if h.PlatformInitRsRwE ≠ none then PlatformInitRsRwE else pure ())
  let h ← getHandler
  if h.PlatformSetValRs = none ∨
      h.PlatformSetValRw = none ∨
      h.PlatformSetValE = none ∨
      h.PlatformSetDirData = none ∨
      h.PlatformWriteData = none ∨
      h.PlatformReadData = none ∨
      h.PlatformDelayMs = none ∨
      h.PlatformDelayUs = none then
    pure HD44780_Result_t.HD44780_FAIL
  else
    modifyHandler (fun h => { h with Lines := Lines })
    modifyHandler (fun h => { h with Length := Length })
    HD44780_Write 0x33 0
    HD44780_Write 0x32 0
    let _ ← HD44780_Command rd fuel HD44780_FUNCTION_DEFAULT
    let _ ← HD44780_Command rd fuel HD44780_DISP_OFF
    let _ ← HD44780_ClearScreen rd fuel
    let _ ← HD44780_Command rd fuel HD44780_MODE_DEFAULT
    let _ ← HD44780_Command rd fuel DispAttr
    pure HD44780_Result_t.HD44780_OK

/-- The function `HD44780_GoToXY`.  The argument of `HD44780_Command` is an
`int` expression converted to `uint8_t`. -/
def HD44780_GoToXY (rd : Nat → Nat) (fuel : Nat) (X Y : Nat) : Bus HD44780_Result_t := do
  (match Y with
    | 0 => do
      let _ ← HD44780_Command rd fuel (((1 <<< HD44780_DDRAM) + HD44780_START_LINE1 + X) % 256)
      pure ()
    | 1 => do
      let _ ← HD44780_Command rd fuel (((1 <<< HD44780_DDRAM) + HD44780_START_LINE2 + X) % 256)
      pure ()
    | 2 => do
      let _ ← HD44780_Command rd fuel (((1 <<< HD44780_DDRAM) + HD44780_START_LINE3 + X) % 256)
      pure ()
    | 3 => do
      let _ ← HD44780_Command rd fuel (((1 <<< HD44780_DDRAM) + HD44780_START_LINE4 + X) % 256)
      pure ()
    | _ => pure ())
  pure HD44780_Result_t.HD44780_OK

/-- The function `HD44780_Putc`.  The `char` is compared with the line feed
character (code 10) and converted to `uint8_t` for `HD44780_Write`. -/
def HD44780_Putc (rd : Nat → Nat) (fuel : Nat) (C : Int) : Bus HD44780_Result_t := do
  let pos ← HD44780_WaitBusy rd fuel
  (if C = 10 then
    HD44780_NewLine rd fuel pos
  else
    HD44780_Write (C % 256).toNat 1)
  pure HD44780_Result_t.HD44780_OK

/-- The loop `while ((c = *Str++)) HD44780_Putc(Handler, c);` of
`HD44780_Puts`. -/
def HD44780_Puts_untilNull (rd : Nat → Nat) (fuel : Nat) : List Int → Bus Unit
  | [] => Bus.halt Halt.outOfBuffer
  | c :: Str =>
    if c ≠ 0 then do
      let _ ← HD44780_Putc rd fuel c
      HD44780_Puts_untilNull rd fuel Str
    else
      pure ()

/-- The loop `while (Len--) { c = *Str++; if (c == 0) break; HD44780_Putc(Handler, c); }`
of `HD44780_Puts`. -/
def HD44780_Puts_counted (rd : Nat → Nat) (fuel : Nat) : Nat → List Int → Bus Unit
  | 0, _ => pure ()
  | _ + 1, [] => Bus.halt Halt.outOfBuffer
  | Len + 1, c :: Str =>
    if c = 0 then
      pure ()
    else do
      let _ ← HD44780_Putc rd fuel c
      HD44780_Puts_counted rd fuel Len Str

/-- The function `HD44780_Puts`. -/
def HD44780_Puts (rd : Nat → Nat) (fuel : Nat) (Str : List Int) (Len : Nat) :
    Bus HD44780_Result_t := do
  (if Len = 0 then
    HD44780_Puts_untilNull rd fuel Str
  else
    HD44780_Puts_counted rd fuel Len Str)
  pure HD44780_Result_t.HD44780_OK

/-- The function `HD44780_Data`. -/
def HD44780_Data (rd : Nat → Nat) (fuel : Nat) (Data : Nat) : Bus HD44780_Result_t := do
  let _ ← HD44780_WaitBusy rd fuel
  HD44780_Write Data 1
  pure HD44780_Result_t.HD44780_OK

/-! ## The platform binding of `src/HD44780_platform.c` -/

/-- The addresses of the nine static functions `PlatformInitRsRwE`, ...,
`PlatformDelayUs` of `HD44780_platform.c`. -/
structure PlatformFunctions where
  InitRsRwE : Nat
  SetValRs : Nat
  SetValRw : Nat
  SetValE : Nat
  SetDirData : Nat
  WriteData : Nat
  ReadData : Nat
  DelayMs : Nat
  DelayUs : Nat

/-- The function `HD44780_Platform_Init`: nine stores of function addresses to
the handler. -/
def HD44780_Platform_Init (p : PlatformFunctions) : Bus Unit := do
  modifyHandler (fun h => { h with PlatformInitRsRwE := some p.InitRsRwE })
  modifyHandler (fun h => { h with PlatformSetValRs := some p.SetValRs })
  modifyHandler (fun h => { h with PlatformSetValRw := some p.SetValRw })
  modifyHandler (fun h => { h with PlatformSetValE := some p.SetValE })
  modifyHandler (fun h => { h with PlatformSetDirData := some p.SetDirData })
  modifyHandler (fun h => { h with PlatformWriteData := some p.WriteData })
  modifyHandler (fun h => { h with PlatformReadData := some p.ReadData })
  modifyHandler (fun h => { h with PlatformDelayMs := some p.DelayMs })
  modifyHandler (fun h => { h with PlatformDelayUs := some p.DelayUs })

/-! ## Observations on handlers, sample streams and traces -/

/-- The eight slots that `HD44780_Init` checks against `NULL` are all set. -/
def Bound (h : HD44780_Handler_t) : Prop :=
  h.PlatformSetValRs.isSome = true ∧ h.PlatformSetValRw.isSome = true ∧
  h.PlatformSetValE.isSome = true ∧ h.PlatformSetDirData.isSome = true ∧
  h.PlatformWriteData.isSome = true ∧ h.PlatformReadData.isSome = true ∧
  h.PlatformDelayMs.isSome = true ∧ h.PlatformDelayUs.isSome = true

instance (h : HD44780_Handler_t) : Decidable (Bound h) := by
  unfold Bound; infer_instance

/-- The events of one `HD44780_Write(Handler, Data, RS)`. -/
def writeTrace (Data RS : Nat) : List Event :=
  [Event.SetRS (if RS ≠ 0 then 1 else 0), Event.SetRW 0, Event.SetDirData 1,
   Event.WriteData (Data &&& 0xF0), Event.SetE 1, Event.DelayUs 1, Event.SetE 0,
   Event.WriteData ((Data <<< 4) &&& 0xF0), Event.SetE 1, Event.DelayUs 1, Event.SetE 0,
   Event.WriteData 0xFF]

/-- The events of one `HD44780_Read(Handler, RS)`. -/
def readTrace (RS : Nat) : List Event :=
  [Event.SetRS (if RS ≠ 0 then 1 else 0), Event.SetRW 1, Event.SetDirData 0,
   Event.SetE 1, Event.DelayUs 1, Event.ReadData, Event.SetE 0, Event.DelayUs 1,
   Event.SetE 1, Event.DelayUs 1, Event.ReadData, Event.SetE 0]

/-- The byte that `HD44780_Read` returns when its two samples are the samples
number `i` and `i + 1` of the stream. -/
def readValue (rd : Nat → Nat) (i : Nat) : Nat :=
  ((rd i % 256) &&& 0xF0) ||| ((rd (i + 1) % 256) >>> 4)

/-- The status read that starts at sample `i` reports the busy flag (bit 7). -/
def Busy (rd : Nat → Nat) (i : Nat) : Prop :=
  readValue rd i &&& (1 <<< HD44780_BUSY) ≠ 0

instance (rd : Nat → Nat) (i : Nat) : Decidable (Busy rd i) := by
  unfold Busy; infer_instance

/-- Starting at sample `p`, the first `n` status reads report busy and the next
one reports not busy. -/
def FirstClear (rd : Nat → Nat) (p n : Nat) : Prop :=
  (∀ k, k < n → Busy rd (p + 2 * k)) ∧ ¬ Busy rd (p + 2 * n)

/-- The events of `n` rounds of the polling loop of `HD44780_WaitBusy`, each a
status read followed by a delay of one millisecond. -/
def pollTrace : Nat → List Event
  | 0 => []
  | n + 1 => readTrace 0 ++ [Event.DelayMs 1] ++ pollTrace n

/-- The events of one `HD44780_WaitBusy` that sees `n` busy status reads. -/
def waitTrace (n : Nat) : List Event :=
  pollTrace n ++ readTrace 0 ++ [Event.DelayUs 2] ++ readTrace 0

/-- The world after `k` further samples and the further events `t`. -/
def advance (w : World) (k : Nat) (t : List Event) : World :=
  { w with reads := w.reads + k, trace := w.trace ++ t }

/-- The world after a `HD44780_WaitBusy` that saw `n` busy status reads. -/
def afterWait (w : World) (n : Nat) : World :=
  advance w (2 * n + 4) (waitTrace n)

/-- The world after further events that take no sample. -/
def emit (w : World) (t : List Event) : World :=
  { w with trace := w.trace ++ t }

/-- The events that put the bus in write mode or drive the data lines:
`SetRW(0)`, `SetDirData(1)` and every `WriteData`. -/
def isWriteMode : Event → Bool
  | Event.SetRW level => decide (level = 0)
  | Event.SetDirData dir => decide (dir = 1)
  | Event.WriteData _ => true
  | _ => false

/-- The number of samples taken in a trace. -/
def countReads (t : List Event) : Nat := t.count Event.ReadData

/-- Every write-mode event that a run from `w` to `w1` has added to the trace
comes after at least `n + 1` complete status reads of that run (two samples
each). -/
def NoWriteBefore (n : Nat) (w w1 : World) : Prop :=
  ∀ pre e post, w1.trace = w.trace ++ pre ++ e :: post → isWriteMode e = true →
    2 * (n + 1) ≤ countReads pre

/-- A computation leaves the handler as it is, only appends to the trace, and
does not call the line-initialisation hook. -/
def Steady {α : Type} (m : Bus α) : Prop :=
  ∀ w, (m w).2.Handler = w.Handler ∧
    ∃ t, (m w).2.trace = w.trace ++ t ∧ Event.InitRsRwE ∉ t

/-- The events of the optional call of the line-initialisation hook at the
start of `HD44780_Init`. -/
def hookTrace (h : HD44780_Handler_t) : List Event :=
  if h.PlatformInitRsRwE.isSome then [Event.InitRsRwE] else []

/-- Successive busy-waits, the first starting at sample `p`, see the numbers of
busy status reads listed in `ns` before the status read that reports not
busy. -/
def WaitsClear (rd : Nat → Nat) : Nat → List Nat → Prop
  | _, [] => True
  | p, n :: ns => FirstClear rd p n ∧ WaitsClear rd (p + (2 * n + 4)) ns

/-- The events of `HD44780_Init` after the check of the slots, when its five
busy-waits see `n1`, ..., `n5` busy status reads. -/
def initTrace (n1 n2 n3 n4 n5 DispAttr : Nat) : List Event :=
  writeTrace 0x33 0 ++ writeTrace 0x32 0 ++
  waitTrace n1 ++ writeTrace 0x28 0 ++
  waitTrace n2 ++ writeTrace 0x08 0 ++
  waitTrace n3 ++ writeTrace 0x01 0 ++
  waitTrace n4 ++ writeTrace 0x06 0 ++
  waitTrace n5 ++ writeTrace DispAttr 0

/-- The part of `HD44780_Init` that follows the check of the slots and the two
stores to the handler: the two forced-mode writes and the five commands. -/
def initSequence (rd : Nat → Nat) (fuel DispAttr : Nat) : Bus HD44780_Result_t := do
  HD44780_Write 0x33 0
  HD44780_Write 0x32 0
  let _ ← HD44780_Command rd fuel HD44780_FUNCTION_DEFAULT
  let _ ← HD44780_Command rd fuel HD44780_DISP_OFF
  let _ ← HD44780_ClearScreen rd fuel
  let _ ← HD44780_Command rd fuel HD44780_MODE_DEFAULT
  let _ ← HD44780_Command rd fuel DispAttr
  pure HD44780_Result_t.HD44780_OK

/-- At least one of the eight slots that `HD44780_Init` checks is `NULL`. -/
def SlotMissing (h : HD44780_Handler_t) : Prop :=
  h.PlatformSetValRs = none ∨ h.PlatformSetValRw = none ∨ h.PlatformSetValE = none ∨
  h.PlatformSetDirData = none ∨ h.PlatformWriteData = none ∨ h.PlatformReadData = none ∨
  h.PlatformDelayMs = none ∨ h.PlatformDelayUs = none

instance (h : HD44780_Handler_t) : Decidable (SlotMissing h) := by
  unfold SlotMissing; infer_instance

/-- One `HD44780_Putc` for each character of the list, in the order of the
list, and nothing else. -/
def putcEach (rd : Nat → Nat) (fuel : Nat) : List Int → Bus Unit
  | [] => pure ()
  | c :: cs => do
    let _ ← HD44780_Putc rd fuel c
    putcEach rd fuel cs

/-- The row start addresses `HD44780_START_LINE1` to `HD44780_START_LINE4`,
indexed by the row number `0..3`. -/
def rowStart : Nat → Nat
  | 0 => HD44780_START_LINE1
  | 1 => HD44780_START_LINE2
  | 2 => HD44780_START_LINE3
  | _ => HD44780_START_LINE4

/-- A handler with `Lines = Length = 0` whose nine slots hold the addresses of
nine functions. -/
def boundHandler : HD44780_Handler_t :=
  { Lines := 0, Length := 0, PlatformInitRsRwE := some 1, PlatformSetValRs := some 2,
    PlatformSetValRw := some 3, PlatformSetValE := some 4, PlatformSetDirData := some 5,
    PlatformWriteData := some 6, PlatformReadData := some 7, PlatformDelayMs := some 8,
    PlatformDelayUs := some 9 }

/-- A world in which nothing has happened yet on the bus of `boundHandler`. -/
def freshWorld : World := { Handler := boundHandler, reads := 0, trace := [] }

/-- A display that is never busy and whose address counter is `0`. -/
def idleStream : Nat → Nat := fun _ => 0

/-- A display that reports busy on the first status read only. -/
def busyOnceStream : Nat → Nat := fun i => if i < 2 then 0x80 else 0

/-- The handler `boundHandler` with the line-initialisation hook left `NULL`. -/
def hooklessHandler : HD44780_Handler_t :=
  { boundHandler with PlatformInitRsRwE := none }

/-- A world in which nothing has happened yet on the bus of `hooklessHandler`. -/
def hooklessWorld : World := { Handler := hooklessHandler, reads := 0, trace := [] }

/-- The handler `boundHandler` with the delay slot `PlatformDelayUs` left `NULL`. -/
def delaylessHandler : HD44780_Handler_t :=
  { boundHandler with PlatformDelayUs := none }

/-- A world in which nothing has happened yet on the bus of `delaylessHandler`. -/
def delaylessWorld : World := { Handler := delaylessHandler, reads := 0, trace := [] }

/-- The row start that the chain of comparisons of `HD44780_NewLine` selects
for the address counter value `Pos`. -/
def newLineTarget (Pos : Nat) : Nat :=
  if Pos < HD44780_START_LINE3 then HD44780_START_LINE2
  else if Pos ≥ HD44780_START_LINE2 ∧ Pos < HD44780_START_LINE4 then HD44780_START_LINE3
  else if Pos ≥ HD44780_START_LINE3 ∧ Pos < HD44780_START_LINE2 then HD44780_START_LINE4
  else HD44780_START_LINE1

/-- A display that is not busy on the first status read and shows bit 7 set on
the status read that follows it. -/
def lateBusyStream : Nat → Nat := fun i => if i = 2 then 0x80 else 0

/-- No status read of the stream, wherever it starts, reports busy. -/
def NeverBusy (rd : Nat → Nat) : Prop := ∀ i, ¬ Busy rd i

/-- The handler `HD44780_Handler_t Handler = {0};` of the example
application: every field zero, every function pointer `NULL`. -/
def zeroHandler : HD44780_Handler_t :=
  { Lines := 0, Length := 0, PlatformInitRsRwE := none, PlatformSetValRs := none,
    PlatformSetValRw := none, PlatformSetValE := none, PlatformSetDirData := none,
    PlatformWriteData := none, PlatformReadData := none, PlatformDelayMs := none,
    PlatformDelayUs := none }

/-- A world in which nothing has happened yet on the bus of `zeroHandler`. -/
def zeroWorld : World := { Handler := zeroHandler, reads := 0, trace := [] }

/-- Nine function addresses, for examples. -/
def examplePlatform : PlatformFunctions :=
  { InitRsRwE := 1, SetValRs := 2, SetValRw := 3, SetValE := 4, SetDirData := 5,
    WriteData := 6, ReadData := 7, DelayMs := 8, DelayUs := 9 }

/-- A display whose first `k` status reads, counted from sample `p`, report
busy and which is not busy from then on. -/
def busyFor (p k : Nat) : Nat → Nat := fun i => if i < p + 2 * k then 0x80 else 0

/-- The nine binding fields of two handlers are the same (`Lines` and
`Length` may differ). -/
def SameBinding (h1 h2 : HD44780_Handler_t) : Prop :=
  h1.PlatformInitRsRwE = h2.PlatformInitRsRwE ∧
  h1.PlatformSetValRs = h2.PlatformSetValRs ∧ h1.PlatformSetValRw = h2.PlatformSetValRw ∧
  h1.PlatformSetValE = h2.PlatformSetValE ∧ h1.PlatformSetDirData = h2.PlatformSetDirData ∧
  h1.PlatformWriteData = h2.PlatformWriteData ∧ h1.PlatformReadData = h2.PlatformReadData ∧
  h1.PlatformDelayMs = h2.PlatformDelayMs ∧ h1.PlatformDelayUs = h2.PlatformDelayUs

instance (h1 h2 : HD44780_Handler_t) : Decidable (SameBinding h1 h2) := by
  unfold SameBinding; infer_instance

/-- Two worlds that differ at most in the fields `Lines` and `Length` of the
handler. -/
def Alike (w1 w2 : World) : Prop :=
  SameBinding w1.Handler w2.Handler ∧ w1.reads = w2.reads ∧ w1.trace = w2.trace

instance (w1 w2 : World) : Decidable (Alike w1 w2) := by
  unfold Alike; infer_instance

/-- A computation that does not look at `Lines` and `Length`: from alike worlds
it gives the same outcome and alike worlds. -/
def Blind {α : Type} (m : Bus α) : Prop :=
  ∀ w1 w2, Alike w1 w2 → (m w1).1 = (m w2).1 ∧ Alike (m w1).2 (m w2).2

/-- Two runs of a computation give the same outcome and the same bus trace. -/
def SameRun {α : Type} (m : Bus α) (w1 w2 : World) : Prop :=
  (m w1).1 = (m w2).1 ∧ (m w1).2.trace = (m w2).2.trace

/-- The world `freshWorld` after an initialisation for 2 lines of 16
characters: the same binding, `Lines = 2`, `Length = 16`. -/
def sizedWorld : World :=
  { Handler := { boundHandler with Lines := 2, Length := 16 }, reads := 0, trace := [] }

/-- Wherever a busy-wait starts, after finitely many status reads one reports
not busy. -/
def EventuallyClear (rd : Nat → Nat) : Prop := ∀ p, ∃ n, ¬ Busy rd (p + 2 * n)

/-- The computation `m fuel` run from `w` returns once the fuel reaches some
bound `F`, with a value and a world that no longer depend on the fuel; the
handler of that world still has its checked slots set. -/
def Terminates {α : Type} (m : Nat → Bus α) (w : World) : Prop :=
  ∃ F a w1, Bound w1.Handler ∧ ∀ fuel, F ≤ fuel → m fuel w = (Outcome.ret a, w1)

/-! ### Checks on traces -/

/-- The level of the E line while a trace is scanned: low, or high together
with a note whether a DelayUs(1) has passed since E was raised. -/
inductive ELevel where
  | low
  | high (delayed : Bool)
  deriving DecidableEq

/-- One event as seen on the E line.  SetE(1) is accepted only while E is low,
SetE(0) only while E is high and a DelayUs(1) has passed since it was raised;
every other SetE is refused (`none`). -/
def eStep : ELevel → Event → Option ELevel
  | ELevel.low, Event.SetE v => if v = 1 then some (ELevel.high false) else none
  | ELevel.high d, Event.SetE v => if v = 0 ∧ d = true then some ELevel.low else none
  | ELevel.high d, Event.DelayUs us => some (ELevel.high (d || decide (us = 1)))
  | s, _ => some s

/-- The level of E after a trace, `none` when an event was refused. -/
def eRun : ELevel → List Event → Option ELevel
  | s, [] => some s
  | s, e :: t =>
    match eStep s e with
    | some s1 => eRun s1 t
    | none => none

/-- The SetE events of the trace alternate SetE(1), SetE(0), starting from E
low and ending with E low, with a DelayUs(1) between each SetE(1) and the
SetE(0) that follows it. -/
def EAlternates (t : List Event) : Prop := eRun ELevel.low t = some ELevel.low

instance (t : List Event) : Decidable (EAlternates t) := by
  unfold EAlternates; infer_instance

/-- A property of trace segments that holds of the empty segment, of
concatenations, and of the segments that the building blocks of the driver
add to the trace. -/
structure SegmentInv (Q : List Event → Prop) : Prop where
  nil : Q []
  append : ∀ s t, Q s → Q t → Q (s ++ t)
  read : ∀ RS, Q (readTrace RS)
  write : ∀ Data RS, Q (writeTrace Data RS)
  delayMs : Q [Event.DelayMs 1]
  delayUs : Q [Event.DelayUs 2]
  hook : Q [Event.InitRsRwE]

/-- On a handler whose checked slots are set the computation keeps them set and
only appends to the trace, and when it returns what it has appended satisfies
`Q`. -/
def Keeps {α : Type} (Q : List Event → Prop) (m : Bus α) : Prop :=
  ∀ w, Bound w.Handler →
    Bound (m w).2.Handler ∧
    ∃ t, (m w).2.trace = w.trace ++ t ∧ ∀ a, (m w).1 = Outcome.ret a → Q t

/-- The run of `m` from `w` only appends to the trace, and when it returns what
it has appended satisfies `Q`. -/
def ReturnsWith {α : Type} (Q : List Event → Prop) (m : Bus α) (w : World) : Prop :=
  ∃ t, (m w).2.trace = w.trace ++ t ∧ ∀ a, (m w).1 = Outcome.ret a → Q t

/-- A display that reports busy on every status read. -/
def alwaysBusyStream : Nat → Nat := fun _ => 0x80

/-! ## Run lemmas -/

section RunLemmas

variable {α β : Type}

@[simp] theorem bind_run (m : Bus α) (f : α → Bus β) (w : World) :
    (m >>= f) w = Bus.bind m f w := rfl

@[simp] theorem pure_run (a : α) (w : World) :
    (pure a : Bus α) w = (Outcome.ret a, w) := rfl

theorem bind_ret {m : Bus α} {f : α → Bus β} {w w1 : World} {a : α}
    (h : m w = (Outcome.ret a, w1)) : Bus.bind m f w = f a w1 := by
  simp [Bus.bind, h]

theorem bind_halt {m : Bus α} {f : α → Bus β} {w w1 : World} {r : Halt}
    (h : m w = (Outcome.halt r, w1)) : Bus.bind m f w = (Outcome.halt r, w1) := by
  simp [Bus.bind, h]

theorem call_run (slot : HD44780_Handler_t → Option Nat) (e : Event) (w : World)
    (h : (slot w.Handler).isSome = true) :
    call slot e w = (Outcome.ret (), emit w [e]) := by
  simp [call, h, emit]

theorem emit_emit (w : World) (s t : List Event) : emit (emit w s) t = emit w (s ++ t) := by
  simp [emit]

@[simp] theorem emit_Handler (w : World) (t : List Event) : (emit w t).Handler = w.Handler := rfl

@[simp] theorem emit_reads (w : World) (t : List Event) : (emit w t).reads = w.reads := rfl

@[simp] theorem emit_trace (w : World) (t : List Event) :
    (emit w t).trace = w.trace ++ t := rfl

theorem HD44780_ToggleE_run (w : World) (hb : Bound w.Handler) :
    HD44780_ToggleE w = (Outcome.ret (), emit w [Event.SetE 1, Event.DelayUs 1, Event.SetE 0]) := by
  obtain ⟨-, -, hE, -, -, -, -, hUs⟩ := hb
  simp [HD44780_ToggleE, Bus.bind, PlatformSetValE, PlatformDelayUs, call, hE, hUs, emit]

theorem HD44780_Write_run (Data RS : Nat) (w : World) (hb : Bound w.Handler) :
    HD44780_Write Data RS w = (Outcome.ret (), emit w (writeTrace Data RS)) := by
  obtain ⟨hRs, hRw, hE, hDir, hWr, -, -, hUs⟩ := hb
  by_cases hrs : RS = 0 <;>
  simp [HD44780_Write, HD44780_ToggleE, Bus.bind, PlatformSetValRs, PlatformSetValRw,
    PlatformSetDirData, PlatformWriteData, PlatformSetValE, PlatformDelayUs, call,
    hRs, hRw, hE, hDir, hWr, hUs, emit, writeTrace, hrs]

theorem HD44780_Read_run (rd : Nat → Nat) (RS : Nat) (w : World) (hb : Bound w.Handler) :
    HD44780_Read rd RS w =
      (Outcome.ret (readValue rd w.reads), advance w 2 (readTrace RS)) := by
  obtain ⟨hRs, hRw, hE, hDir, -, hRd, -, hUs⟩ := hb
  by_cases hrs : RS = 0 <;>
  simp [HD44780_Read, Bus.bind, PlatformSetValRs, PlatformSetValRw,
    PlatformSetDirData, PlatformReadData, PlatformSetValE, PlatformDelayUs, call,
    hRs, hRw, hE, hDir, hRd, hUs, readTrace, readValue, hrs, advance]

@[simp] theorem advance_Handler (w : World) (k : Nat) (t : List Event) :
    (advance w k t).Handler = w.Handler := rfl

@[simp] theorem advance_reads (w : World) (k : Nat) (t : List Event) :
    (advance w k t).reads = w.reads + k := rfl

@[simp] theorem advance_trace (w : World) (k : Nat) (t : List Event) :
    (advance w k t).trace = w.trace ++ t := rfl

theorem advance_advance (w : World) (j k : Nat) (s t : List Event) :
    advance (advance w j s) k t = advance w (j + k) (s ++ t) := by
  simp [advance, Nat.add_assoc]

theorem emit_advance (w : World) (k : Nat) (s t : List Event) :
    emit (advance w k s) t = advance w k (s ++ t) := by
  simp [advance, emit]

theorem advance_zero (w : World) : advance w 0 [] = w := by
  simp [advance]

theorem HD44780_WaitBusy_succ (rd : Nat → Nat) (fuel : Nat) (w : World)
    (hb : Bound w.Handler) :
    HD44780_WaitBusy rd (fuel + 1) w =
      if Busy rd w.reads then
        HD44780_WaitBusy rd fuel (advance w 2 (readTrace 0 ++ [Event.DelayMs 1]))
      else
        (Outcome.ret (readValue rd (w.reads + 2)),
          advance w 4 (readTrace 0 ++ [Event.DelayUs 2] ++ readTrace 0)) := by
  have hb2 := hb
  obtain ⟨-, -, -, -, -, -, hMs, hUs⟩ := hb2
  have hr := HD44780_Read_run rd 0 w hb
  by_cases hbusy : Busy rd w.reads
  · have hc : readValue rd w.reads &&& (1 <<< HD44780_BUSY) ≠ 0 := hbusy
    simp only [HD44780_WaitBusy, bind_run, bind_ret hr, if_pos hc, if_pos hbusy]
    have hd : PlatformDelayMs 1 (advance w 2 (readTrace 0)) =
        (Outcome.ret (), emit (advance w 2 (readTrace 0)) [Event.DelayMs 1]) :=
      call_run _ _ _ hMs
    rw [bind_ret hd, emit_advance]
  · have hc : ¬ (readValue rd w.reads &&& (1 <<< HD44780_BUSY) ≠ 0) := hbusy
    simp only [HD44780_WaitBusy, bind_run, bind_ret hr, if_neg hc, if_neg hbusy]
    have hd : PlatformDelayUs 2 (advance w 2 (readTrace 0)) =
        (Outcome.ret (), emit (advance w 2 (readTrace 0)) [Event.DelayUs 2]) :=
      call_run _ _ _ hUs
    have hb3 : Bound (advance w 2 (readTrace 0 ++ [Event.DelayUs 2])).Handler := hb
    rw [bind_ret hd, emit_advance, HD44780_Read_run rd 0 _ hb3, advance_advance]
    simp

/-- While the status reads report busy, `HD44780_WaitBusy` goes round its
loop. -/
theorem HD44780_WaitBusy_polls (rd : Nat → Nat) :
    ∀ (n fuel : Nat) (w : World), Bound w.Handler →
      (∀ k, k < n → Busy rd (w.reads + 2 * k)) →
      HD44780_WaitBusy rd (n + fuel) w =
        HD44780_WaitBusy rd fuel (advance w (2 * n) (pollTrace n)) := by
  intro n
  induction n with
  | zero => intro fuel w _ _; simp [pollTrace, advance_zero]
  | succ n ih =>
    intro fuel w hb hbusy
    have h0 : Busy rd w.reads := by simpa using hbusy 0 (Nat.succ_pos n)
    have e : n + 1 + fuel = (n + fuel) + 1 := by omega
    rw [e, HD44780_WaitBusy_succ rd (n + fuel) w hb, if_pos h0]
    have hb1 : Bound (advance w 2 (readTrace 0 ++ [Event.DelayMs 1])).Handler := hb
    rw [ih fuel _ hb1, advance_advance]
    · have e2 : 2 + 2 * n = 2 * (n + 1) := by omega
      simp only [e2, pollTrace, List.append_assoc]
    · intro k hk
      have := hbusy (k + 1) (by omega)
      have e3 : w.reads + 2 + 2 * k = w.reads + 2 * (k + 1) := by omega
      simpa [e3] using this

/-- When the status read number `n` is the first that reports not busy and the
fuel allows more than `n` rounds, `HD44780_WaitBusy` returns the byte of one
further status read. -/
theorem HD44780_WaitBusy_run (rd : Nat → Nat) (n fuel : Nat) (w : World)
    (hb : Bound w.Handler) (hc : FirstClear rd w.reads n) (hf : n < fuel) :
    HD44780_WaitBusy rd fuel w =
      (Outcome.ret (readValue rd (w.reads + 2 * n + 2)), afterWait w n) := by
  obtain ⟨f, rfl⟩ : ∃ f, fuel = n + (f + 1) := ⟨fuel - n - 1, by omega⟩
  rw [HD44780_WaitBusy_polls rd n (f + 1) w hb hc.1]
  have hb1 : Bound (advance w (2 * n) (pollTrace n)).Handler := hb
  have hc2 : ¬ Busy rd (advance w (2 * n) (pollTrace n)).reads := hc.2
  rw [HD44780_WaitBusy_succ rd f _ hb1, if_neg hc2, advance_advance]
  simp [afterWait, waitTrace, Nat.add_assoc]

/-- With all status reads busy for as long as the fuel lasts, `HD44780_WaitBusy`
is still polling when the fuel is used up. -/
theorem HD44780_WaitBusy_stuck (rd : Nat → Nat) (fuel : Nat) (w : World)
    (hb : Bound w.Handler) (hbusy : ∀ k, k < fuel → Busy rd (w.reads + 2 * k)) :
    HD44780_WaitBusy rd fuel w =
      (Outcome.halt Halt.outOfFuel, advance w (2 * fuel) (pollTrace fuel)) := by
  have := HD44780_WaitBusy_polls rd fuel 0 w hb hbusy
  simpa [HD44780_WaitBusy, Bus.halt] using this

theorem HD44780_Command_run (rd : Nat → Nat) (n fuel Cmd : Nat) (w : World)
    (hb : Bound w.Handler) (hc : FirstClear rd w.reads n) (hf : n < fuel) :
    HD44780_Command rd fuel Cmd w =
      (Outcome.ret HD44780_Result_t.HD44780_OK, emit (afterWait w n) (writeTrace Cmd 0)) := by
  have hw := HD44780_WaitBusy_run rd n fuel w hb hc hf
  have hb1 : Bound (afterWait w n).Handler := hb
  simp only [HD44780_Command, bind_run, bind_ret hw,
    bind_ret (HD44780_Write_run Cmd 0 _ hb1), pure_run]

/-! ### Initialisation -/

theorem not_Bound_iff (h : HD44780_Handler_t) :
    ¬ Bound h ↔
      (h.PlatformSetValRs = none ∨ h.PlatformSetValRw = none ∨ h.PlatformSetValE = none ∨
       h.PlatformSetDirData = none ∨ h.PlatformWriteData = none ∨ h.PlatformReadData = none ∨
       h.PlatformDelayMs = none ∨ h.PlatformDelayUs = none) := by
  simp only [Bound, Option.isSome_iff_ne_none]
  tauto

/-- The optional call of the hook at the start of `HD44780_Init`. -/
theorem hook_run (w : World) :
    (if w.Handler.PlatformInitRsRwE ≠ none then PlatformInitRsRwE else pure ()) w =
      (Outcome.ret (), emit w (hookTrace w.Handler)) := by
  cases hh : w.Handler.PlatformInitRsRwE with
  | none => simp [hookTrace, hh, emit]
  | some a => simp [hookTrace, hh, emit, PlatformInitRsRwE, call]

theorem getHandler_run (w : World) : getHandler w = (Outcome.ret w.Handler, w) := rfl

theorem modifyHandler_run (f : HD44780_Handler_t → HD44780_Handler_t) (w : World) :
    modifyHandler f w = (Outcome.ret (), { w with Handler := f w.Handler }) := rfl

/-- One step of a sequence: run the first computation, go on with the rest. -/
theorem bind_step {m : Bus α} {f : α → Bus β} {w w1 : World} {a : α} {r : Outcome β × World}
    (h : m w = (Outcome.ret a, w1)) (hr : f a w1 = r) : (m >>= f) w = r := by
  rw [bind_run, bind_ret h, hr]

theorem HD44780_Init_fail (rd : Nat → Nat) (fuel Lines Length DispAttr : Nat) (w : World)
    (hb : ¬ Bound w.Handler) :
    HD44780_Init rd fuel Lines Length DispAttr w =
      (Outcome.ret HD44780_Result_t.HD44780_FAIL, emit w (hookTrace w.Handler)) := by
  have hn := (not_Bound_iff w.Handler).1 hb
  unfold HD44780_Init
  apply bind_step (getHandler_run w)
  apply bind_step (hook_run w)
  apply bind_step (getHandler_run _)
  rw [emit_Handler, if_pos hn]
  rfl

theorem HD44780_Init_run (rd : Nat → Nat) (fuel Lines Length DispAttr : Nat) (w : World)
    (n1 n2 n3 n4 n5 : Nat) (hb : Bound w.Handler)
    (hc : WaitsClear rd w.reads [n1, n2, n3, n4, n5])
    (hf : n1 < fuel ∧ n2 < fuel ∧ n3 < fuel ∧ n4 < fuel ∧ n5 < fuel) :
    HD44780_Init rd fuel Lines Length DispAttr w =
      (Outcome.ret HD44780_Result_t.HD44780_OK,
        { Handler := { w.Handler with Lines := Lines, Length := Length },
          reads := w.reads + (2 * n1 + 4) + (2 * n2 + 4) + (2 * n3 + 4) + (2 * n4 + 4) +
            (2 * n5 + 4),
          trace := w.trace ++ hookTrace w.Handler ++ initTrace n1 n2 n3 n4 n5 DispAttr }) := by
  have hn : ¬ (w.Handler.PlatformSetValRs = none ∨ w.Handler.PlatformSetValRw = none ∨
      w.Handler.PlatformSetValE = none ∨ w.Handler.PlatformSetDirData = none ∨
      w.Handler.PlatformWriteData = none ∨ w.Handler.PlatformReadData = none ∨
      w.Handler.PlatformDelayMs = none ∨ w.Handler.PlatformDelayUs = none) :=
    fun h => (not_Bound_iff w.Handler).2 h hb
  obtain ⟨hc1, hc2, hc3, hc4, hc5, -⟩ := hc
  obtain ⟨hf1, hf2, hf3, hf4, hf5⟩ := hf
  -- the worlds between the steps
  let w1 : World :=
    { Handler := { w.Handler with Lines := Lines, Length := Length }, reads := w.reads,
      trace := w.trace ++ hookTrace w.Handler }
  let w2 : World := emit (emit w1 (writeTrace 0x33 0)) (writeTrace 0x32 0)
  let w3 : World := emit (afterWait w2 n1) (writeTrace HD44780_FUNCTION_DEFAULT 0)
  let w4 : World := emit (afterWait w3 n2) (writeTrace HD44780_DISP_OFF 0)
  let w5 : World := emit (afterWait w4 n3) (writeTrace (1 <<< HD44780_CLR) 0)
  let w6 : World := emit (afterWait w5 n4) (writeTrace HD44780_MODE_DEFAULT 0)
  let w7 : World := emit (afterWait w6 n5) (writeTrace DispAttr 0)
  have e33 := HD44780_Write_run 0x33 0 w1 hb
  have e32 := HD44780_Write_run 0x32 0 (emit w1 (writeTrace 0x33 0)) hb
  have c1 := HD44780_Command_run rd n1 fuel HD44780_FUNCTION_DEFAULT w2 hb hc1 hf1
  have c2 := HD44780_Command_run rd n2 fuel HD44780_DISP_OFF w3 hb hc2 hf2
  have c3 := HD44780_Command_run rd n3 fuel (1 <<< HD44780_CLR) w4 hb hc3 hf3
  have c4 := HD44780_Command_run rd n4 fuel HD44780_MODE_DEFAULT w5 hb hc4 hf4
  have c5 := HD44780_Command_run rd n5 fuel DispAttr w6 hb hc5 hf5
  have cs : HD44780_ClearScreen rd fuel w4 = (Outcome.ret HD44780_Result_t.HD44780_OK, w5) :=
    bind_step c3 rfl
  have hw7 : w7 =
      { Handler := { w.Handler with Lines := Lines, Length := Length },
        reads := w.reads + (2 * n1 + 4) + (2 * n2 + 4) + (2 * n3 + 4) + (2 * n4 + 4) +
          (2 * n5 + 4),
        trace := w.trace ++ hookTrace w.Handler ++ initTrace n1 n2 n3 n4 n5 DispAttr } := by
    simp [w7, w6, w5, w4, w3, w2, w1, afterWait, advance, emit, initTrace,
      HD44780_FUNCTION_DEFAULT, Hd44780_FUNCTION_4BIT_2LINES, HD44780_DISP_OFF, HD44780_CLR,
      HD44780_MODE_DEFAULT, HD44780_ENTRY_MODE, HD44780_ENTRY_INC]
  rw [← hw7]
  unfold HD44780_Init
  apply bind_step (getHandler_run w)
  apply bind_step (hook_run w)
  apply bind_step (getHandler_run _)
  rw [emit_Handler, if_neg hn]
  apply bind_step (modifyHandler_run _ _)
  apply bind_step (modifyHandler_run _ _)
  apply bind_step e33
  apply bind_step e32
  apply bind_step c1
  apply bind_step c2
  apply bind_step cs
  apply bind_step c4
  apply bind_step c5
  rfl

/-- Below bit 7, adding to 0x80 and or-ing with 0x80 give the same byte. -/
theorem add_eq_or_of_lt (a : Nat) (h : a < 0x80) : (0x80 + a) % 256 = 0x80 ||| a := by
  have h1 := Nat.mul_add_lt_is_or (show a < 2 ^ 7 from h) 1
  norm_num at h1
  rw [Nat.mod_eq_of_lt (by omega)]
  exact h1

/-! ### What every bus operation leaves alone -/

theorem Steady_pure (a : α) : Steady (pure a : Bus α) :=
  fun _ => ⟨rfl, [], by simp, by simp⟩

theorem Steady_halt (r : Halt) : Steady (Bus.halt r : Bus α) :=
  fun _ => ⟨rfl, [], by simp [Bus.halt], by simp⟩

theorem Steady_call (slot : HD44780_Handler_t → Option Nat) (e : Event)
    (he : e ≠ Event.InitRsRwE) : Steady (call slot e) := by
  intro w
  by_cases h : (slot w.Handler).isSome = true
  · exact ⟨by simp [call, h], [e], by simp [call, h], by simpa using he.symm⟩
  · exact ⟨by simp [call, h], [], by simp [call, h], by simp⟩

theorem Steady_PlatformReadData (rd : Nat → Nat) : Steady (PlatformReadData rd) := by
  intro w
  by_cases h : w.Handler.PlatformReadData.isSome = true
  · exact ⟨by simp [PlatformReadData, h], [Event.ReadData], by simp [PlatformReadData, h],
      by simp⟩
  · exact ⟨by simp [PlatformReadData, h], [], by simp [PlatformReadData, h], by simp⟩

theorem Steady_bind {m : Bus α} {f : α → Bus β} (hm : Steady m)
    (hf : ∀ a, Steady (f a)) : Steady (m >>= f) := by
  intro w
  obtain ⟨hh, t, ht, hn⟩ := hm w
  rcases hmw : m w with ⟨o, w1⟩
  rw [hmw] at ht hh
  simp only at ht hh
  cases o with
  | ret a =>
    obtain ⟨hh2, u, hu, hn2⟩ := hf a w1
    simp only [bind_run, bind_ret hmw]
    refine ⟨hh2.trans hh, t ++ u, ?_, ?_⟩
    · rw [hu, ht, List.append_assoc]
    · simp [hn, hn2]
  | halt r =>
    simp only [bind_run, bind_halt hmw]
    exact ⟨hh, t, ht, hn⟩

theorem Steady_ite (c : Prop) [Decidable c] {a b : Bus α} (ha : Steady a) (hb : Steady b) :
    Steady (if c then a else b) := by
  split <;> assumption

/-- The trace after a steady computation extends the trace before it. -/
theorem Steady.grows {m : Bus α} (hm : Steady m) (w : World) :
    ∃ t, (m w).2.trace = w.trace ++ t :=
  let ⟨_, t, ht, _⟩ := hm w
  ⟨t, ht⟩

theorem Steady_ToggleE : Steady HD44780_ToggleE := by
  unfold HD44780_ToggleE
  repeat
    first
    | exact Steady_call _ _ (by simp)
    | apply Steady_bind
    | intro _

theorem Steady_Write (Data RS : Nat) : Steady (HD44780_Write Data RS) := by
  unfold HD44780_Write
  repeat
    first
    | exact Steady_call _ _ (by simp)
    | exact Steady_ToggleE
    | apply Steady_ite
    | apply Steady_bind
    | intro _
    | dsimp only

theorem Steady_Read (rd : Nat → Nat) (RS : Nat) : Steady (HD44780_Read rd RS) := by
  unfold HD44780_Read
  repeat
    first
    | exact Steady_call _ _ (by simp)
    | exact Steady_PlatformReadData rd
    | exact Steady_pure _
    | apply Steady_ite
    | apply Steady_bind
    | intro _
    | dsimp only

theorem Steady_WaitBusy (rd : Nat → Nat) : ∀ fuel, Steady (HD44780_WaitBusy rd fuel)
  | 0 => Steady_halt _
  | fuel + 1 => by
    have ih := Steady_WaitBusy rd fuel
    unfold HD44780_WaitBusy
    repeat
      first
      | exact Steady_call _ _ (by simp)
      | exact Steady_Read rd 0
      | exact ih
      | apply Steady_ite
      | apply Steady_bind
      | intro _
      | dsimp only

theorem Steady_Command (rd : Nat → Nat) (fuel Cmd : Nat) :
    Steady (HD44780_Command rd fuel Cmd) := by
  unfold HD44780_Command
  repeat
    first
    | exact Steady_WaitBusy rd fuel
    | exact Steady_Write _ _
    | exact Steady_pure _
    | apply Steady_bind
    | intro _
    | dsimp only

theorem Steady_NewLine (rd : Nat → Nat) (fuel Pos : Nat) :
    Steady (HD44780_NewLine rd fuel Pos) := by
  unfold HD44780_NewLine
  repeat
    first
    | exact Steady_Command rd fuel _
    | exact Steady_pure _
    | apply Steady_bind
    | intro _
    | dsimp only

/-! ### The busy-wait keeps write-mode events back -/

theorem readTrace_quiet : ∀ x ∈ readTrace 0, isWriteMode x = false := by decide

theorem pollTrace_quiet : ∀ n, ∀ x ∈ pollTrace n, isWriteMode x = false
  | 0 => by simp [pollTrace]
  | n + 1 => by
    intro x hx
    simp only [pollTrace, List.mem_append, List.mem_singleton] at hx
    rcases hx with (hx | hx) | hx
    · exact readTrace_quiet x hx
    · subst hx; rfl
    · exact pollTrace_quiet n x hx

theorem countReads_append (s t : List Event) :
    countReads (s ++ t) = countReads s + countReads t := by
  simp [countReads]

theorem countReads_pollTrace : ∀ n, countReads (pollTrace n) = 2 * n
  | 0 => rfl
  | n + 1 => by
    have h1 : countReads (readTrace 0) = 2 := by decide
    have h2 : countReads [Event.DelayMs 1] = 0 := by decide
    simp only [pollTrace, countReads_append, countReads_pollTrace n, h1, h2]
    omega

theorem split_after_quiet (e : Event) (he : isWriteMode e = true) (rest post : List Event) :
    ∀ (A pre : List Event), (∀ x ∈ A, isWriteMode x = false) →
      A ++ rest = pre ++ e :: post → ∃ r, pre = A ++ r
  | [], pre, _, _ => ⟨pre, rfl⟩
  | a :: A, [], hA, h => by
    have ha : a = e := by simpa using congrArg List.head? h
    have := hA a (List.mem_cons_self a A)
    rw [ha, he] at this
    exact absurd this (by decide)
  | a :: A, p :: pre, hA, h => by
    simp only [List.cons_append, List.cons.injEq] at h
    obtain ⟨r, hr⟩ := split_after_quiet e he rest post A pre
      (fun x hx => hA x (List.mem_cons_of_mem a hx)) h.2
    exact ⟨r, by rw [h.1, hr]; rfl⟩

/-- A trace that starts with a stretch free of write-mode events, holding at
least `2 * (n + 1)` samples unless nothing follows it, keeps every write-mode
event behind `n + 1` status reads. -/
theorem NoWriteBefore_of_quiet (n : Nat) (w w1 : World) (A rest : List Event)
    (ht : w1.trace = w.trace ++ A ++ rest) (hA : ∀ x ∈ A, isWriteMode x = false)
    (hn : rest = [] ∨ 2 * (n + 1) ≤ countReads A) : NoWriteBefore n w w1 := by
  intro pre e post hsplit he
  rw [ht, List.append_assoc, List.append_assoc] at hsplit
  have h := List.append_cancel_left hsplit
  obtain ⟨r, hr⟩ := split_after_quiet e he rest post A pre hA h
  rcases hn with hn | hn
  · subst hn
    have hmem : e ∈ A := by
      have : e ∈ A ++ [] := by rw [h]; simp
      simpa using this
    rw [hA e hmem] at he
    exact absurd he (by decide)
  · rw [hr, countReads_append]
    omega

/-- A busy-wait followed by anything: the trace starts with the polls, which
hold no write-mode event. -/
theorem wait_then_quiet (rd : Nat → Nat) (k : Nat → Bus α) (hk : ∀ a, Steady (k a))
    (n fuel : Nat) (w : World) (hb : Bound w.Handler)
    (hbusy : ∀ i, i < n → Busy rd (w.reads + 2 * i)) :
    NoWriteBefore n w ((HD44780_WaitBusy rd fuel >>= k) w).2 := by
  by_cases hf : fuel ≤ n
  · have hs := HD44780_WaitBusy_stuck rd fuel w hb (fun i hi => hbusy i (by omega))
    apply NoWriteBefore_of_quiet n w _ (pollTrace fuel) [] _ (pollTrace_quiet fuel) (Or.inl rfl)
    simp only [bind_run, bind_halt hs, advance_trace, List.append_nil]
  · obtain ⟨f, rfl⟩ : ∃ f, fuel = n + (f + 1) := ⟨fuel - n - 1, by omega⟩
    have hp := HD44780_WaitBusy_polls rd n (f + 1) w hb hbusy
    have hb1 : Bound (advance w (2 * n) (pollTrace n)).Handler := hb
    rw [HD44780_WaitBusy_succ rd f _ hb1] at hp
    have hq : ∀ x ∈ pollTrace n ++ readTrace 0, isWriteMode x = false := by
      intro x hx
      rcases List.mem_append.1 hx with hx | hx
      · exact pollTrace_quiet n x hx
      · exact readTrace_quiet x hx
    have hcount : 2 * (n + 1) ≤ countReads (pollTrace n ++ readTrace 0) := by
      have h1 : countReads (readTrace 0) = 2 := by decide
      rw [countReads_append, countReads_pollTrace, h1]
      omega
    by_cases hbz : Busy rd (advance w (2 * n) (pollTrace n)).reads
    · rw [if_pos hbz, advance_advance] at hp
      obtain ⟨t, ht⟩ := (Steady_bind (Steady_WaitBusy rd f) hk).grows
        (advance w (2 * n + 2) (pollTrace n ++ (readTrace 0 ++ [Event.DelayMs 1])))
      have heq : (HD44780_WaitBusy rd (n + (f + 1)) >>= k) w =
          (HD44780_WaitBusy rd f >>= k)
            (advance w (2 * n + 2) (pollTrace n ++ (readTrace 0 ++ [Event.DelayMs 1]))) := by
        simp only [bind_run, Bus.bind, hp]
      apply NoWriteBefore_of_quiet n w _ (pollTrace n ++ readTrace 0)
        ([Event.DelayMs 1] ++ t) _ hq (Or.inr hcount)
      rw [heq, ht]
      simp
    · rw [if_neg hbz, advance_advance] at hp
      obtain ⟨t, ht⟩ := (hk (readValue rd ((advance w (2 * n) (pollTrace n)).reads + 2))).grows
        (advance w (2 * n + 4) (pollTrace n ++ (readTrace 0 ++ [Event.DelayUs 2] ++ readTrace 0)))
      apply NoWriteBefore_of_quiet n w _ (pollTrace n ++ readTrace 0)
        ([Event.DelayUs 2] ++ readTrace 0 ++ t) _ hq (Or.inr hcount)
      simp only [bind_run, bind_ret hp, ht]
      simp

/-- A busy-wait that uses up its fuel halts whatever follows it. -/
theorem wait_then_stuck (rd : Nat → Nat) (k : Nat → Bus α)
    (fuel : Nat) (w : World) (hb : Bound w.Handler)
    (hbusy : ∀ i, i < fuel → Busy rd (w.reads + 2 * i)) :
    (HD44780_WaitBusy rd fuel >>= k) w =
      (Outcome.halt Halt.outOfFuel, advance w (2 * fuel) (pollTrace fuel)) := by
  simp only [bind_run, bind_halt (HD44780_WaitBusy_stuck rd fuel w hb hbusy)]

/-! ### The two branches of `HD44780_Init` -/

theorem Steady_ClearScreen (rd : Nat → Nat) (fuel : Nat) :
    Steady (HD44780_ClearScreen rd fuel) := by
  unfold HD44780_ClearScreen
  repeat
    first
    | exact Steady_Command rd fuel _
    | exact Steady_pure _
    | apply Steady_bind
    | intro _
    | dsimp only

theorem Steady_initSequence (rd : Nat → Nat) (fuel DispAttr : Nat) :
    Steady (initSequence rd fuel DispAttr) := by
  unfold initSequence
  repeat
    first
    | exact Steady_Command rd fuel _
    | exact Steady_ClearScreen rd fuel
    | exact Steady_Write _ _
    | exact Steady_pure _
    | apply Steady_bind
    | intro _
    | dsimp only

/-- With the eight checked slots set, `HD44780_Init` calls the hook if there is
one, stores `Lines` and `Length`, and runs the command sequence. -/
theorem HD44780_Init_bound (rd : Nat → Nat) (fuel Lines Length DispAttr : Nat) (w : World)
    (hb : Bound w.Handler) :
    HD44780_Init rd fuel Lines Length DispAttr w =
      initSequence rd fuel DispAttr
        { Handler := { w.Handler with Lines := Lines, Length := Length }, reads := w.reads,
          trace := w.trace ++ hookTrace w.Handler } := by
  have hn : ¬ (w.Handler.PlatformSetValRs = none ∨ w.Handler.PlatformSetValRw = none ∨
      w.Handler.PlatformSetValE = none ∨ w.Handler.PlatformSetDirData = none ∨
      w.Handler.PlatformWriteData = none ∨ w.Handler.PlatformReadData = none ∨
      w.Handler.PlatformDelayMs = none ∨ w.Handler.PlatformDelayUs = none) :=
    fun h => (not_Bound_iff w.Handler).2 h hb
  unfold HD44780_Init
  apply bind_step (getHandler_run w)
  apply bind_step (hook_run w)
  apply bind_step (getHandler_run _)
  rw [emit_Handler, if_neg hn]
  apply bind_step (modifyHandler_run _ _)
  apply bind_step (modifyHandler_run _ _)
  rfl

theorem bind_ne_fail {m : Bus α} {f : α → Bus HD44780_Result_t}
    (hf : ∀ a w1, (f a w1).1 ≠ Outcome.ret HD44780_Result_t.HD44780_FAIL) (w : World) :
    ((m >>= f) w).1 ≠ Outcome.ret HD44780_Result_t.HD44780_FAIL := by
  rcases hmw : m w with ⟨o, w1⟩
  cases o with
  | ret a => rw [bind_run, bind_ret hmw]; exact hf a w1
  | halt r => rw [bind_run, bind_halt hmw]; simp

/-- The command sequence of `HD44780_Init` returns `HD44780_OK` if it returns. -/
theorem initSequence_ne_fail (rd : Nat → Nat) (fuel DispAttr : Nat) (w : World) :
    (initSequence rd fuel DispAttr w).1 ≠ Outcome.ret HD44780_Result_t.HD44780_FAIL := by
  unfold initSequence
  refine bind_ne_fail (fun _ _ => ?_) w
  refine bind_ne_fail (fun _ _ => ?_) _
  refine bind_ne_fail (fun _ _ => ?_) _
  refine bind_ne_fail (fun _ _ => ?_) _
  refine bind_ne_fail (fun _ _ => ?_) _
  refine bind_ne_fail (fun _ _ => ?_) _
  refine bind_ne_fail (fun _ _ => ?_) _
  simp

/-- On a display that is never busy every busy-wait sees no busy status read. -/
theorem idle_FirstClear (p : Nat) : FirstClear idleStream p 0 :=
  ⟨fun k hk => absurd hk (Nat.not_lt_zero k), by simp [Busy, readValue, idleStream]⟩

theorem idle_WaitsClear : ∀ (ns : List Nat) (p : Nat), (∀ n ∈ ns, n = 0) →
    WaitsClear idleStream p ns
  | [], _, _ => trivial
  | n :: ns, p, h => by
    have hn : n = 0 := h n (List.mem_cons_self n ns)
    subst hn
    exact ⟨idle_FirstClear p, idle_WaitsClear ns _ (fun m hm => h m (List.mem_cons_of_mem 0 hm))⟩

theorem waitTrace_quiet (n : Nat) : ∀ x ∈ waitTrace n, isWriteMode x = false := by
  intro x hx
  simp only [waitTrace, List.mem_append, List.mem_singleton] at hx
  rcases hx with ((hx | hx) | hx) | hx
  · exact pollTrace_quiet n x hx
  · exact readTrace_quiet x hx
  · subst hx; rfl
  · exact readTrace_quiet x hx

theorem hookTrace_quiet (h : HD44780_Handler_t) : ∀ x ∈ hookTrace h, isWriteMode x = false := by
  intro x hx
  unfold hookTrace at hx
  split at hx
  · simp only [List.mem_singleton] at hx; subst hx; rfl
  · simp at hx

theorem SlotMissing_iff (h : HD44780_Handler_t) : SlotMissing h ↔ ¬ Bound h :=
  (not_Bound_iff h).symm

/-! ### Strings -/

theorem HD44780_Puts_untilNull_eq (rd : Nat → Nat) (fuel : Nat) (post : List Int) :
    ∀ pre : List Int, (∀ c ∈ pre, c ≠ 0) →
      HD44780_Puts_untilNull rd fuel (pre ++ 0 :: post) = putcEach rd fuel pre
  | [], _ => by simp [HD44780_Puts_untilNull, putcEach]
  | c :: pre, h => by
    have hc : c ≠ 0 := h c (List.mem_cons_self c pre)
    have ih := HD44780_Puts_untilNull_eq rd fuel post pre
      (fun d hd => h d (List.mem_cons_of_mem c hd))
    simp only [List.cons_append, HD44780_Puts_untilNull, putcEach, if_pos hc]
    rw [← ih]
    rfl

/-! ### New line, characters and data bytes -/

theorem newLineTarget_le (Pos : Nat) : newLineTarget Pos ≤ 0x54 := by
  unfold newLineTarget
  split
  · decide
  · split
    · decide
    · split <;> decide

/-- `HD44780_NewLine` is one `HD44780_Command` of the byte 0x80 plus the
selected row start. -/
theorem HD44780_NewLine_eq (rd : Nat → Nat) (fuel Pos : Nat) :
    HD44780_NewLine rd fuel Pos =
      (HD44780_Command rd fuel (0x80 + newLineTarget Pos) >>= fun _ => pure ()) := by
  have h : ((1 <<< HD44780_DDRAM) + newLineTarget Pos) % 256 = 0x80 + newLineTarget Pos := by
    have hle := newLineTarget_le Pos
    have h7 : (1 <<< HD44780_DDRAM : Nat) = 0x80 := by decide
    rw [h7]
    exact Nat.mod_eq_of_lt (by omega)
  have hdef : HD44780_NewLine rd fuel Pos =
      (HD44780_Command rd fuel (((1 <<< HD44780_DDRAM) + newLineTarget Pos) % 256) >>=
        fun _ => pure ()) := rfl
  rw [hdef, h]

theorem HD44780_NewLine_run (rd : Nat → Nat) (n fuel Pos : Nat) (w : World)
    (hb : Bound w.Handler) (hc : FirstClear rd w.reads n) (hf : n < fuel) :
    HD44780_NewLine rd fuel Pos w =
      (Outcome.ret (), emit (afterWait w n) (writeTrace (0x80 + newLineTarget Pos) 0)) := by
  rw [HD44780_NewLine_eq]
  exact bind_step (HD44780_Command_run rd n fuel _ w hb hc hf) rfl

theorem HD44780_Data_run (rd : Nat → Nat) (n fuel Data : Nat) (w : World)
    (hb : Bound w.Handler) (hc : FirstClear rd w.reads n) (hf : n < fuel) :
    HD44780_Data rd fuel Data w =
      (Outcome.ret HD44780_Result_t.HD44780_OK, emit (afterWait w n) (writeTrace Data 1)) := by
  have hw := HD44780_WaitBusy_run rd n fuel w hb hc hf
  have hb1 : Bound (afterWait w n).Handler := hb
  exact bind_step hw (bind_step (HD44780_Write_run Data 1 _ hb1) rfl)

theorem HD44780_ClearScreen_run (rd : Nat → Nat) (n fuel : Nat) (w : World)
    (hb : Bound w.Handler) (hc : FirstClear rd w.reads n) (hf : n < fuel) :
    HD44780_ClearScreen rd fuel w =
      (Outcome.ret HD44780_Result_t.HD44780_OK, emit (afterWait w n) (writeTrace 0x01 0)) :=
  bind_step (HD44780_Command_run rd n fuel _ w hb hc hf) rfl

theorem HD44780_Home_run (rd : Nat → Nat) (n fuel : Nat) (w : World)
    (hb : Bound w.Handler) (hc : FirstClear rd w.reads n) (hf : n < fuel) :
    HD44780_Home rd fuel w =
      (Outcome.ret HD44780_Result_t.HD44780_OK, emit (afterWait w n) (writeTrace 0x02 0)) :=
  bind_step (HD44780_Command_run rd n fuel _ w hb hc hf) rfl

/-- A character other than the line feed: one busy-wait, one data write. -/
theorem HD44780_Putc_run_char (rd : Nat → Nat) (n fuel : Nat) (C : Int) (w : World)
    (hC : C ≠ 10) (hb : Bound w.Handler) (hc : FirstClear rd w.reads n) (hf : n < fuel) :
    HD44780_Putc rd fuel C w =
      (Outcome.ret HD44780_Result_t.HD44780_OK,
        emit (afterWait w n) (writeTrace (C % 256).toNat 1)) := by
  have hw := HD44780_WaitBusy_run rd n fuel w hb hc hf
  have hb1 : Bound (afterWait w n).Handler := hb
  unfold HD44780_Putc
  apply bind_step hw
  rw [if_neg hC]
  exact bind_step (HD44780_Write_run _ 1 _ hb1) rfl

/-- The line feed: one busy-wait, whose result selects the row, then the
busy-wait and the instruction write of `HD44780_Command`. -/
theorem HD44780_Putc_run_newline (rd : Nat → Nat) (n1 n2 fuel : Nat) (w : World)
    (hb : Bound w.Handler) (hc : WaitsClear rd w.reads [n1, n2])
    (hf : n1 < fuel ∧ n2 < fuel) :
    HD44780_Putc rd fuel 10 w =
      (Outcome.ret HD44780_Result_t.HD44780_OK,
        emit (afterWait (afterWait w n1) n2)
          (writeTrace (0x80 + newLineTarget (readValue rd (w.reads + 2 * n1 + 2))) 0)) := by
  obtain ⟨hc1, hc2, -⟩ := hc
  have hw := HD44780_WaitBusy_run rd n1 fuel w hb hc1 hf.1
  have hb1 : Bound (afterWait w n1).Handler := hb
  unfold HD44780_Putc
  apply bind_step hw
  rw [if_pos rfl]
  exact bind_step (HD44780_NewLine_run rd n2 fuel _ _ hb1 hc2 hf.2) rfl

theorem length_writeTrace (Data RS : Nat) : (writeTrace Data RS).length = 12 := rfl

theorem length_readTrace (RS : Nat) : (readTrace RS).length = 12 := rfl

theorem length_pollTrace : ∀ n, (pollTrace n).length = 13 * n
  | 0 => rfl
  | n + 1 => by
    simp only [pollTrace, List.length_append, length_readTrace, List.length_singleton,
      length_pollTrace n]
    omega

theorem length_waitTrace (n : Nat) : (waitTrace n).length = 13 * n + 25 := by
  simp only [waitTrace, List.length_append, length_readTrace, List.length_singleton,
    length_pollTrace]

theorem countReads_waitTrace (n : Nat) : countReads (waitTrace n) = 2 * n + 4 := by
  have h1 : countReads (readTrace 0) = 2 := by decide
  have h2 : countReads [Event.DelayUs 2] = 0 := by decide
  simp only [waitTrace, countReads_append, countReads_pollTrace, h1, h2]

theorem NeverBusy.firstClear {rd : Nat → Nat} (h : NeverBusy rd) (p : Nat) :
    FirstClear rd p 0 :=
  ⟨fun k hk => absurd hk (Nat.not_lt_zero k), h p⟩

theorem idleStream_NeverBusy : NeverBusy idleStream :=
  fun i => (idle_FirstClear i).2

theorem HD44780_Puts_counted_null (rd : Nat → Nat) (fuel : Nat) (post : List Int) :
    ∀ (pre : List Int) (Len : Nat), (∀ c ∈ pre, c ≠ 0) → pre.length < Len →
      HD44780_Puts_counted rd fuel Len (pre ++ 0 :: post) = putcEach rd fuel pre
  | [], 0, _, h => absurd h (Nat.lt_irrefl 0)
  | [], Len + 1, _, _ => by simp [HD44780_Puts_counted, putcEach]
  | c :: pre, 0, _, h => absurd h (Nat.not_lt_zero _)
  | c :: pre, Len + 1, h, hl => by
    have hc : c ≠ 0 := h c (List.mem_cons_self c pre)
    have ih := HD44780_Puts_counted_null rd fuel post pre Len
      (fun d hd => h d (List.mem_cons_of_mem c hd))
      (by simpa using hl)
    simp only [List.cons_append, HD44780_Puts_counted, putcEach, if_neg hc]
    rw [← ih]
    rfl

theorem HD44780_Puts_counted_full (rd : Nat → Nat) (fuel : Nat) (post : List Int) :
    ∀ (pre : List Int) (Len : Nat), (∀ c ∈ pre, c ≠ 0) → pre.length = Len →
      HD44780_Puts_counted rd fuel Len (pre ++ post) = putcEach rd fuel pre
  | [], 0, _, _ => by simp [HD44780_Puts_counted, putcEach]
  | [], Len + 1, _, h => absurd h (by simp)
  | c :: pre, 0, _, h => absurd h (by simp)
  | c :: pre, Len + 1, h, hl => by
    have hc : c ≠ 0 := h c (List.mem_cons_self c pre)
    have ih := HD44780_Puts_counted_full rd fuel post pre Len
      (fun d hd => h d (List.mem_cons_of_mem c hd))
      (by simpa using hl)
    simp only [List.cons_append, HD44780_Puts_counted, putcEach, if_neg hc]
    rw [← ih]
    rfl

/-! ### Results of the public functions -/

/-- A computation that ends with `pure HD44780_OK` returns `HD44780_OK` if it
returns. -/
theorem bind_ok {m : Bus α} {w : World} {r : HD44780_Result_t}
    (h : ((m >>= fun _ => (pure HD44780_Result_t.HD44780_OK : Bus HD44780_Result_t)) w).1 =
      Outcome.ret r) : r = HD44780_Result_t.HD44780_OK := by
  rcases hmw : m w with ⟨o, w1⟩
  cases o with
  | ret a =>
    rw [bind_run, bind_ret hmw] at h
    simpa using h.symm
  | halt e =>
    rw [bind_run, bind_halt hmw] at h
    simp at h

theorem bind_assoc_run (m : Bus α) (f : α → Bus β) (g : β → Bus HD44780_Result_t) (w : World) :
    ((m >>= f) >>= g) w = (m >>= fun a => f a >>= g) w := by
  rcases hmw : m w with ⟨o, w1⟩
  cases o with
  | ret a =>
    rcases hfw : f a w1 with ⟨o2, w2⟩
    cases o2 with
    | ret b => simp [Bus.bind, hmw, hfw]
    | halt e => simp [Bus.bind, hmw, hfw]
  | halt e => simp [Bus.bind, hmw]

theorem HD44780_Command_ok {rd : Nat → Nat} {fuel Cmd : Nat} {w : World}
    {r : HD44780_Result_t} (h : (HD44780_Command rd fuel Cmd w).1 = Outcome.ret r) :
    r = HD44780_Result_t.HD44780_OK := by
  have e : HD44780_Command rd fuel Cmd w =
      ((HD44780_WaitBusy rd fuel >>= fun _ => HD44780_Write Cmd 0) >>=
        fun _ => pure HD44780_Result_t.HD44780_OK) w := by
    rw [bind_assoc_run]
    rfl
  rw [e] at h
  exact bind_ok h

theorem HD44780_Data_ok {rd : Nat → Nat} {fuel Data : Nat} {w : World}
    {r : HD44780_Result_t} (h : (HD44780_Data rd fuel Data w).1 = Outcome.ret r) :
    r = HD44780_Result_t.HD44780_OK := by
  have e : HD44780_Data rd fuel Data w =
      ((HD44780_WaitBusy rd fuel >>= fun _ => HD44780_Write Data 1) >>=
        fun _ => pure HD44780_Result_t.HD44780_OK) w := by
    rw [bind_assoc_run]
    rfl
  rw [e] at h
  exact bind_ok h

theorem HD44780_Putc_ok {rd : Nat → Nat} {fuel : Nat} {C : Int} {w : World}
    {r : HD44780_Result_t} (h : (HD44780_Putc rd fuel C w).1 = Outcome.ret r) :
    r = HD44780_Result_t.HD44780_OK := by
  have e : HD44780_Putc rd fuel C w =
      ((HD44780_WaitBusy rd fuel >>= fun pos =>
          (if C = 10 then HD44780_NewLine rd fuel pos else HD44780_Write (C % 256).toNat 1)) >>=
        fun _ => pure HD44780_Result_t.HD44780_OK) w := by
    rw [bind_assoc_run]
    rfl
  rw [e] at h
  exact bind_ok h

/-- On a display that is never busy `HD44780_Putc` returns `HD44780_OK` and
keeps the handler. -/
theorem HD44780_Putc_returns (rd : Nat → Nat) (fuel : Nat) (C : Int) (w : World)
    (hb : Bound w.Handler) (hn : NeverBusy rd) (hf : 0 < fuel) :
    ∃ w1, HD44780_Putc rd fuel C w = (Outcome.ret HD44780_Result_t.HD44780_OK, w1) ∧
      w1.Handler = w.Handler := by
  by_cases hC : C = 10
  · subst hC
    exact ⟨_, HD44780_Putc_run_newline rd 0 0 fuel w hb
      ⟨hn.firstClear _, hn.firstClear _, trivial⟩ ⟨hf, hf⟩, rfl⟩
  · exact ⟨_, HD44780_Putc_run_char rd 0 fuel C w hC hb (hn.firstClear _) hf, rfl⟩

theorem HD44780_Puts_untilNull_returns (rd : Nat → Nat) (fuel : Nat)
    (hn : NeverBusy rd) (hf : 0 < fuel) :
    ∀ (Str : List Int) (w : World), (0 : Int) ∈ Str → Bound w.Handler →
      ∃ w1, HD44780_Puts_untilNull rd fuel Str w = (Outcome.ret (), w1)
  | [], _, h, _ => absurd h (by simp)
  | c :: Str, w, h, hb => by
    by_cases hc : c = 0
    · exact ⟨w, by simp [HD44780_Puts_untilNull, hc]⟩
    · obtain ⟨w1, hp, hh⟩ := HD44780_Putc_returns rd fuel c w hb hn hf
      have hmem : (0 : Int) ∈ Str := by
        rcases List.mem_cons.1 h with h0 | h0
        · exact absurd h0.symm hc
        · exact h0
      obtain ⟨w2, h2⟩ := HD44780_Puts_untilNull_returns rd fuel hn hf Str w1 hmem (hh ▸ hb)
      refine ⟨w2, ?_⟩
      simp only [HD44780_Puts_untilNull, if_pos hc]
      exact bind_step hp h2

theorem HD44780_Puts_counted_returns (rd : Nat → Nat) (fuel : Nat)
    (hn : NeverBusy rd) (hf : 0 < fuel) :
    ∀ (Len : Nat) (Str : List Int) (w : World), (0 : Int) ∈ Str → Bound w.Handler →
      ∃ w1, HD44780_Puts_counted rd fuel Len Str w = (Outcome.ret (), w1)
  | 0, _, w, _, _ => ⟨w, by simp [HD44780_Puts_counted]⟩
  | _ + 1, [], _, h, _ => absurd h (by simp)
  | Len + 1, c :: Str, w, h, hb => by
    by_cases hc : c = 0
    · exact ⟨w, by simp [HD44780_Puts_counted, hc]⟩
    · obtain ⟨w1, hp, hh⟩ := HD44780_Putc_returns rd fuel c w hb hn hf
      have hmem : (0 : Int) ∈ Str := by
        rcases List.mem_cons.1 h with h0 | h0
        · exact absurd h0.symm hc
        · exact h0
      obtain ⟨w2, h2⟩ :=
        HD44780_Puts_counted_returns rd fuel hn hf Len Str w1 hmem (hh ▸ hb)
      refine ⟨w2, ?_⟩
      simp only [HD44780_Puts_counted, if_neg hc]
      exact bind_step hp h2

/-! ### Bits of a status byte -/

theorem readValue_lt (rd : Nat → Nat) (i : Nat) : readValue rd i < 256 := by
  unfold readValue
  have h1 : (rd i % 256) &&& 0xF0 < 2 ^ 8 :=
    Nat.lt_of_le_of_lt Nat.and_le_right (by norm_num)
  have h2 : (rd (i + 1) % 256) >>> 4 < 2 ^ 8 := by
    rw [Nat.shiftRight_eq_div_pow]
    have := Nat.mod_lt (rd (i + 1)) (show 0 < 256 by norm_num)
    omega
  exact Nat.or_lt_two_pow h1 h2

set_option maxRecDepth 100000 in
theorem bit7_clear_iff : ∀ v, v < 256 → (v &&& (1 <<< HD44780_BUSY) = 0 ↔ v < 0x80) := by
  decide

theorem SetRS_one_not_mem_readTrace : Event.SetRS 1 ∉ readTrace 0 := by decide

theorem SetRS_one_not_mem_pollTrace : ∀ n, Event.SetRS 1 ∉ pollTrace n
  | 0 => by simp [pollTrace]
  | n + 1 => by
    have h1 := SetRS_one_not_mem_readTrace
    have h2 := SetRS_one_not_mem_pollTrace n
    simp [pollTrace, h1, h2]

theorem SetRS_one_not_mem_waitTrace (n : Nat) : Event.SetRS 1 ∉ waitTrace n := by
  have h1 := SetRS_one_not_mem_readTrace
  have h2 := SetRS_one_not_mem_pollTrace n
  simp [waitTrace, h1, h2]

theorem SetRS_one_not_mem_writeTrace (Data : Nat) : Event.SetRS 1 ∉ writeTrace Data 0 := by
  simp [writeTrace]

/-- The chain of comparisons of `HD44780_NewLine`, sorted by position. -/
theorem newLineTarget_by_range (Pos : Nat) :
    newLineTarget Pos =
      if Pos < 0x14 then 0x40 else if Pos < 0x40 then 0x54 else if Pos < 0x54 then 0x14
      else 0x00 := by
  unfold newLineTarget HD44780_START_LINE1 HD44780_START_LINE2 HD44780_START_LINE3
    HD44780_START_LINE4
  split_ifs <;> first | rfl | omega

theorem HD44780_GoToXY_returns (rd : Nat → Nat) (n fuel X Y : Nat) (w : World)
    (hb : Bound w.Handler) (hc : FirstClear rd w.reads n) (hf : n < fuel) :
    (HD44780_GoToXY rd fuel X Y w).1 = Outcome.ret HD44780_Result_t.HD44780_OK := by
  have h := fun c => HD44780_Command_run rd n fuel c w hb hc hf
  match Y with
  | 0 => exact congrArg Prod.fst (bind_step (bind_step (h _) rfl) rfl)
  | 1 => exact congrArg Prod.fst (bind_step (bind_step (h _) rfl) rfl)
  | 2 => exact congrArg Prod.fst (bind_step (bind_step (h _) rfl) rfl)
  | 3 => exact congrArg Prod.fst (bind_step (bind_step (h _) rfl) rfl)
  | _ + 4 => rfl

theorem HD44780_Puts_returns (rd : Nat → Nat) (fuel Len : Nat) (Str : List Int) (w : World)
    (hb : Bound w.Handler) (hn : NeverBusy rd) (hf : 0 < fuel) (h0 : (0 : Int) ∈ Str) :
    (HD44780_Puts rd fuel Str Len w).1 = Outcome.ret HD44780_Result_t.HD44780_OK := by
  unfold HD44780_Puts
  by_cases hl : Len = 0
  · obtain ⟨w1, h1⟩ := HD44780_Puts_untilNull_returns rd fuel hn hf Str w h0 hb
    rw [if_pos hl]
    exact congrArg Prod.fst (bind_step h1 rfl)
  · obtain ⟨w1, h1⟩ := HD44780_Puts_counted_returns rd fuel hn hf Len Str w h0 hb
    rw [if_neg hl]
    exact congrArg Prod.fst (bind_step h1 rfl)

/-! ### Nibbles -/

set_option maxRecDepth 100000 in
theorem shiftRight_four_of_high : ∀ s, s < 256 → s >>> 4 = (s &&& 0xF0) >>> 4 := by
  decide

set_option maxRecDepth 100000 in
theorem nibbles_join : ∀ b, b < 256 → (b &&& 0xF0) ||| (((b <<< 4) &&& 0xF0) >>> 4) = b := by
  decide

set_option maxRecDepth 100000 in
theorem high_or_low : ∀ hi, hi < 16 → ∀ lo, lo < 16 →
    ((hi * 16) ||| lo) &&& 0xF0 = hi * 16 := by
  decide

set_option maxRecDepth 100000 in
theorem high_eq_mul : ∀ b, b < 256 → b &&& 0xF0 = (b / 16) * 16 := by
  decide

/-- The byte that `HD44780_Read` returns depends on bits 4-7 of its two
samples only. -/
theorem readValue_congr (rd rd1 : Nat → Nat) (i j : Nat)
    (h1 : (rd i % 256) &&& 0xF0 = (rd1 j % 256) &&& 0xF0)
    (h2 : (rd (i + 1) % 256) &&& 0xF0 = (rd1 (j + 1) % 256) &&& 0xF0) :
    readValue rd i = readValue rd1 j := by
  unfold readValue
  rw [h1, shiftRight_four_of_high _ (Nat.mod_lt _ (by norm_num)),
    shiftRight_four_of_high (rd1 (j + 1) % 256) (Nat.mod_lt _ (by norm_num)), h2]

/-! ### A display that is busy for `k` status reads -/

theorem busyFor_firstClear (p k : Nat) : FirstClear (busyFor p k) p k := by
  constructor
  · intro j hj
    have h1 : busyFor p k (p + 2 * j) = 0x80 := by
      unfold busyFor
      rw [if_pos (by omega)]
    have h2 : busyFor p k (p + 2 * j + 1) = 0x80 := by
      unfold busyFor
      rw [if_pos (by omega)]
    unfold Busy readValue
    rw [h1, h2]
    decide
  · have h1 : busyFor p k (p + 2 * k) = 0 := by
      unfold busyFor
      rw [if_neg (by omega)]
    have h2 : busyFor p k (p + 2 * k + 1) = 0 := by
      unfold busyFor
      rw [if_neg (by omega)]
    unfold Busy readValue
    rw [h1, h2]
    decide

theorem count_DelayMs_pollTrace : ∀ n, (pollTrace n).count (Event.DelayMs 1) = n
  | 0 => rfl
  | n + 1 => by
    have h1 : (readTrace 0).count (Event.DelayMs 1) = 0 := by decide
    have h2 : [Event.DelayMs 1].count (Event.DelayMs 1) = 1 := by decide
    simp only [pollTrace, List.count_append, count_DelayMs_pollTrace n, h1, h2]
    omega

theorem count_DelayUs2_pollTrace : ∀ n, (pollTrace n).count (Event.DelayUs 2) = 0
  | 0 => rfl
  | n + 1 => by
    have h1 : (readTrace 0).count (Event.DelayUs 2) = 0 := by decide
    have h2 : [Event.DelayMs 1].count (Event.DelayUs 2) = 0 := by decide
    simp only [pollTrace, List.count_append, count_DelayUs2_pollTrace n, h1, h2]

theorem count_SetRS_pollTrace : ∀ n, (pollTrace n).count (Event.SetRS 0) = n
  | 0 => rfl
  | n + 1 => by
    have h1 : (readTrace 0).count (Event.SetRS 0) = 1 := by decide
    have h2 : [Event.DelayMs 1].count (Event.SetRS 0) = 0 := by decide
    simp only [pollTrace, List.count_append, count_SetRS_pollTrace n, h1, h2]
    omega

theorem pollTrace_eq_replicate : ∀ n,
    pollTrace n = (List.replicate n (readTrace 0 ++ [Event.DelayMs 1])).flatten
  | 0 => rfl
  | n + 1 => by
    simp only [pollTrace, List.replicate_succ, List.flatten_cons, pollTrace_eq_replicate n]

/-! ### The platform binding -/

theorem HD44780_Platform_Init_run (p : PlatformFunctions) (w : World) :
    HD44780_Platform_Init p w =
      (Outcome.ret (),
        { Handler :=
            { Lines := w.Handler.Lines, Length := w.Handler.Length,
              PlatformInitRsRwE := some p.InitRsRwE, PlatformSetValRs := some p.SetValRs,
              PlatformSetValRw := some p.SetValRw, PlatformSetValE := some p.SetValE,
              PlatformSetDirData := some p.SetDirData, PlatformWriteData := some p.WriteData,
              PlatformReadData := some p.ReadData, PlatformDelayMs := some p.DelayMs,
              PlatformDelayUs := some p.DelayUs },
          reads := w.reads, trace := w.trace }) := rfl

/-! ### The handler is left alone -/

theorem Steady_Home (rd : Nat → Nat) (fuel : Nat) : Steady (HD44780_Home rd fuel) := by
  unfold HD44780_Home
  repeat
    first
    | exact Steady_Command rd fuel _
    | exact Steady_pure _
    | apply Steady_bind
    | intro _
    | dsimp only

theorem Steady_Data (rd : Nat → Nat) (fuel Data : Nat) : Steady (HD44780_Data rd fuel Data) := by
  unfold HD44780_Data
  repeat
    first
    | exact Steady_WaitBusy rd fuel
    | exact Steady_Write _ _
    | exact Steady_pure _
    | apply Steady_bind
    | intro _
    | dsimp only

theorem Steady_Putc (rd : Nat → Nat) (fuel : Nat) (C : Int) :
    Steady (HD44780_Putc rd fuel C) := by
  unfold HD44780_Putc
  repeat
    first
    | exact Steady_WaitBusy rd fuel
    | exact Steady_NewLine rd fuel _
    | exact Steady_Write _ _
    | exact Steady_pure _
    | apply Steady_ite
    | apply Steady_bind
    | intro _
    | dsimp only

theorem Steady_GoToXY (rd : Nat → Nat) (fuel X Y : Nat) :
    Steady (HD44780_GoToXY rd fuel X Y) := by
  have hc : ∀ c, Steady (HD44780_Command rd fuel c >>= fun _ => (pure () : Bus Unit)) :=
    fun c => Steady_bind (Steady_Command rd fuel c) fun _ => Steady_pure _
  unfold HD44780_GoToXY
  apply Steady_bind
  · match Y with
    | 0 => exact hc _
    | 1 => exact hc _
    | 2 => exact hc _
    | 3 => exact hc _
    | _ + 4 => exact Steady_pure _
  · intro _
    exact Steady_pure _

theorem Steady_Puts_untilNull (rd : Nat → Nat) (fuel : Nat) :
    ∀ Str, Steady (HD44780_Puts_untilNull rd fuel Str)
  | [] => Steady_halt _
  | c :: Str => by
    unfold HD44780_Puts_untilNull
    apply Steady_ite
    · exact Steady_bind (Steady_Putc rd fuel c) fun _ => Steady_Puts_untilNull rd fuel Str
    · exact Steady_pure _

theorem Steady_Puts_counted (rd : Nat → Nat) (fuel : Nat) :
    ∀ Len Str, Steady (HD44780_Puts_counted rd fuel Len Str)
  | 0, _ => by
    unfold HD44780_Puts_counted
    exact Steady_pure _
  | _ + 1, [] => Steady_halt _
  | Len + 1, c :: Str => by
    unfold HD44780_Puts_counted
    apply Steady_ite
    · exact Steady_pure _
    · exact Steady_bind (Steady_Putc rd fuel c) fun _ => Steady_Puts_counted rd fuel Len Str

theorem Steady_Puts (rd : Nat → Nat) (fuel : Nat) (Str : List Int) (Len : Nat) :
    Steady (HD44780_Puts rd fuel Str Len) := by
  unfold HD44780_Puts
  apply Steady_bind
  · exact Steady_ite _ (Steady_Puts_untilNull rd fuel Str) (Steady_Puts_counted rd fuel Len Str)
  · intro _
    exact Steady_pure _

/-! ### `Lines` and `Length` are not looked at -/

theorem Alike.refl (w : World) : Alike w w :=
  ⟨⟨rfl, rfl, rfl, rfl, rfl, rfl, rfl, rfl, rfl⟩, rfl, rfl⟩

theorem Blind_pure (a : α) : Blind (pure a : Bus α) :=
  fun _ _ h => ⟨rfl, h⟩

theorem Blind_halt (r : Halt) : Blind (Bus.halt r : Bus α) :=
  fun _ _ h => ⟨rfl, h⟩

theorem Blind_call (slot : HD44780_Handler_t → Option Nat) (e : Event)
    (hs : ∀ h1 h2, SameBinding h1 h2 → slot h1 = slot h2) : Blind (call slot e) := by
  intro w1 w2 h
  obtain ⟨hh, hr, ht⟩ := h
  have hslot := hs _ _ hh
  by_cases h1 : (slot w1.Handler).isSome = true
  · have h2 : (slot w2.Handler).isSome = true := hslot ▸ h1
    simp only [call, h1, h2, if_true]
    exact ⟨by trivial, hh, hr, by simp [ht]⟩
  · have h2 : ¬ (slot w2.Handler).isSome = true := hslot ▸ h1
    simp only [call, h1, h2, if_false]
    exact ⟨by trivial, hh, hr, ht⟩

theorem Blind_PlatformReadData (rd : Nat → Nat) : Blind (PlatformReadData rd) := by
  intro w1 w2 h
  obtain ⟨hh, hr, ht⟩ := h
  have hslot : w1.Handler.PlatformReadData = w2.Handler.PlatformReadData := hh.2.2.2.2.2.2.1
  by_cases h1 : w1.Handler.PlatformReadData.isSome = true
  · have h2 : w2.Handler.PlatformReadData.isSome = true := hslot ▸ h1
    simp only [PlatformReadData, h1, h2, if_true]
    exact ⟨by simp [hr], hh, by simp [hr], by simp [ht]⟩
  · have h2 : ¬ w2.Handler.PlatformReadData.isSome = true := hslot ▸ h1
    simp only [PlatformReadData, h1, h2, if_false]
    exact ⟨by trivial, hh, hr, ht⟩

theorem Blind_bind {m : Bus α} {f : α → Bus β} (hm : Blind m) (hf : ∀ a, Blind (f a)) :
    Blind (m >>= f) := by
  intro w1 w2 h
  obtain ⟨ho, hw⟩ := hm w1 w2 h
  rcases h1 : m w1 with ⟨o1, v1⟩
  rcases h2 : m w2 with ⟨o2, v2⟩
  rw [h1, h2] at ho hw
  simp only at ho hw
  subst ho
  cases o1 with
  | ret a =>
    simp only [bind_run, bind_ret h1, bind_ret h2]
    exact hf a v1 v2 hw
  | halt r =>
    simp only [bind_run, bind_halt h1, bind_halt h2]
    exact ⟨by trivial, hw⟩

theorem Blind_ite (c : Prop) [Decidable c] {a b : Bus α} (ha : Blind a) (hb : Blind b) :
    Blind (if c then a else b) := by
  split <;> assumption

theorem Blind_SetValRs (v : Nat) : Blind (PlatformSetValRs v) :=
  Blind_call _ _ fun _ _ h => h.2.1

theorem Blind_SetValRw (v : Nat) : Blind (PlatformSetValRw v) :=
  Blind_call _ _ fun _ _ h => h.2.2.1

theorem Blind_SetValE (v : Nat) : Blind (PlatformSetValE v) :=
  Blind_call _ _ fun _ _ h => h.2.2.2.1

theorem Blind_SetDirData (v : Nat) : Blind (PlatformSetDirData v) :=
  Blind_call _ _ fun _ _ h => h.2.2.2.2.1

theorem Blind_WriteData (v : Nat) : Blind (PlatformWriteData v) :=
  Blind_call _ _ fun _ _ h => h.2.2.2.2.2.1

theorem Blind_DelayMs (v : Nat) : Blind (PlatformDelayMs v) :=
  Blind_call _ _ fun _ _ h => h.2.2.2.2.2.2.2.1

theorem Blind_DelayUs (v : Nat) : Blind (PlatformDelayUs v) :=
  Blind_call _ _ fun _ _ h => h.2.2.2.2.2.2.2.2

theorem Blind_ToggleE : Blind HD44780_ToggleE := by
  unfold HD44780_ToggleE
  repeat
    first
    | exact Blind_SetValE _
    | exact Blind_DelayUs _
    | apply Blind_bind
    | intro _

theorem Blind_Write (Data RS : Nat) : Blind (HD44780_Write Data RS) := by
  unfold HD44780_Write
  repeat
    first
    | exact Blind_SetValRs _
    | exact Blind_SetValRw _
    | exact Blind_SetDirData _
    | exact Blind_WriteData _
    | exact Blind_ToggleE
    | apply Blind_ite
    | apply Blind_bind
    | intro _
    | dsimp only

theorem Blind_Read (rd : Nat → Nat) (RS : Nat) : Blind (HD44780_Read rd RS) := by
  unfold HD44780_Read
  repeat
    first
    | exact Blind_SetValRs _
    | exact Blind_SetValRw _
    | exact Blind_SetDirData _
    | exact Blind_SetValE _
    | exact Blind_DelayUs _
    | exact Blind_PlatformReadData rd
    | exact Blind_pure _
    | apply Blind_ite
    | apply Blind_bind
    | intro _
    | dsimp only

theorem Blind_WaitBusy (rd : Nat → Nat) : ∀ fuel, Blind (HD44780_WaitBusy rd fuel)
  | 0 => Blind_halt _
  | fuel + 1 => by
    have ih := Blind_WaitBusy rd fuel
    unfold HD44780_WaitBusy
    repeat
      first
      | exact Blind_DelayMs _
      | exact Blind_DelayUs _
      | exact Blind_Read rd 0
      | exact ih
      | apply Blind_ite
      | apply Blind_bind
      | intro _
      | dsimp only

theorem Blind_Command (rd : Nat → Nat) (fuel Cmd : Nat) :
    Blind (HD44780_Command rd fuel Cmd) := by
  unfold HD44780_Command
  repeat
    first
    | exact Blind_WaitBusy rd fuel
    | exact Blind_Write _ _
    | exact Blind_pure _
    | apply Blind_bind
    | intro _
    | dsimp only

theorem Blind_NewLine (rd : Nat → Nat) (fuel Pos : Nat) :
    Blind (HD44780_NewLine rd fuel Pos) := by
  unfold HD44780_NewLine
  repeat
    first
    | exact Blind_Command rd fuel _
    | exact Blind_pure _
    | apply Blind_bind
    | intro _
    | dsimp only

theorem Blind_ClearScreen (rd : Nat → Nat) (fuel : Nat) :
    Blind (HD44780_ClearScreen rd fuel) :=
  Blind_bind (Blind_Command rd fuel _) fun _ => Blind_pure _

theorem Blind_Home (rd : Nat → Nat) (fuel : Nat) : Blind (HD44780_Home rd fuel) :=
  Blind_bind (Blind_Command rd fuel _) fun _ => Blind_pure _

theorem Blind_Data (rd : Nat → Nat) (fuel Data : Nat) : Blind (HD44780_Data rd fuel Data) := by
  unfold HD44780_Data
  repeat
    first
    | exact Blind_WaitBusy rd fuel
    | exact Blind_Write _ _
    | exact Blind_pure _
    | apply Blind_bind
    | intro _
    | dsimp only

theorem Blind_Putc (rd : Nat → Nat) (fuel : Nat) (C : Int) :
    Blind (HD44780_Putc rd fuel C) := by
  unfold HD44780_Putc
  repeat
    first
    | exact Blind_WaitBusy rd fuel
    | exact Blind_NewLine rd fuel _
    | exact Blind_Write _ _
    | exact Blind_pure _
    | apply Blind_ite
    | apply Blind_bind
    | intro _
    | dsimp only

theorem Blind_GoToXY (rd : Nat → Nat) (fuel X Y : Nat) :
    Blind (HD44780_GoToXY rd fuel X Y) := by
  have hc : ∀ c, Blind (HD44780_Command rd fuel c >>= fun _ => (pure () : Bus Unit)) :=
    fun c => Blind_bind (Blind_Command rd fuel c) fun _ => Blind_pure _
  unfold HD44780_GoToXY
  apply Blind_bind
  · match Y with
    | 0 => exact hc _
    | 1 => exact hc _
    | 2 => exact hc _
    | 3 => exact hc _
    | _ + 4 => exact Blind_pure _
  · intro _
    exact Blind_pure _

theorem Blind_Puts_untilNull (rd : Nat → Nat) (fuel : Nat) :
    ∀ Str, Blind (HD44780_Puts_untilNull rd fuel Str)
  | [] => Blind_halt _
  | c :: Str => by
    unfold HD44780_Puts_untilNull
    apply Blind_ite
    · exact Blind_bind (Blind_Putc rd fuel c) fun _ => Blind_Puts_untilNull rd fuel Str
    · exact Blind_pure _

theorem Blind_Puts_counted (rd : Nat → Nat) (fuel : Nat) :
    ∀ Len Str, Blind (HD44780_Puts_counted rd fuel Len Str)
  | 0, _ => by
    unfold HD44780_Puts_counted
    exact Blind_pure _
  | _ + 1, [] => Blind_halt _
  | Len + 1, c :: Str => by
    unfold HD44780_Puts_counted
    apply Blind_ite
    · exact Blind_pure _
    · exact Blind_bind (Blind_Putc rd fuel c) fun _ => Blind_Puts_counted rd fuel Len Str

theorem Blind_Puts (rd : Nat → Nat) (fuel : Nat) (Str : List Int) (Len : Nat) :
    Blind (HD44780_Puts rd fuel Str Len) := by
  unfold HD44780_Puts
  apply Blind_bind
  · exact Blind_ite _ (Blind_Puts_untilNull rd fuel Str) (Blind_Puts_counted rd fuel Len Str)
  · intro _
    exact Blind_pure _

theorem HD44780_GoToXY_run (rd : Nat → Nat) (n fuel X Y : Nat) (w : World)
    (hb : Bound w.Handler) (hc : FirstClear rd w.reads n) (hf : n < fuel) (hY : Y < 4) :
    HD44780_GoToXY rd fuel X Y w =
      (Outcome.ret HD44780_Result_t.HD44780_OK,
        emit (afterWait w n) (writeTrace ((0x80 + rowStart Y + X) % 256) 0)) := by
  have h := fun c => HD44780_Command_run rd n fuel c w hb hc hf
  have hY4 : Y = 0 ∨ Y = 1 ∨ Y = 2 ∨ Y = 3 := by omega
  rcases hY4 with rfl | rfl | rfl | rfl <;>
  exact bind_step (bind_step (h _) rfl) rfl

theorem Blind.sameRun {m : Bus α} (hm : Blind m) {w1 w2 : World} (h : Alike w1 w2) :
    SameRun m w1 w2 :=
  ⟨(hm w1 w2 h).1, (hm w1 w2 h).2.2.2⟩

theorem HD44780_Init_keeps_binding (rd : Nat → Nat) (fuel Lines Length DispAttr : Nat)
    (w : World) :
    (HD44780_Init rd fuel Lines Length DispAttr w).2.Handler = w.Handler ∨
    (HD44780_Init rd fuel Lines Length DispAttr w).2.Handler =
      { w.Handler with Lines := Lines, Length := Length } := by
  by_cases hb : Bound w.Handler
  · right
    rw [HD44780_Init_bound rd fuel Lines Length DispAttr w hb]
    exact (Steady_initSequence rd fuel DispAttr _).1
  · left
    rw [HD44780_Init_fail rd fuel Lines Length DispAttr w hb]
    rfl

/-! ### Termination -/

/-- The first status read that reports not busy. -/
theorem exists_firstClear (rd : Nat → Nat) (p : Nat) (h : ∃ n, ¬ Busy rd (p + 2 * n)) :
    ∃ n, FirstClear rd p n :=
  ⟨Nat.find h, fun _ hk => Decidable.not_not.1 (Nat.find_min h hk), Nat.find_spec h⟩

theorem HD44780_WaitBusy_terminates (rd : Nat → Nat) (w : World) (hb : Bound w.Handler)
    (h : ∃ n, ¬ Busy rd (w.reads + 2 * n)) :
    Terminates (fun fuel => HD44780_WaitBusy rd fuel) w := by
  obtain ⟨n, hc⟩ := exists_firstClear rd w.reads h
  refine ⟨n + 1, _, _, ?_, fun fuel hf => HD44780_WaitBusy_run rd n fuel w hb hc (by omega)⟩
  exact hb

theorem HD44780_Command_terminates (rd : Nat → Nat) (Cmd : Nat) (w : World)
    (hb : Bound w.Handler) (h : ∃ n, ¬ Busy rd (w.reads + 2 * n)) :
    Terminates (fun fuel => HD44780_Command rd fuel Cmd) w := by
  obtain ⟨n, hc⟩ := exists_firstClear rd w.reads h
  refine ⟨n + 1, _, _, ?_, fun fuel hf => HD44780_Command_run rd n fuel Cmd w hb hc (by omega)⟩
  exact hb

theorem HD44780_Data_terminates (rd : Nat → Nat) (Data : Nat) (w : World)
    (hb : Bound w.Handler) (h : ∃ n, ¬ Busy rd (w.reads + 2 * n)) :
    Terminates (fun fuel => HD44780_Data rd fuel Data) w := by
  obtain ⟨n, hc⟩ := exists_firstClear rd w.reads h
  refine ⟨n + 1, _, _, ?_, fun fuel hf => HD44780_Data_run rd n fuel Data w hb hc (by omega)⟩
  exact hb

theorem HD44780_ClearScreen_terminates (rd : Nat → Nat) (w : World)
    (hb : Bound w.Handler) (h : ∃ n, ¬ Busy rd (w.reads + 2 * n)) :
    Terminates (fun fuel => HD44780_ClearScreen rd fuel) w := by
  obtain ⟨n, hc⟩ := exists_firstClear rd w.reads h
  refine ⟨n + 1, _, _, ?_, fun fuel hf => HD44780_ClearScreen_run rd n fuel w hb hc (by omega)⟩
  exact hb

theorem HD44780_Home_terminates (rd : Nat → Nat) (w : World)
    (hb : Bound w.Handler) (h : ∃ n, ¬ Busy rd (w.reads + 2 * n)) :
    Terminates (fun fuel => HD44780_Home rd fuel) w := by
  obtain ⟨n, hc⟩ := exists_firstClear rd w.reads h
  refine ⟨n + 1, _, _, ?_, fun fuel hf => HD44780_Home_run rd n fuel w hb hc (by omega)⟩
  exact hb

theorem HD44780_GoToXY_terminates (rd : Nat → Nat) (X Y : Nat) (w : World)
    (hb : Bound w.Handler) (h : ∃ n, ¬ Busy rd (w.reads + 2 * n)) :
    Terminates (fun fuel => HD44780_GoToXY rd fuel X Y) w := by
  obtain ⟨n, hc⟩ := exists_firstClear rd w.reads h
  by_cases hY : Y < 4
  · refine ⟨n + 1, _, _, ?_,
      fun fuel hf => HD44780_GoToXY_run rd n fuel X Y w hb hc (by omega) hY⟩
    exact hb
  · obtain ⟨y, rfl⟩ : ∃ y, Y = y + 4 := ⟨Y - 4, by omega⟩
    refine ⟨0, _, _, ?_, fun fuel _ => rfl⟩
    exact hb

theorem HD44780_Putc_terminates (rd : Nat → Nat) (C : Int) (w : World)
    (hb : Bound w.Handler) (h : EventuallyClear rd) :
    Terminates (fun fuel => HD44780_Putc rd fuel C) w := by
  obtain ⟨n1, hc1⟩ := exists_firstClear rd w.reads (h _)
  by_cases hC : C = 10
  · subst hC
    obtain ⟨n2, hc2⟩ := exists_firstClear rd (w.reads + (2 * n1 + 4)) (h _)
    refine ⟨n1 + n2 + 1, _, _, ?_, fun fuel hf =>
      HD44780_Putc_run_newline rd n1 n2 fuel w hb ⟨hc1, hc2, trivial⟩
        ⟨by omega, by omega⟩⟩
    exact hb
  · refine ⟨n1 + 1, _, _, ?_,
      fun fuel hf => HD44780_Putc_run_char rd n1 fuel C w hC hb hc1 (by omega)⟩
    exact hb

theorem HD44780_Init_terminates (rd : Nat → Nat) (Lines Length DispAttr : Nat) (w : World)
    (hb : Bound w.Handler) (h : EventuallyClear rd) :
    Terminates (fun fuel => HD44780_Init rd fuel Lines Length DispAttr) w := by
  obtain ⟨n1, hc1⟩ := exists_firstClear rd w.reads (h _)
  obtain ⟨n2, hc2⟩ := exists_firstClear rd (w.reads + (2 * n1 + 4)) (h _)
  obtain ⟨n3, hc3⟩ := exists_firstClear rd (w.reads + (2 * n1 + 4) + (2 * n2 + 4)) (h _)
  obtain ⟨n4, hc4⟩ :=
    exists_firstClear rd (w.reads + (2 * n1 + 4) + (2 * n2 + 4) + (2 * n3 + 4)) (h _)
  obtain ⟨n5, hc5⟩ := exists_firstClear rd
    (w.reads + (2 * n1 + 4) + (2 * n2 + 4) + (2 * n3 + 4) + (2 * n4 + 4)) (h _)
  refine ⟨n1 + n2 + n3 + n4 + n5 + 1, _, _, ?_, fun fuel hf =>
    HD44780_Init_run rd fuel Lines Length DispAttr w n1 n2 n3 n4 n5 hb
      ⟨hc1, hc2, hc3, hc4, hc5, trivial⟩
      ⟨by omega, by omega, by omega, by omega, by omega⟩⟩
  exact hb

theorem HD44780_Puts_untilNull_terminates (rd : Nat → Nat) (h : EventuallyClear rd) :
    ∀ (Str : List Int) (w : World), (0 : Int) ∈ Str → Bound w.Handler →
      Terminates (fun fuel => HD44780_Puts_untilNull rd fuel Str) w
  | [], _, h0, _ => absurd h0 (by simp)
  | c :: Str, w, h0, hb => by
    by_cases hc : c = 0
    · exact ⟨0, (), w, hb, fun fuel _ => by simp [HD44780_Puts_untilNull, hc]⟩
    · obtain ⟨F1, a, w1, hb1, h1⟩ := HD44780_Putc_terminates rd c w hb h
      have hmem : (0 : Int) ∈ Str := by
        rcases List.mem_cons.1 h0 with h0 | h0
        · exact absurd h0.symm hc
        · exact h0
      obtain ⟨F2, b, w2, hb2, h2⟩ := HD44780_Puts_untilNull_terminates rd h Str w1 hmem hb1
      refine ⟨F1 + F2, b, w2, hb2, fun fuel hf => ?_⟩
      simp only [HD44780_Puts_untilNull, if_pos hc]
      exact bind_step (h1 fuel (by omega)) (h2 fuel (by omega))

theorem HD44780_Puts_counted_terminates (rd : Nat → Nat) (h : EventuallyClear rd) :
    ∀ (Len : Nat) (Str : List Int) (w : World), ((0 : Int) ∈ Str ∨ Len ≤ Str.length) →
      Bound w.Handler → Terminates (fun fuel => HD44780_Puts_counted rd fuel Len Str) w
  | 0, _, w, _, hb => ⟨0, (), w, hb, fun fuel _ => by simp [HD44780_Puts_counted]⟩
  | _ + 1, [], _, h0, _ => by
    rcases h0 with h0 | h0
    · exact absurd h0 (by simp)
    · exact absurd h0 (by simp)
  | Len + 1, c :: Str, w, h0, hb => by
    by_cases hc : c = 0
    · exact ⟨0, (), w, hb, fun fuel _ => by simp [HD44780_Puts_counted, hc]⟩
    · obtain ⟨F1, a, w1, hb1, h1⟩ := HD44780_Putc_terminates rd c w hb h
      have hrest : (0 : Int) ∈ Str ∨ Len ≤ Str.length := by
        rcases h0 with h0 | h0
        · rcases List.mem_cons.1 h0 with h0 | h0
          · exact absurd h0.symm hc
          · exact Or.inl h0
        · exact Or.inr (by simpa using h0)
      obtain ⟨F2, b, w2, hb2, h2⟩ :=
        HD44780_Puts_counted_terminates rd h Len Str w1 hrest hb1
      refine ⟨F1 + F2, b, w2, hb2, fun fuel hf => ?_⟩
      simp only [HD44780_Puts_counted, if_neg hc]
      exact bind_step (h1 fuel (by omega)) (h2 fuel (by omega))

theorem HD44780_Puts_terminates (rd : Nat → Nat) (h : EventuallyClear rd) (Str : List Int)
    (Len : Nat) (w : World) (hb : Bound w.Handler)
    (hs : (0 : Int) ∈ Str ∨ (0 < Len ∧ Len ≤ Str.length)) :
    Terminates (fun fuel => HD44780_Puts rd fuel Str Len) w := by
  by_cases hl : Len = 0
  · have h0 : (0 : Int) ∈ Str := by
      rcases hs with hs | hs
      · exact hs
      · omega
    obtain ⟨F, a, w1, hb1, h1⟩ := HD44780_Puts_untilNull_terminates rd h Str w h0 hb
    refine ⟨F, HD44780_Result_t.HD44780_OK, w1, hb1, fun fuel hf => ?_⟩
    show HD44780_Puts rd fuel Str Len w = _
    unfold HD44780_Puts
    rw [if_pos hl]
    exact bind_step (h1 fuel hf) rfl
  · have h0 : (0 : Int) ∈ Str ∨ Len ≤ Str.length := by
      rcases hs with hs | hs
      · exact Or.inl hs
      · exact Or.inr hs.2
    obtain ⟨F, a, w1, hb1, h1⟩ := HD44780_Puts_counted_terminates rd h Len Str w h0 hb
    refine ⟨F, HD44780_Result_t.HD44780_OK, w1, hb1, fun fuel hf => ?_⟩
    show HD44780_Puts rd fuel Str Len w = _
    unfold HD44780_Puts
    rw [if_neg hl]
    exact bind_step (h1 fuel hf) rfl

theorem idleStream_EventuallyClear : EventuallyClear idleStream :=
  fun _ => ⟨0, idleStream_NeverBusy _⟩

/-! ### Segment invariants -/

theorem Keeps_pure (Q : List Event → Prop) (hQ : SegmentInv Q) (a : α) :
    Keeps Q (pure a : Bus α) :=
  fun _ hb => ⟨hb, [], by simp, fun _ _ => hQ.nil⟩

theorem Keeps_halt (Q : List Event → Prop) (r : Halt) : Keeps Q (Bus.halt r : Bus α) :=
  fun _ hb => ⟨hb, [], by simp [Bus.halt], fun _ h => by simp [Bus.halt] at h⟩

theorem Keeps_of_run (Q : List Event → Prop) {m : Bus α} {t : List Event} (ht : Q t)
    (h : ∀ w, Bound w.Handler → ∃ a k, m w = (Outcome.ret a, advance w k t)) : Keeps Q m := by
  intro w hb
  obtain ⟨a, k, hrun⟩ := h w hb
  rw [hrun]
  exact ⟨hb, t, rfl, fun _ _ => ht⟩

theorem Keeps_bind (Q : List Event → Prop) (hQ : SegmentInv Q) {m : Bus α} {f : α → Bus β}
    (hm : Keeps Q m) (hf : ∀ a, Keeps Q (f a)) : Keeps Q (m >>= f) := by
  intro w hb
  obtain ⟨hb1, t, ht, hq⟩ := hm w hb
  rcases hmw : m w with ⟨o, w1⟩
  rw [hmw] at ht hb1 hq
  simp only at ht hb1 hq
  cases o with
  | ret a =>
    obtain ⟨hb2, u, hu, hq2⟩ := hf a w1 hb1
    simp only [bind_run, bind_ret hmw]
    refine ⟨hb2, t ++ u, ?_, fun b hret => hQ.append t u (hq a rfl) (hq2 b hret)⟩
    rw [hu, ht, List.append_assoc]
  | halt r =>
    simp only [bind_run, bind_halt hmw]
    exact ⟨hb1, t, ht, fun _ h => by simp at h⟩

theorem Keeps_ite (Q : List Event → Prop) (c : Prop) [Decidable c] {a b : Bus α}
    (ha : Keeps Q a) (hb : Keeps Q b) : Keeps Q (if c then a else b) := by
  split <;> assumption

theorem Keeps_Read (Q : List Event → Prop) (hQ : SegmentInv Q) (rd : Nat → Nat) (RS : Nat) :
    Keeps Q (HD44780_Read rd RS) :=
  Keeps_of_run Q (hQ.read RS) fun w hb => ⟨_, 2, HD44780_Read_run rd RS w hb⟩

theorem Keeps_Write (Q : List Event → Prop) (hQ : SegmentInv Q) (Data RS : Nat) :
    Keeps Q (HD44780_Write Data RS) :=
  Keeps_of_run Q (hQ.write Data RS) fun w hb => ⟨_, 0, by
    rw [HD44780_Write_run Data RS w hb]
    rfl⟩

theorem Keeps_DelayMs (Q : List Event → Prop) (hQ : SegmentInv Q) :
    Keeps Q (PlatformDelayMs 1) :=
  Keeps_of_run Q hQ.delayMs fun w hb => ⟨_, 0, by
    have h := call_run (fun h => h.PlatformDelayMs) (Event.DelayMs 1) w hb.2.2.2.2.2.2.1
    exact h.trans rfl⟩

theorem Keeps_DelayUs (Q : List Event → Prop) (hQ : SegmentInv Q) :
    Keeps Q (PlatformDelayUs 2) :=
  Keeps_of_run Q hQ.delayUs fun w hb => ⟨_, 0, by
    have h := call_run (fun h => h.PlatformDelayUs) (Event.DelayUs 2) w hb.2.2.2.2.2.2.2
    exact h.trans rfl⟩

theorem Keeps_WaitBusy (Q : List Event → Prop) (hQ : SegmentInv Q) (rd : Nat → Nat) :
    ∀ fuel, Keeps Q (HD44780_WaitBusy rd fuel)
  | 0 => Keeps_halt Q _
  | fuel + 1 => by
    have ih := Keeps_WaitBusy Q hQ rd fuel
    unfold HD44780_WaitBusy
    repeat
      first
      | exact Keeps_DelayMs Q hQ
      | exact Keeps_DelayUs Q hQ
      | exact Keeps_Read Q hQ rd 0
      | exact ih
      | apply Keeps_ite Q
      | apply Keeps_bind Q hQ
      | intro _
      | dsimp only

theorem Keeps_Command (Q : List Event → Prop) (hQ : SegmentInv Q) (rd : Nat → Nat)
    (fuel Cmd : Nat) : Keeps Q (HD44780_Command rd fuel Cmd) := by
  unfold HD44780_Command
  repeat
    first
    | exact Keeps_WaitBusy Q hQ rd fuel
    | exact Keeps_Write Q hQ _ _
    | exact Keeps_pure Q hQ _
    | apply Keeps_bind Q hQ
    | intro _
    | dsimp only

theorem Keeps_NewLine (Q : List Event → Prop) (hQ : SegmentInv Q) (rd : Nat → Nat)
    (fuel Pos : Nat) : Keeps Q (HD44780_NewLine rd fuel Pos) := by
  unfold HD44780_NewLine
  repeat
    first
    | exact Keeps_Command Q hQ rd fuel _
    | exact Keeps_pure Q hQ _
    | apply Keeps_bind Q hQ
    | intro _
    | dsimp only

theorem Keeps_ClearScreen (Q : List Event → Prop) (hQ : SegmentInv Q) (rd : Nat → Nat)
    (fuel : Nat) : Keeps Q (HD44780_ClearScreen rd fuel) :=
  Keeps_bind Q hQ (Keeps_Command Q hQ rd fuel _) fun _ => Keeps_pure Q hQ _

theorem Keeps_Home (Q : List Event → Prop) (hQ : SegmentInv Q) (rd : Nat → Nat)
    (fuel : Nat) : Keeps Q (HD44780_Home rd fuel) :=
  Keeps_bind Q hQ (Keeps_Command Q hQ rd fuel _) fun _ => Keeps_pure Q hQ _

theorem Keeps_Data (Q : List Event → Prop) (hQ : SegmentInv Q) (rd : Nat → Nat)
    (fuel Data : Nat) : Keeps Q (HD44780_Data rd fuel Data) := by
  unfold HD44780_Data
  repeat
    first
    | exact Keeps_WaitBusy Q hQ rd fuel
    | exact Keeps_Write Q hQ _ _
    | exact Keeps_pure Q hQ _
    | apply Keeps_bind Q hQ
    | intro _
    | dsimp only

theorem Keeps_Putc (Q : List Event → Prop) (hQ : SegmentInv Q) (rd : Nat → Nat)
    (fuel : Nat) (C : Int) : Keeps Q (HD44780_Putc rd fuel C) := by
  unfold HD44780_Putc
  repeat
    first
    | exact Keeps_WaitBusy Q hQ rd fuel
    | exact Keeps_NewLine Q hQ rd fuel _
    | exact Keeps_Write Q hQ _ _
    | exact Keeps_pure Q hQ _
    | apply Keeps_ite Q
    | apply Keeps_bind Q hQ
    | intro _
    | dsimp only

theorem Keeps_GoToXY (Q : List Event → Prop) (hQ : SegmentInv Q) (rd : Nat → Nat)
    (fuel X Y : Nat) : Keeps Q (HD44780_GoToXY rd fuel X Y) := by
  have hc : ∀ c, Keeps Q (HD44780_Command rd fuel c >>= fun _ => (pure () : Bus Unit)) :=
    fun c => Keeps_bind Q hQ (Keeps_Command Q hQ rd fuel c) fun _ => Keeps_pure Q hQ _
  unfold HD44780_GoToXY
  apply Keeps_bind Q hQ
  · match Y with
    | 0 => exact hc _
    | 1 => exact hc _
    | 2 => exact hc _
    | 3 => exact hc _
    | _ + 4 => exact Keeps_pure Q hQ _
  · intro _
    exact Keeps_pure Q hQ _

theorem Keeps_Puts_untilNull (Q : List Event → Prop) (hQ : SegmentInv Q) (rd : Nat → Nat)
    (fuel : Nat) : ∀ Str, Keeps Q (HD44780_Puts_untilNull rd fuel Str)
  | [] => Keeps_halt Q _
  | c :: Str => by
    unfold HD44780_Puts_untilNull
    apply Keeps_ite Q
    · exact Keeps_bind Q hQ (Keeps_Putc Q hQ rd fuel c) fun _ =>
        Keeps_Puts_untilNull Q hQ rd fuel Str
    · exact Keeps_pure Q hQ _

theorem Keeps_Puts_counted (Q : List Event → Prop) (hQ : SegmentInv Q) (rd : Nat → Nat)
    (fuel : Nat) : ∀ Len Str, Keeps Q (HD44780_Puts_counted rd fuel Len Str)
  | 0, _ => by
    unfold HD44780_Puts_counted
    exact Keeps_pure Q hQ _
  | _ + 1, [] => Keeps_halt Q _
  | Len + 1, c :: Str => by
    unfold HD44780_Puts_counted
    apply Keeps_ite Q
    · exact Keeps_pure Q hQ _
    · exact Keeps_bind Q hQ (Keeps_Putc Q hQ rd fuel c) fun _ =>
        Keeps_Puts_counted Q hQ rd fuel Len Str

theorem Keeps_Puts (Q : List Event → Prop) (hQ : SegmentInv Q) (rd : Nat → Nat)
    (fuel : Nat) (Str : List Int) (Len : Nat) : Keeps Q (HD44780_Puts rd fuel Str Len) := by
  unfold HD44780_Puts
  apply Keeps_bind Q hQ
  · exact Keeps_ite Q _ (Keeps_Puts_untilNull Q hQ rd fuel Str)
      (Keeps_Puts_counted Q hQ rd fuel Len Str)
  · intro _
    exact Keeps_pure Q hQ _

theorem Keeps_initSequence (Q : List Event → Prop) (hQ : SegmentInv Q) (rd : Nat → Nat)
    (fuel DispAttr : Nat) : Keeps Q (initSequence rd fuel DispAttr) := by
  unfold initSequence
  repeat
    first
    | exact Keeps_Command Q hQ rd fuel _
    | exact Keeps_ClearScreen Q hQ rd fuel
    | exact Keeps_Write Q hQ _ _
    | exact Keeps_pure Q hQ _
    | apply Keeps_bind Q hQ
    | intro _
    | dsimp only

theorem hookTrace_inv (Q : List Event → Prop) (hQ : SegmentInv Q) (h : HD44780_Handler_t) :
    Q (hookTrace h) := by
  unfold hookTrace
  split
  · exact hQ.hook
  · exact hQ.nil

/-- `HD44780_Init` on any handler: when it returns, what it has appended
satisfies the invariant. -/
theorem HD44780_Init_returnsWith (Q : List Event → Prop) (hQ : SegmentInv Q) (rd : Nat → Nat)
    (fuel Lines Length DispAttr : Nat) (w : World) :
    ReturnsWith Q (HD44780_Init rd fuel Lines Length DispAttr) w := by
  by_cases hb : Bound w.Handler
  · obtain ⟨-, t, ht, hq⟩ := Keeps_initSequence Q hQ rd fuel DispAttr
      { Handler := { w.Handler with Lines := Lines, Length := Length }, reads := w.reads,
        trace := w.trace ++ hookTrace w.Handler } hb
    rw [← HD44780_Init_bound rd fuel Lines Length DispAttr w hb] at ht hq
    exact ⟨hookTrace w.Handler ++ t, by rw [ht, List.append_assoc],
      fun a ha => hQ.append _ _ (hookTrace_inv Q hQ _) (hq a ha)⟩
  · rw [ReturnsWith, HD44780_Init_fail rd fuel Lines Length DispAttr w hb]
    exact ⟨hookTrace w.Handler, rfl, fun _ _ => hookTrace_inv Q hQ _⟩

theorem Keeps.returnsWith {Q : List Event → Prop} {m : Bus α} (hm : Keeps Q m) {w : World}
    (hb : Bound w.Handler) : ReturnsWith Q m w :=
  (hm w hb).2

/-! ### The two checks are segment invariants -/

theorem eRun_append (s : ELevel) (t u : List Event) :
    eRun s (t ++ u) = (eRun s t).bind fun s1 => eRun s1 u := by
  induction t generalizing s with
  | nil => rfl
  | cons e t ih =>
    simp only [List.cons_append, eRun]
    cases eStep s e with
    | none => rfl
    | some s1 => exact ih s1

theorem EAlternates_inv : SegmentInv EAlternates where
  nil := rfl
  append := by
    intro s t hs ht
    unfold EAlternates at *
    rw [eRun_append, hs]
    exact ht
  read := fun _ => rfl
  write := fun _ _ => rfl
  delayMs := rfl
  delayUs := rfl
  hook := rfl

theorem alwaysBusyStream_Busy (i : Nat) : Busy alwaysBusyStream i := by
  simp [Busy, readValue, alwaysBusyStream, HD44780_BUSY]

/-- With the checked slots set and the display busy for as long as the fuel
lasts, `HD44780_Init` is still in its first busy-wait when the fuel is used up,
after the stores of `Lines` and `Length` and the two forced-mode writes. -/
theorem HD44780_Init_stuck (rd : Nat → Nat) (fuel Lines Length DispAttr : Nat) (w : World)
    (hb : Bound w.Handler)
    (hbusy : ∀ k, k < fuel → Busy rd (w.reads + 2 * k)) :
    HD44780_Init rd fuel Lines Length DispAttr w =
      (Outcome.halt Halt.outOfFuel,
        { Handler := { w.Handler with Lines := Lines, Length := Length },
          reads := w.reads + 2 * fuel,
          trace := w.trace ++ hookTrace w.Handler ++ writeTrace 0x33 0 ++ writeTrace 0x32 0 ++
            pollTrace fuel }) := by
  let w1 : World :=
    { Handler := { w.Handler with Lines := Lines, Length := Length }, reads := w.reads,
      trace := w.trace ++ hookTrace w.Handler }
  let w2 : World := emit (emit w1 (writeTrace 0x33 0)) (writeTrace 0x32 0)
  have e33 := HD44780_Write_run 0x33 0 w1 hb
  have e32 := HD44780_Write_run 0x32 0 (emit w1 (writeTrace 0x33 0)) hb
  have hcmd : HD44780_Command rd fuel HD44780_FUNCTION_DEFAULT w2 =
      (Outcome.halt Halt.outOfFuel, advance w2 (2 * fuel) (pollTrace fuel)) :=
    wait_then_stuck rd
      (fun _ => do HD44780_Write HD44780_FUNCTION_DEFAULT 0; pure HD44780_Result_t.HD44780_OK)
      fuel w2 hb hbusy
  rw [HD44780_Init_bound rd fuel Lines Length DispAttr w hb]
  unfold initSequence
  apply bind_step e33
  apply bind_step e32
  rw [bind_run, bind_halt hcmd]
  rfl

/-- The handler after `HD44780_Init`, for every run, returning or not: the
handler before when a checked slot is `NULL`, and otherwise the handler before
with `Lines` and `Length` replaced. -/
theorem HD44780_Init_handler (rd : Nat → Nat) (fuel Lines Length DispAttr : Nat) (w : World) :
    (HD44780_Init rd fuel Lines Length DispAttr w).2.Handler =
      if SlotMissing w.Handler then w.Handler
      else { w.Handler with Lines := Lines, Length := Length } := by
  by_cases hb : Bound w.Handler
  · rw [if_neg (fun h => (SlotMissing_iff _).1 h hb),
      HD44780_Init_bound rd fuel Lines Length DispAttr w hb]
    exact (Steady_initSequence rd fuel DispAttr _).1
  · rw [if_pos ((SlotMissing_iff _).2 hb),
      HD44780_Init_fail rd fuel Lines Length DispAttr w hb]
    rfl

end RunLemmas

/-! ## The write transaction -/

/-- C1: on a handler whose binding slots are set, `HD44780_Write` of any byte
`b` with any `RS` returns, takes no sample and appends to the bus trace exactly
SetRS(1 if RS is non-zero else 0), SetRW(0), SetDirData(1), WriteData(b & 0xF0),
SetE(1), DelayUs(1), SetE(0), WriteData((b << 4) & 0xF0), SetE(1), DelayUs(1),
SetE(0), WriteData(0xFF): two E pulses, high nibble first, data lines parked at
0xFF. -/
theorem HD44780_Write_two_nibbles (b RS : Nat) (w : World) (hb : Bound w.Handler) :
    HD44780_Write b RS w =
      (Outcome.ret (),
        { Handler := w.Handler, reads := w.reads,
          trace := w.trace ++
            [Event.SetRS (if RS ≠ 0 then 1 else 0), Event.SetRW 0, Event.SetDirData 1,
             Event.WriteData (b &&& 0xF0), Event.SetE 1, Event.DelayUs 1, Event.SetE 0,
             Event.WriteData ((b <<< 4) &&& 0xF0), Event.SetE 1, Event.DelayUs 1, Event.SetE 0,
             Event.WriteData 0xFF] }) := by
  rw [HD44780_Write_run b RS w hb]
  rfl

/-- Witness of C1: the data byte 0xA5 goes out as the nibbles 0xA0 and 0x50. -/
theorem HD44780_Write_two_nibbles_witness :
    Bound freshWorld.Handler ∧
    HD44780_Write 0xA5 1 freshWorld =
      (Outcome.ret (),
        { Handler := boundHandler, reads := 0,
          trace :=
            [Event.SetRS 1, Event.SetRW 0, Event.SetDirData 1,
             Event.WriteData 0xA0, Event.SetE 1, Event.DelayUs 1, Event.SetE 0,
             Event.WriteData 0x50, Event.SetE 1, Event.DelayUs 1, Event.SetE 0,
             Event.WriteData 0xFF] }) :=
  ⟨by decide, HD44780_Write_two_nibbles 0xA5 1 freshWorld (by decide)⟩

/-! ## The busy flag gates every transaction -/

/-- C2: on a handler whose slots are set, for every sample stream, every
argument and every fuel: if the first `n` status reads report busy (bit 7
set), then every write-mode event (SetRW(0), SetDirData(1), WriteData) in the
trace of `HD44780_Command`, `HD44780_Putc` and `HD44780_Data` comes after at
least `n + 1` complete status reads, so after the first status read with bit 7
clear; and while all status reads report busy the operation only polls: with
fuel for `fuel ≤ n` rounds it is still in the loop after `fuel` rounds of status
read and DelayMs(1), having issued no write-mode event. -/
theorem busy_flag_holds_back_writes (rd : Nat → Nat) (fuel n : Nat) (w : World)
    (Cmd : Nat) (C : Int) (Data : Nat)
    (hb : Bound w.Handler) (hbusy : ∀ i, i < n → Busy rd (w.reads + 2 * i)) :
    (NoWriteBefore n w (HD44780_Command rd fuel Cmd w).2 ∧
     NoWriteBefore n w (HD44780_Putc rd fuel C w).2 ∧
     NoWriteBefore n w (HD44780_Data rd fuel Data w).2) ∧
    (fuel ≤ n →
      HD44780_Command rd fuel Cmd w =
        (Outcome.halt Halt.outOfFuel, advance w (2 * fuel) (pollTrace fuel)) ∧
      HD44780_Putc rd fuel C w =
        (Outcome.halt Halt.outOfFuel, advance w (2 * fuel) (pollTrace fuel)) ∧
      HD44780_Data rd fuel Data w =
        (Outcome.halt Halt.outOfFuel, advance w (2 * fuel) (pollTrace fuel)) ∧
      ∀ e ∈ pollTrace fuel, isWriteMode e = false) := by
  refine ⟨⟨?_, ?_, ?_⟩, fun hf => ⟨?_, ?_, ?_, pollTrace_quiet fuel⟩⟩
  · exact wait_then_quiet rd
      (fun _ => do HD44780_Write Cmd 0; pure HD44780_Result_t.HD44780_OK)
      (fun _ => Steady_bind (Steady_Write Cmd 0) fun _ => Steady_pure _) n fuel w hb hbusy
  · refine wait_then_quiet rd
      (fun pos => do
        (if C = 10 then HD44780_NewLine rd fuel pos else HD44780_Write (C % 256).toNat 1)
        pure HD44780_Result_t.HD44780_OK) ?_ n fuel w hb hbusy
    intro pos
    by_cases hC : C = 10
    · simp only [hC, if_true]
      exact Steady_bind (Steady_NewLine rd fuel pos) fun _ => Steady_pure _
    · simp only [hC, if_false]
      exact Steady_bind (Steady_Write _ 1) fun _ => Steady_pure _
  · exact wait_then_quiet rd
      (fun _ => do HD44780_Write Data 1; pure HD44780_Result_t.HD44780_OK)
      (fun _ => Steady_bind (Steady_Write Data 1) fun _ => Steady_pure _) n fuel w hb hbusy
  · exact wait_then_stuck rd
      (fun _ => do HD44780_Write Cmd 0; pure HD44780_Result_t.HD44780_OK)
      fuel w hb (fun i hi => hbusy i (by omega))
  · exact wait_then_stuck rd
      (fun pos => do
        (if C = 10 then HD44780_NewLine rd fuel pos else HD44780_Write (C % 256).toNat 1)
        pure HD44780_Result_t.HD44780_OK) fuel w hb (fun i hi => hbusy i (by omega))
  · exact wait_then_stuck rd
      (fun _ => do HD44780_Write Data 1; pure HD44780_Result_t.HD44780_OK)
      fuel w hb (fun i hi => hbusy i (by omega))

/-- Witness of C2: a display that is busy on the first status read, polled
with fuel for one round. -/
theorem busy_flag_holds_back_writes_witness :
    Bound freshWorld.Handler ∧
    (∀ i, i < 1 → Busy busyOnceStream (freshWorld.reads + 2 * i)) ∧
    ((NoWriteBefore 1 freshWorld (HD44780_Command busyOnceStream 1 0x01 freshWorld).2 ∧
      NoWriteBefore 1 freshWorld (HD44780_Putc busyOnceStream 1 65 freshWorld).2 ∧
      NoWriteBefore 1 freshWorld (HD44780_Data busyOnceStream 1 0x41 freshWorld).2) ∧
     (1 ≤ 1 →
      HD44780_Command busyOnceStream 1 0x01 freshWorld =
        (Outcome.halt Halt.outOfFuel, advance freshWorld (2 * 1) (pollTrace 1)) ∧
      HD44780_Putc busyOnceStream 1 65 freshWorld =
        (Outcome.halt Halt.outOfFuel, advance freshWorld (2 * 1) (pollTrace 1)) ∧
      HD44780_Data busyOnceStream 1 0x41 freshWorld =
        (Outcome.halt Halt.outOfFuel, advance freshWorld (2 * 1) (pollTrace 1)) ∧
      ∀ e ∈ pollTrace 1, isWriteMode e = false)) :=
  have hbusy : ∀ i, i < 1 → Busy busyOnceStream (freshWorld.reads + 2 * i) := by
    intro i hi
    have hi0 : i = 0 := by omega
    subst hi0
    decide
  ⟨by decide, hbusy,
    busy_flag_holds_back_writes busyOnceStream 1 1 freshWorld 0x01 65 0x41 (by decide) hbusy⟩

/-! ## Cursor positioning -/

/-- C3, as stated, fails at X = 0x80, Y = 0: on an idle display the run of
`HD44780_GoToXY` returns with the trace of one busy-wait and one instruction
write of the byte 0x00 (both nibbles 0x00), and the write transaction of the
byte 0x80 | (rowStart[0] + 0x80) = 0x80 occurs nowhere in that trace. -/
theorem HD44780_GoToXY_or_counterexample :
    HD44780_GoToXY idleStream 1 0x80 0 freshWorld =
      (Outcome.ret HD44780_Result_t.HD44780_OK,
        { Handler := boundHandler, reads := 4,
          trace := readTrace 0 ++ [Event.DelayUs 2] ++ readTrace 0 ++
            [Event.SetRS 0, Event.SetRW 0, Event.SetDirData 1,
             Event.WriteData 0x00, Event.SetE 1, Event.DelayUs 1, Event.SetE 0,
             Event.WriteData 0x00, Event.SetE 1, Event.DelayUs 1, Event.SetE 0,
             Event.WriteData 0xFF] }) ∧
    ¬ (writeTrace (0x80 ||| (rowStart 0 + 0x80)) 0 <:+:
        (HD44780_GoToXY idleStream 1 0x80 0 freshWorld).2.trace) := by
  have hc : FirstClear idleStream freshWorld.reads 0 :=
    ⟨fun k hk => absurd hk (Nat.not_lt_zero k), by decide⟩
  have hrun : HD44780_GoToXY idleStream 1 0x80 0 freshWorld =
      (Outcome.ret HD44780_Result_t.HD44780_OK,
        emit (afterWait freshWorld 0) (writeTrace 0 0)) := by
    have h := HD44780_Command_run idleStream 0 1 0 freshWorld (by decide) hc (by decide)
    exact bind_step (bind_step h rfl) rfl
  rw [hrun]
  constructor
  · rfl
  · decide

/-- C3, amended: for every X and every Y in 0..3, when the status read number
`n` is the first that reports not busy (and the fuel allows it),
`HD44780_GoToXY` returns OK after one busy-wait followed by exactly one
instruction write (RS = 0) of the byte (0x80 + rowStart[Y] + X) mod 256; that
byte is 0x80 | (rowStart[Y] + X) whenever rowStart[Y] + X < 0x80. -/
theorem HD44780_GoToXY_in_range (rd : Nat → Nat) (n fuel X Y : Nat) (w : World)
    (hb : Bound w.Handler) (hc : FirstClear rd w.reads n) (hf : n < fuel) (hY : Y < 4) :
    HD44780_GoToXY rd fuel X Y w =
      (Outcome.ret HD44780_Result_t.HD44780_OK,
        { Handler := w.Handler, reads := w.reads + (2 * n + 4),
          trace := w.trace ++ waitTrace n ++
            writeTrace ((0x80 + rowStart Y + X) % 256) 0 }) ∧
    (rowStart Y + X < 0x80 →
      (0x80 + rowStart Y + X) % 256 = 0x80 ||| (rowStart Y + X)) := by
  constructor
  · have h := fun c => HD44780_Command_run rd n fuel c w hb hc hf
    have hY4 : Y = 0 ∨ Y = 1 ∨ Y = 2 ∨ Y = 3 := by omega
    rcases hY4 with rfl | rfl | rfl | rfl <;>
    exact bind_step (bind_step (h _) rfl) rfl
  · intro hlt
    rw [Nat.add_assoc]
    exact add_eq_or_of_lt _ hlt

/-- Witness of C3 amended: column 5 of row 1 on a display that is busy once. -/
theorem HD44780_GoToXY_in_range_witness :
    Bound freshWorld.Handler ∧ FirstClear busyOnceStream freshWorld.reads 1 ∧
    HD44780_GoToXY busyOnceStream 2 5 1 freshWorld =
      (Outcome.ret HD44780_Result_t.HD44780_OK,
        { Handler := freshWorld.Handler, reads := freshWorld.reads + (2 * 1 + 4),
          trace := freshWorld.trace ++ waitTrace 1 ++
            writeTrace ((0x80 + rowStart 1 + 5) % 256) 0 }) :=
  have hc : FirstClear busyOnceStream freshWorld.reads 1 :=
    ⟨fun k hk => by
      have hk0 : k = 0 := by omega
      subst hk0
      decide, by decide⟩
  ⟨by decide, hc,
    (HD44780_GoToXY_in_range busyOnceStream 1 2 5 1 freshWorld (by decide) hc
      (by decide) (by decide)).1⟩

/-- C4: for every X and every Y ≥ 4, `HD44780_GoToXY` returns `HD44780_OK`
and leaves the world as it was: no call through any binding slot (not even a
busy poll), for every handler, every sample stream and every fuel. -/
theorem HD44780_GoToXY_out_of_range (rd : Nat → Nat) (fuel X Y : Nat) (w : World)
    (hY : 4 ≤ Y) :
    HD44780_GoToXY rd fuel X Y w = (Outcome.ret HD44780_Result_t.HD44780_OK, w) := by
  obtain ⟨y, rfl⟩ : ∃ y, Y = y + 4 := ⟨Y - 4, by omega⟩
  rfl

/-- Witness of C4: row 4 on a handler with no slot set at all. -/
theorem HD44780_GoToXY_out_of_range_witness :
    4 ≤ 4 ∧
    HD44780_GoToXY idleStream 0 7 4
        { Handler := { boundHandler with PlatformSetValRs := none, PlatformReadData := none },
          reads := 0, trace := [] } =
      (Outcome.ret HD44780_Result_t.HD44780_OK,
        { Handler := { boundHandler with PlatformSetValRs := none, PlatformReadData := none },
          reads := 0, trace := [] }) :=
  ⟨by decide, HD44780_GoToXY_out_of_range idleStream 0 7 4 _ (by decide)⟩

/-! ## Initialisation -/

/-- C5, as stated, fails for the handler whose only unset slot is the
line-initialisation hook `PlatformInitRsRwE`: on an idle display
`HD44780_Init` returns `HD44780_OK`, not `HD44780_FAIL`, and runs its whole
command sequence on the bus (for instance WriteData(0x30) of the first
forced-mode write). -/
theorem HD44780_Init_hook_unset_counterexample :
    hooklessWorld.Handler.PlatformInitRsRwE = none ∧
    HD44780_Init idleStream 1 2 16 0x0C hooklessWorld =
      (Outcome.ret HD44780_Result_t.HD44780_OK,
        { Handler := { hooklessHandler with Lines := 2, Length := 16 }, reads := 20,
          trace := initTrace 0 0 0 0 0 0x0C }) ∧
    Event.WriteData 0x30 ∈ initTrace 0 0 0 0 0 0x0C := by
  refine ⟨rfl, ?_, by decide⟩
  rw [HD44780_Init_run idleStream 1 2 16 0x0C hooklessWorld 0 0 0 0 0 (by decide)
    (idle_WaitsClear _ _ (by simp)) (by decide)]
  rfl

/-- C5, amended: for every handler in which at least one of the eight slots
SetValRs, SetValRw, SetValE, SetDirData, WriteData, ReadData, DelayMs, DelayUs
is `NULL`, `HD44780_Init` returns `HD44780_FAIL`, leaves the handler as it is,
takes no sample and adds nothing to the trace except the one call of the hook
`PlatformInitRsRwE` when that is set. -/
theorem HD44780_Init_slot_missing (rd : Nat → Nat) (fuel Lines Length DispAttr : Nat)
    (w : World) (hnull : SlotMissing w.Handler) :
    HD44780_Init rd fuel Lines Length DispAttr w =
      (Outcome.ret HD44780_Result_t.HD44780_FAIL,
        { Handler := w.Handler, reads := w.reads,
          trace := w.trace ++
            (if w.Handler.PlatformInitRsRwE.isSome then [Event.InitRsRwE] else []) }) := by
  rw [HD44780_Init_fail rd fuel Lines Length DispAttr w ((SlotMissing_iff _).1 hnull)]
  rfl

/-- Witness of C5 amended: with only `PlatformDelayUs` unset the hook is called
and the initialisation fails. -/
theorem HD44780_Init_slot_missing_witness :
    SlotMissing delaylessWorld.Handler ∧
    HD44780_Init idleStream 1 2 16 0x0C delaylessWorld =
      (Outcome.ret HD44780_Result_t.HD44780_FAIL,
        { Handler := delaylessHandler, reads := 0, trace := [Event.InitRsRwE] }) :=
  ⟨by decide, HD44780_Init_slot_missing idleStream 1 2 16 0x0C delaylessWorld (by decide)⟩

/-- C6: `HD44780_Init` returns `HD44780_FAIL` exactly when one of the eight
slots SetValRs .. DelayUs is `NULL`.  The hook `PlatformInitRsRwE` is optional:
the trace that `HD44780_Init` adds starts with the one call of the hook when it
is set and with nothing when it is `NULL`, and no further call of the hook
follows; on failure that call is the whole of what is added, so the hook runs
before the check; and with the eight slots set (the hook set or not) and busy
polls that terminate the initialisation returns `HD44780_OK`. -/
theorem HD44780_Init_fail_iff (rd : Nat → Nat) (fuel Lines Length DispAttr : Nat)
    (w : World) :
    ((HD44780_Init rd fuel Lines Length DispAttr w).1 =
        Outcome.ret HD44780_Result_t.HD44780_FAIL ↔ SlotMissing w.Handler) ∧
    (∃ t, (HD44780_Init rd fuel Lines Length DispAttr w).2.trace =
        w.trace ++ (if w.Handler.PlatformInitRsRwE.isSome then [Event.InitRsRwE] else []) ++ t ∧
        Event.InitRsRwE ∉ t ∧ (SlotMissing w.Handler → t = [])) ∧
    (∀ n1 n2 n3 n4 n5, ¬ SlotMissing w.Handler →
      WaitsClear rd w.reads [n1, n2, n3, n4, n5] →
      n1 < fuel ∧ n2 < fuel ∧ n3 < fuel ∧ n4 < fuel ∧ n5 < fuel →
      (HD44780_Init rd fuel Lines Length DispAttr w).1 =
        Outcome.ret HD44780_Result_t.HD44780_OK) := by
  by_cases hb : Bound w.Handler
  · have hns : ¬ SlotMissing w.Handler := fun h => (SlotMissing_iff _).1 h hb
    have hrun := HD44780_Init_bound rd fuel Lines Length DispAttr w hb
    refine ⟨?_, ?_, ?_⟩
    · rw [hrun]
      exact ⟨fun h => absurd h (initSequence_ne_fail rd fuel DispAttr _), fun h => absurd h hns⟩
    · obtain ⟨-, t, ht, hn⟩ := Steady_initSequence rd fuel DispAttr
        { Handler := { w.Handler with Lines := Lines, Length := Length }, reads := w.reads,
          trace := w.trace ++ hookTrace w.Handler }
      exact ⟨t, by rw [hrun, ht]; rfl, hn, fun h => absurd h hns⟩
    · intro n1 n2 n3 n4 n5 _ hc hf
      rw [HD44780_Init_run rd fuel Lines Length DispAttr w n1 n2 n3 n4 n5 hb hc hf]
  · have hs : SlotMissing w.Handler := (SlotMissing_iff _).2 hb
    have hrun := HD44780_Init_fail rd fuel Lines Length DispAttr w hb
    refine ⟨?_, ?_, ?_⟩
    · rw [hrun]
      exact ⟨fun _ => hs, fun _ => rfl⟩
    · exact ⟨[], by rw [hrun]; simp [hookTrace], by simp, fun _ => rfl⟩
    · intro n1 n2 n3 n4 n5 h
      exact absurd hs h

/-- Witness of C6: with the hook `NULL` and the other eight slots set the
initialisation of an idle display returns `HD44780_OK`. -/
theorem HD44780_Init_fail_iff_witness :
    hooklessWorld.Handler.PlatformInitRsRwE = none ∧
    (HD44780_Init idleStream 1 2 16 0x0C hooklessWorld).1 =
      Outcome.ret HD44780_Result_t.HD44780_OK :=
  ⟨rfl, (HD44780_Init_fail_iff idleStream 1 2 16 0x0C hooklessWorld).2.2 0 0 0 0 0
    (by decide) (idle_WaitsClear _ _ (by simp)) (by decide)⟩

/-- C7: on a handler with the eight checked slots set (the hook set or not),
for every Lines, Length and DispAttr, when the five busy-waits see `n1`, ...,
`n5` busy status reads before the display reports not busy, `HD44780_Init`
returns `HD44780_OK` and the trace it adds is: the call of the hook if set, the
instruction writes (RS = 0) of 0x33 and 0x32 with no status read before them,
and then, each after its own busy-wait, the instruction writes of 0x28, 0x08,
0x01, 0x06 and DispAttr.  The hook call and the busy-waits hold no write-mode
event, so these seven are all the writes. -/
theorem HD44780_Init_command_sequence (rd : Nat → Nat) (fuel Lines Length DispAttr : Nat)
    (w : World) (n1 n2 n3 n4 n5 : Nat) (hb : Bound w.Handler)
    (hc : WaitsClear rd w.reads [n1, n2, n3, n4, n5])
    (hf : n1 < fuel ∧ n2 < fuel ∧ n3 < fuel ∧ n4 < fuel ∧ n5 < fuel) :
    HD44780_Init rd fuel Lines Length DispAttr w =
      (Outcome.ret HD44780_Result_t.HD44780_OK,
        { Handler := { w.Handler with Lines := Lines, Length := Length },
          reads := w.reads + (2 * n1 + 4) + (2 * n2 + 4) + (2 * n3 + 4) + (2 * n4 + 4) +
            (2 * n5 + 4),
          trace := w.trace ++
            (if w.Handler.PlatformInitRsRwE.isSome then [Event.InitRsRwE] else []) ++
            (writeTrace 0x33 0 ++ writeTrace 0x32 0 ++
             waitTrace n1 ++ writeTrace 0x28 0 ++
             waitTrace n2 ++ writeTrace 0x08 0 ++
             waitTrace n3 ++ writeTrace 0x01 0 ++
             waitTrace n4 ++ writeTrace 0x06 0 ++
             waitTrace n5 ++ writeTrace DispAttr 0) }) ∧
    isWriteMode Event.InitRsRwE = false ∧
    (∀ n, ∀ e ∈ waitTrace n, isWriteMode e = false) := by
  refine ⟨?_, rfl, waitTrace_quiet⟩
  rw [HD44780_Init_run rd fuel Lines Length DispAttr w n1 n2 n3 n4 n5 hb hc hf]
  rfl

/-- Witness of C7: the initialisation of an idle display. -/
theorem HD44780_Init_command_sequence_witness :
    Bound freshWorld.Handler ∧ WaitsClear idleStream freshWorld.reads [0, 0, 0, 0, 0] ∧
    (HD44780_Init idleStream 1 2 16 0x0C freshWorld).1 =
      Outcome.ret HD44780_Result_t.HD44780_OK :=
  ⟨by decide, idle_WaitsClear _ _ (by simp),
    congrArg Prod.fst (HD44780_Init_command_sequence idleStream 1 2 16 0x0C freshWorld
      0 0 0 0 0 (by decide) (idle_WaitsClear _ _ (by simp)) (by decide)).1⟩

/-- C9: whenever `HD44780_Init(h, Lines, Length, DispAttr)` returns
`HD44780_OK`, the handler afterwards is the handler before with the field
`Lines` set to Lines and `Length` set to Length, whatever these fields held
before, and with the nine binding fields unchanged; so a second successful
`HD44780_Init` replaces the values stored by the first. -/
theorem HD44780_Init_stores (rd : Nat → Nat) (fuel Lines Length DispAttr : Nat) (w : World)
    (hok : (HD44780_Init rd fuel Lines Length DispAttr w).1 =
      Outcome.ret HD44780_Result_t.HD44780_OK) :
    (HD44780_Init rd fuel Lines Length DispAttr w).2.Handler =
      { w.Handler with Lines := Lines, Length := Length } ∧
    (∀ (rd2 : Nat → Nat) (fuel2 Lines2 Length2 DispAttr2 : Nat),
      (HD44780_Init rd2 fuel2 Lines2 Length2 DispAttr2
          (HD44780_Init rd fuel Lines Length DispAttr w).2).1 =
        Outcome.ret HD44780_Result_t.HD44780_OK →
      (HD44780_Init rd2 fuel2 Lines2 Length2 DispAttr2
          (HD44780_Init rd fuel Lines Length DispAttr w).2).2.Handler =
        { w.Handler with Lines := Lines2, Length := Length2 }) := by
  have key : ∀ (rd : Nat → Nat) (fuel L N D : Nat) (w : World),
      (HD44780_Init rd fuel L N D w).1 = Outcome.ret HD44780_Result_t.HD44780_OK →
      (HD44780_Init rd fuel L N D w).2.Handler = { w.Handler with Lines := L, Length := N } := by
    intro rd fuel L N D w hok
    by_cases hb : Bound w.Handler
    · rw [HD44780_Init_bound rd fuel L N D w hb]
      exact (Steady_initSequence rd fuel D _).1
    · rw [HD44780_Init_fail rd fuel L N D w hb] at hok
      exact absurd hok (by simp)
  refine ⟨key rd fuel Lines Length DispAttr w hok, ?_⟩
  intro rd2 fuel2 Lines2 Length2 DispAttr2 hok2
  rw [key rd2 fuel2 Lines2 Length2 DispAttr2 _ hok2, key rd fuel Lines Length DispAttr w hok]

/-- Witness of C9: a handler initialised for 2 x 16 and then again for 4 x 20
holds Lines = 4 and Length = 20. -/
theorem HD44780_Init_stores_witness :
    (HD44780_Init idleStream 1 4 20 0x0C
        { Handler := { boundHandler with Lines := 2, Length := 16 }, reads := 20,
          trace := [] }).1 = Outcome.ret HD44780_Result_t.HD44780_OK ∧
    (HD44780_Init idleStream 1 4 20 0x0C
        { Handler := { boundHandler with Lines := 2, Length := 16 }, reads := 20,
          trace := [] }).2.Handler = { boundHandler with Lines := 4, Length := 20 } :=
  have hok : (HD44780_Init idleStream 1 4 20 0x0C
        { Handler := { boundHandler with Lines := 2, Length := 16 }, reads := 20,
          trace := [] }).1 = Outcome.ret HD44780_Result_t.HD44780_OK :=
    congrArg Prod.fst (HD44780_Init_run idleStream 1 4 20 0x0C _ 0 0 0 0 0 (by decide)
      (idle_WaitsClear _ _ (by simp)) (by decide))
  ⟨hok, (HD44780_Init_stores idleStream 1 4 20 0x0C _ hok).1⟩

/-! ## Strings -/

/-- C10: for every buffer that holds the characters `pre`, none of them null,
then a null character, then anything (`post`), `HD44780_Puts(h, Str, 0)` is one
`HD44780_Putc` for each character of `pre`, in order, followed by the return of
`HD44780_OK`: the terminator and what follows it are neither written nor read,
so the run is the same whatever follows the terminator, also when the buffer
ends with it. -/
theorem HD44780_Puts_until_null (rd : Nat → Nat) (fuel : Nat) (pre post : List Int)
    (w : World) (hpre : ∀ c ∈ pre, c ≠ 0) :
    HD44780_Puts rd fuel (pre ++ 0 :: post) 0 w =
      (putcEach rd fuel pre >>= fun _ => pure HD44780_Result_t.HD44780_OK) w ∧
    HD44780_Puts rd fuel (pre ++ 0 :: post) 0 w = HD44780_Puts rd fuel (pre ++ [0]) 0 w := by
  have h1 := HD44780_Puts_untilNull_eq rd fuel post pre hpre
  have h2 := HD44780_Puts_untilNull_eq rd fuel [] pre hpre
  constructor
  · simp only [HD44780_Puts, if_true, h1]
  · simp only [HD44780_Puts, if_true, h1, h2]

/-- Witness of C10: the buffer "AB\0CD" gives Putc('A'), Putc('B') only. -/
theorem HD44780_Puts_until_null_witness :
    (∀ c ∈ ([65, 66] : List Int), c ≠ 0) ∧
    HD44780_Puts idleStream 1 ([65, 66] ++ 0 :: [67, 68]) 0 freshWorld =
      (putcEach idleStream 1 [65, 66] >>= fun _ => pure HD44780_Result_t.HD44780_OK)
        freshWorld :=
  ⟨by decide, (HD44780_Puts_until_null idleStream 1 [65, 66] [67, 68] freshWorld
    (by decide)).1⟩

/-- C11: for every Len of at least 1 and every buffer, `HD44780_Puts(h, Str, Len)`
is one `HD44780_Putc` per character, in order, of the first min(Len, k)
characters and then the return of `HD44780_OK`, where k is the index of the
first null.  With `pre` free of nulls: when the null comes at index
k = |pre| < Len, the characters are `pre`, whatever follows the null; when
|pre| = Len, the characters are `pre`, whatever is stored from index Len on
(also nothing), so no element at an index ≥ Len is read.  A line feed in `pre`
goes through `HD44780_Putc` like every other character and counts as one of
the Len characters. -/
theorem HD44780_Puts_counted_chars (rd : Nat → Nat) (fuel Len : Nat) (pre post : List Int)
    (w : World) (hLen : 0 < Len) (hpre : ∀ c ∈ pre, c ≠ 0) :
    (pre.length < Len →
      HD44780_Puts rd fuel (pre ++ 0 :: post) Len w =
        (putcEach rd fuel pre >>= fun _ => pure HD44780_Result_t.HD44780_OK) w) ∧
    (pre.length = Len →
      HD44780_Puts rd fuel (pre ++ post) Len w =
        (putcEach rd fuel pre >>= fun _ => pure HD44780_Result_t.HD44780_OK) w) := by
  have hne : ¬ Len = 0 := by omega
  constructor
  · intro hl
    simp only [HD44780_Puts, if_neg hne, HD44780_Puts_counted_null rd fuel post pre Len hpre hl]
  · intro hl
    simp only [HD44780_Puts, if_neg hne, HD44780_Puts_counted_full rd fuel post pre Len hpre hl]

/-- Witness of C11: the buffer "AB\nX" with Len = 3 gives Putc('A'),
Putc('B'), Putc('\n') and nothing for 'X'. -/
theorem HD44780_Puts_counted_chars_witness :
    0 < 3 ∧ (∀ c ∈ ([65, 66, 10] : List Int), c ≠ 0) ∧
    HD44780_Puts idleStream 1 ([65, 66, 10] ++ [88, 0]) 3 freshWorld =
      (putcEach idleStream 1 [65, 66, 10] >>= fun _ => pure HD44780_Result_t.HD44780_OK)
        freshWorld :=
  ⟨by decide, by decide,
    (HD44780_Puts_counted_chars idleStream 1 3 [65, 66, 10] [88, 0] freshWorld
      (by decide) (by decide)).2 rfl⟩

/-! ## Characters, commands and data bytes -/

/-- C12: on a handler whose slots are set and with busy-waits that terminate,
`HD44780_Putc(h, '\n')` returns OK after one busy-wait, whose result `pos`
selects the row, and then the busy-wait and the single instruction write
(RS = 0) of `HD44780_Command` for the byte 0x80 + newLineTarget(pos); no event
SetRS(1) occurs, so no data byte is written.  For every other character C, also
a negative one or one with the top bit set, it returns OK after one busy-wait
and exactly one write with RS = 1 of the byte C mod 256. -/
theorem HD44780_Putc_line_feed_or_data (rd : Nat → Nat) (n1 n2 fuel : Nat) (C : Int)
    (w : World) (hb : Bound w.Handler) (hc : WaitsClear rd w.reads [n1, n2])
    (hf : n1 < fuel ∧ n2 < fuel) :
    HD44780_Putc rd fuel 10 w =
      (Outcome.ret HD44780_Result_t.HD44780_OK,
        { Handler := w.Handler, reads := w.reads + (2 * n1 + 4) + (2 * n2 + 4),
          trace := w.trace ++ waitTrace n1 ++ waitTrace n2 ++
            writeTrace (0x80 + newLineTarget (readValue rd (w.reads + 2 * n1 + 2))) 0 }) ∧
    Event.SetRS 1 ∉ waitTrace n1 ++ waitTrace n2 ++
      writeTrace (0x80 + newLineTarget (readValue rd (w.reads + 2 * n1 + 2))) 0 ∧
    (C ≠ 10 →
      HD44780_Putc rd fuel C w =
        (Outcome.ret HD44780_Result_t.HD44780_OK,
          { Handler := w.Handler, reads := w.reads + (2 * n1 + 4),
            trace := w.trace ++ waitTrace n1 ++ writeTrace (C % 256).toNat 1 }) ∧
      (C % 256).toNat < 256) := by
  refine ⟨?_, ?_, fun hC => ⟨?_, ?_⟩⟩
  · rw [HD44780_Putc_run_newline rd n1 n2 fuel w hb hc hf]
    rfl
  · have h1 := SetRS_one_not_mem_waitTrace n1
    have h2 := SetRS_one_not_mem_waitTrace n2
    have h3 := SetRS_one_not_mem_writeTrace
      (0x80 + newLineTarget (readValue rd (w.reads + 2 * n1 + 2)))
    simp only [List.mem_append, not_or]
    exact ⟨⟨h1, h2⟩, h3⟩
  · rw [HD44780_Putc_run_char rd n1 fuel C w hC hb hc.1 hf.1]
    rfl
  · have h := Int.emod_lt_of_pos C (show (0 : Int) < 256 by norm_num)
    have h0 := Int.emod_nonneg C (show (256 : Int) ≠ 0 by norm_num)
    omega

/-- Witness of C12: the line feed and the character with code -56 (0xC8) on an
idle display. -/
theorem HD44780_Putc_line_feed_or_data_witness :
    Bound freshWorld.Handler ∧ WaitsClear idleStream freshWorld.reads [0, 0] ∧
    HD44780_Putc idleStream 1 10 freshWorld =
      (Outcome.ret HD44780_Result_t.HD44780_OK,
        { Handler := freshWorld.Handler,
          reads := freshWorld.reads + (2 * 0 + 4) + (2 * 0 + 4),
          trace := freshWorld.trace ++ waitTrace 0 ++ waitTrace 0 ++
            writeTrace
              (0x80 + newLineTarget (readValue idleStream (freshWorld.reads + 2 * 0 + 2))) 0 }) ∧
    HD44780_Putc idleStream 1 (-56) freshWorld =
      (Outcome.ret HD44780_Result_t.HD44780_OK,
        { Handler := freshWorld.Handler, reads := freshWorld.reads + (2 * 0 + 4),
          trace := freshWorld.trace ++ waitTrace 0 ++ writeTrace ((-56 : Int) % 256).toNat 1 }) :=
  have h := HD44780_Putc_line_feed_or_data idleStream 0 0 1 (-56) freshWorld (by decide)
    (idle_WaitsClear _ _ (by simp)) (by decide)
  ⟨by decide, idle_WaitsClear _ _ (by simp), h.1, (h.2.2 (by decide)).1⟩

/-- C13: for every byte b other than 0x0A and every character C that converts
to b (C mod 256 = b, so for a signed and for an unsigned `char`),
`HD44780_Data(h, b)` and `HD44780_Putc(h, C)` are the same run: same result,
same trace, for every stream and fuel.  For b = 0x0A they differ: with
busy-waits that terminate `HD44780_Data` returns OK after one busy-wait and the
data write (RS = 1) of 0x0A, and its trace is not the trace of
`HD44780_Putc(h, '\n')`. -/
theorem HD44780_Data_vs_Putc (rd : Nat → Nat) (fuel : Nat) (w : World) :
    (∀ (b : Nat) (C : Int), (C % 256).toNat = b → b ≠ 0x0A →
      HD44780_Data rd fuel b w = HD44780_Putc rd fuel C w) ∧
    (∀ n1 n2, Bound w.Handler → WaitsClear rd w.reads [n1, n2] → n1 < fuel ∧ n2 < fuel →
      HD44780_Data rd fuel 0x0A w =
        (Outcome.ret HD44780_Result_t.HD44780_OK,
          { Handler := w.Handler, reads := w.reads + (2 * n1 + 4),
            trace := w.trace ++ waitTrace n1 ++ writeTrace 0x0A 1 }) ∧
      (HD44780_Data rd fuel 0x0A w).2.trace ≠ (HD44780_Putc rd fuel 10 w).2.trace) := by
  constructor
  · intro b C hCb hb
    have hC : C ≠ 10 := by
      intro h
      rw [h] at hCb
      exact hb hCb.symm
    have e : HD44780_Putc rd fuel C =
        (HD44780_WaitBusy rd fuel >>= fun _ =>
          (HD44780_Write (C % 256).toNat 1 >>= fun _ => pure HD44780_Result_t.HD44780_OK)) := by
      unfold HD44780_Putc
      simp only [if_neg hC]
    rw [e, hCb]
    rfl
  · intro n1 n2 hb hc hf
    have hd := HD44780_Data_run rd n1 fuel 0x0A w hb hc.1 hf.1
    have hp := HD44780_Putc_run_newline rd n1 n2 fuel w hb hc hf
    refine ⟨by rw [hd]; rfl, ?_⟩
    rw [hd, hp]
    intro h
    have hl := congrArg List.length h
    simp only [emit_trace, afterWait, advance_trace, List.length_append, length_writeTrace,
      length_waitTrace] at hl
    omega

/-- Witness of C13: the byte 0xC8 and the characters 200 and -56; the byte 0x0A
on an idle display. -/
theorem HD44780_Data_vs_Putc_witness :
    HD44780_Data idleStream 1 0xC8 freshWorld = HD44780_Putc idleStream 1 200 freshWorld ∧
    HD44780_Data idleStream 1 0xC8 freshWorld = HD44780_Putc idleStream 1 (-56) freshWorld ∧
    (HD44780_Data idleStream 1 0x0A freshWorld).2.trace ≠
      (HD44780_Putc idleStream 1 10 freshWorld).2.trace :=
  have h := HD44780_Data_vs_Putc idleStream 1 freshWorld
  ⟨h.1 0xC8 200 (by decide) (by decide), h.1 0xC8 (-56) (by decide) (by decide),
    (h.2 0 0 (by decide) (idle_WaitsClear _ _ (by simp)) (by decide)).2⟩

/-- C14: for every byte cmd, `HD44780_Command(h, cmd)` is the run of
`HD44780_WaitBusy` followed, when that returns, by one `HD44780_Write` of cmd
itself with RS = 0 and the return of OK: if the busy-wait halts, so does the
command, in the same world; if it returns, the command adds exactly the twelve
events of the write of cmd with RS = 0; with a busy-wait that terminates after
`n` busy status reads the whole trace is that of the busy-wait followed by that
of the write. -/
theorem HD44780_Command_wait_then_write (rd : Nat → Nat) (fuel cmd : Nat) (w : World)
    (hb : Bound w.Handler) :
    (∀ r w1, HD44780_WaitBusy rd fuel w = (Outcome.halt r, w1) →
      HD44780_Command rd fuel cmd w = (Outcome.halt r, w1)) ∧
    (∀ c w1, HD44780_WaitBusy rd fuel w = (Outcome.ret c, w1) →
      HD44780_Write cmd 0 w1 = (Outcome.ret (), emit w1 (writeTrace cmd 0)) ∧
      HD44780_Command rd fuel cmd w =
        (Outcome.ret HD44780_Result_t.HD44780_OK, emit w1 (writeTrace cmd 0))) ∧
    (∀ n, FirstClear rd w.reads n → n < fuel →
      HD44780_Command rd fuel cmd w =
        (Outcome.ret HD44780_Result_t.HD44780_OK,
          { Handler := w.Handler, reads := w.reads + (2 * n + 4),
            trace := w.trace ++ waitTrace n ++ writeTrace cmd 0 })) := by
  refine ⟨?_, ?_, ?_⟩
  · intro r w1 h
    unfold HD44780_Command
    rw [bind_run, bind_halt h]
  · intro c w1 h
    have hh : w1.Handler = w.Handler := by
      have := (Steady_WaitBusy rd fuel w).1
      rw [h] at this
      exact this
    have hb1 : Bound w1.Handler := hh ▸ hb
    have hw := HD44780_Write_run cmd 0 w1 hb1
    exact ⟨hw, bind_step h (bind_step hw rfl)⟩
  · intro n hc hf
    rw [HD44780_Command_run rd n fuel cmd w hb hc hf]
    rfl

/-- Witness of C14: the command 0x0C on a display that is busy once. -/
theorem HD44780_Command_wait_then_write_witness :
    Bound freshWorld.Handler ∧
    HD44780_Command busyOnceStream 2 0x0C freshWorld =
      (Outcome.ret HD44780_Result_t.HD44780_OK,
        { Handler := freshWorld.Handler, reads := freshWorld.reads + (2 * 1 + 4),
          trace := freshWorld.trace ++ waitTrace 1 ++ writeTrace 0x0C 0 }) :=
  ⟨by decide,
    (HD44780_Command_wait_then_write busyOnceStream 2 0x0C freshWorld (by decide)).2.2 1
      ⟨fun k hk => by
        have hk0 : k = 0 := by omega
        subst hk0
        decide, by decide⟩ (by decide)⟩

/-- C15: for every handler, stream and fuel, `HD44780_ClearScreen(h)` is the
same run (result and world, so trace) as `HD44780_Command(h, 0x01)`, and
`HD44780_Home(h)` the same run as `HD44780_Command(h, 0x02)`. -/
theorem HD44780_ClearScreen_Home_eq_Command (rd : Nat → Nat) (fuel : Nat) (w : World) :
    HD44780_ClearScreen rd fuel w = HD44780_Command rd fuel 0x01 w ∧
    HD44780_Home rd fuel w = HD44780_Command rd fuel 0x02 w := by
  have key : ∀ cmd, (HD44780_Command rd fuel cmd >>=
      fun _ => (pure HD44780_Result_t.HD44780_OK : Bus HD44780_Result_t)) w =
      HD44780_Command rd fuel cmd w := by
    intro cmd
    rcases hcw : HD44780_Command rd fuel cmd w with ⟨o, w1⟩
    cases o with
    | ret r =>
      have hr : r = HD44780_Result_t.HD44780_OK :=
        HD44780_Command_ok (by rw [hcw])
      rw [bind_run, bind_ret hcw, hr]
      rfl
    | halt e => rw [bind_run, bind_halt hcw]
  exact ⟨key 0x01, key 0x02⟩

/-- C16: on a handler whose slots are set, two calls of `HD44780_ClearScreen` in
succession, whose busy-waits see `n1` and `n2` busy status reads, return OK
with the trace of two complete commands: busy-wait, instruction write of 0x01,
busy-wait, instruction write of 0x01.  Each busy-wait holds at least two status
reads (four samples), the handler after the first call is the handler before
it, and the second call runs from the world the first one left exactly as it
runs on its own. -/
theorem HD44780_ClearScreen_twice (rd : Nat → Nat) (n1 n2 fuel : Nat) (w : World)
    (hb : Bound w.Handler) (hc : WaitsClear rd w.reads [n1, n2])
    (hf : n1 < fuel ∧ n2 < fuel) :
    (HD44780_ClearScreen rd fuel >>= fun _ => HD44780_ClearScreen rd fuel) w =
      (Outcome.ret HD44780_Result_t.HD44780_OK,
        { Handler := w.Handler, reads := w.reads + (2 * n1 + 4) + (2 * n2 + 4),
          trace := w.trace ++ waitTrace n1 ++ writeTrace 0x01 0 ++
            waitTrace n2 ++ writeTrace 0x01 0 }) ∧
    (HD44780_ClearScreen rd fuel >>= fun _ => HD44780_ClearScreen rd fuel) w =
      HD44780_ClearScreen rd fuel (HD44780_ClearScreen rd fuel w).2 ∧
    (HD44780_ClearScreen rd fuel w).2.Handler = w.Handler ∧
    4 ≤ countReads (waitTrace n1) ∧ 4 ≤ countReads (waitTrace n2) := by
  obtain ⟨hc1, hc2, -⟩ := hc
  have h1 := HD44780_ClearScreen_run rd n1 fuel w hb hc1 hf.1
  have hb1 : Bound (emit (afterWait w n1) (writeTrace 0x01 0)).Handler := hb
  have h2 := HD44780_ClearScreen_run rd n2 fuel _ hb1 hc2 hf.2
  refine ⟨?_, ?_, ?_, ?_, ?_⟩
  · rw [bind_run, bind_ret h1, h2]
    rfl
  · rw [bind_run, bind_ret h1, h1]
  · rw [h1]
    rfl
  · rw [countReads_waitTrace]; omega
  · rw [countReads_waitTrace]; omega

/-- Witness of C16: two clears of an idle display. -/
theorem HD44780_ClearScreen_twice_witness :
    Bound freshWorld.Handler ∧ WaitsClear idleStream freshWorld.reads [0, 0] ∧
    (HD44780_ClearScreen idleStream 1 >>= fun _ => HD44780_ClearScreen idleStream 1)
        freshWorld =
      (Outcome.ret HD44780_Result_t.HD44780_OK,
        { Handler := freshWorld.Handler,
          reads := freshWorld.reads + (2 * 0 + 4) + (2 * 0 + 4),
          trace := freshWorld.trace ++ waitTrace 0 ++ writeTrace 0x01 0 ++
            waitTrace 0 ++ writeTrace 0x01 0 }) :=
  ⟨by decide, idle_WaitsClear _ _ (by simp),
    (HD44780_ClearScreen_twice idleStream 0 0 1 freshWorld (by decide)
      (idle_WaitsClear _ _ (by simp)) (by decide)).1⟩

/-! ## Results -/

/-- C17: each of `HD44780_ClearScreen`, `HD44780_Home`, `HD44780_GoToXY`,
`HD44780_Putc`, `HD44780_Puts`, `HD44780_Command` and `HD44780_Data` returns
`HD44780_OK` whenever it returns, for every handler, argument, stream and fuel;
on a handler whose slots are set, a display that is never busy and a buffer
that holds a null, each of them does return `HD44780_OK`; and `HD44780_Init`
does return `HD44780_FAIL` (on a handler with a checked slot unset). -/
theorem only_Init_returns_FAIL (rd : Nat → Nat) (fuel X Y Cmd Data Len : Nat) (C : Int)
    (Str : List Int) (w : World) :
    ((∀ r, (HD44780_ClearScreen rd fuel w).1 = Outcome.ret r →
        r = HD44780_Result_t.HD44780_OK) ∧
     (∀ r, (HD44780_Home rd fuel w).1 = Outcome.ret r → r = HD44780_Result_t.HD44780_OK) ∧
     (∀ r, (HD44780_GoToXY rd fuel X Y w).1 = Outcome.ret r →
        r = HD44780_Result_t.HD44780_OK) ∧
     (∀ r, (HD44780_Putc rd fuel C w).1 = Outcome.ret r → r = HD44780_Result_t.HD44780_OK) ∧
     (∀ r, (HD44780_Puts rd fuel Str Len w).1 = Outcome.ret r →
        r = HD44780_Result_t.HD44780_OK) ∧
     (∀ r, (HD44780_Command rd fuel Cmd w).1 = Outcome.ret r →
        r = HD44780_Result_t.HD44780_OK) ∧
     (∀ r, (HD44780_Data rd fuel Data w).1 = Outcome.ret r →
        r = HD44780_Result_t.HD44780_OK)) ∧
    (Bound w.Handler → NeverBusy rd → 0 < fuel → (0 : Int) ∈ Str →
      (HD44780_ClearScreen rd fuel w).1 = Outcome.ret HD44780_Result_t.HD44780_OK ∧
      (HD44780_Home rd fuel w).1 = Outcome.ret HD44780_Result_t.HD44780_OK ∧
      (HD44780_GoToXY rd fuel X Y w).1 = Outcome.ret HD44780_Result_t.HD44780_OK ∧
      (HD44780_Putc rd fuel C w).1 = Outcome.ret HD44780_Result_t.HD44780_OK ∧
      (HD44780_Puts rd fuel Str Len w).1 = Outcome.ret HD44780_Result_t.HD44780_OK ∧
      (HD44780_Command rd fuel Cmd w).1 = Outcome.ret HD44780_Result_t.HD44780_OK ∧
      (HD44780_Data rd fuel Data w).1 = Outcome.ret HD44780_Result_t.HD44780_OK) ∧
    (HD44780_Init idleStream 1 2 16 0x0C delaylessWorld).1 =
      Outcome.ret HD44780_Result_t.HD44780_FAIL := by
  refine ⟨⟨?_, ?_, ?_, ?_, ?_, ?_, ?_⟩, ?_, ?_⟩
  · intro r h
    exact bind_ok (m := HD44780_Command rd fuel (1 <<< HD44780_CLR)) h
  · intro r h
    exact bind_ok (m := HD44780_Command rd fuel (1 <<< HD44780_HOME)) h
  · intro r h
    unfold HD44780_GoToXY at h
    exact bind_ok h
  · intro r h
    exact HD44780_Putc_ok h
  · intro r h
    unfold HD44780_Puts at h
    exact bind_ok h
  · intro r h
    exact HD44780_Command_ok h
  · intro r h
    exact HD44780_Data_ok h
  · intro hb hn hf h0
    have hc := hn.firstClear w.reads
    refine ⟨?_, ?_, ?_, ?_, ?_, ?_, ?_⟩
    · rw [HD44780_ClearScreen_run rd 0 fuel w hb hc hf]
    · rw [HD44780_Home_run rd 0 fuel w hb hc hf]
    · exact HD44780_GoToXY_returns rd 0 fuel X Y w hb hc hf
    · obtain ⟨w1, h1, -⟩ := HD44780_Putc_returns rd fuel C w hb hn hf
      rw [h1]
    · exact HD44780_Puts_returns rd fuel Len Str w hb hn hf h0
    · rw [HD44780_Command_run rd 0 fuel Cmd w hb hc hf]
    · rw [HD44780_Data_run rd 0 fuel Data w hb hc hf]
  · rw [HD44780_Init_fail idleStream 1 2 16 0x0C delaylessWorld (by decide)]

/-- Witness of C17: the seven operations on an idle display. -/
theorem only_Init_returns_FAIL_witness :
    Bound freshWorld.Handler ∧ NeverBusy idleStream ∧ (0 : Int) ∈ ([72, 105, 0] : List Int) ∧
    (HD44780_ClearScreen idleStream 1 freshWorld).1 =
      Outcome.ret HD44780_Result_t.HD44780_OK ∧
    (HD44780_Home idleStream 1 freshWorld).1 = Outcome.ret HD44780_Result_t.HD44780_OK ∧
    (HD44780_GoToXY idleStream 1 3 1 freshWorld).1 = Outcome.ret HD44780_Result_t.HD44780_OK ∧
    (HD44780_Putc idleStream 1 10 freshWorld).1 = Outcome.ret HD44780_Result_t.HD44780_OK ∧
    (HD44780_Puts idleStream 1 [72, 105, 0] 0 freshWorld).1 =
      Outcome.ret HD44780_Result_t.HD44780_OK ∧
    (HD44780_Command idleStream 1 0x0C freshWorld).1 =
      Outcome.ret HD44780_Result_t.HD44780_OK ∧
    (HD44780_Data idleStream 1 0x41 freshWorld).1 = Outcome.ret HD44780_Result_t.HD44780_OK :=
  ⟨by decide, idleStream_NeverBusy, by decide,
    (only_Init_returns_FAIL idleStream 1 3 1 0x0C 0x41 0 10 [72, 105, 0] freshWorld).2.1
      (by decide) idleStream_NeverBusy (by decide) (by decide)⟩

/-! ## The address counter and the new line -/

/-- C18, as stated, fails on a stream whose status read after the 2 us settle
has bit 7 set: `HD44780_WaitBusy` returns 0x80, which is not below 0x80 and is
not the low 7 bits (0x00) of that read. -/
theorem HD44780_WaitBusy_bit7_counterexample :
    HD44780_WaitBusy lateBusyStream 1 freshWorld =
      (Outcome.ret 0x80,
        { Handler := boundHandler, reads := 4,
          trace := readTrace 0 ++ [Event.DelayUs 2] ++ readTrace 0 }) ∧
    readValue lateBusyStream 2 = 0x80 ∧ ¬ ((0x80 : Nat) < 0x80) ∧
    (0x80 : Nat) &&& 0x7F ≠ 0x80 := by
  have hc : FirstClear lateBusyStream freshWorld.reads 0 :=
    ⟨fun k hk => absurd hk (Nat.not_lt_zero k), by decide⟩
  refine ⟨?_, by decide, by decide, by decide⟩
  rw [HD44780_WaitBusy_run lateBusyStream 0 1 freshWorld (by decide) hc (by decide)]
  rfl

/-- C18, amended: with a busy-wait that terminates after `n` busy status
reads, `HD44780_WaitBusy` returns the whole byte of the final status read (the
one after the 2 us settle): (s1 & 0xF0) | (s2 >> 4) of its two samples, not
masked to 7 bits.  The byte is below 0x100; it is below 0x80 exactly when that
final read has bit 7 clear; and it is the value that `HD44780_Putc` passes to
`HD44780_NewLine` for a line feed. -/
theorem HD44780_WaitBusy_returns_status_byte (rd : Nat → Nat) (n fuel : Nat) (w : World)
    (hb : Bound w.Handler) (hc : FirstClear rd w.reads n) (hf : n < fuel) :
    HD44780_WaitBusy rd fuel w =
      (Outcome.ret (readValue rd (w.reads + 2 * n + 2)),
        { Handler := w.Handler, reads := w.reads + (2 * n + 4),
          trace := w.trace ++ waitTrace n }) ∧
    readValue rd (w.reads + 2 * n + 2) =
      ((rd (w.reads + 2 * n + 2) % 256) &&& 0xF0) |||
        ((rd (w.reads + 2 * n + 2 + 1) % 256) >>> 4) ∧
    readValue rd (w.reads + 2 * n + 2) < 0x100 ∧
    (readValue rd (w.reads + 2 * n + 2) < 0x80 ↔ ¬ Busy rd (w.reads + 2 * n + 2)) ∧
    HD44780_Putc rd fuel 10 w =
      (HD44780_NewLine rd fuel (readValue rd (w.reads + 2 * n + 2)) >>=
        fun _ => pure HD44780_Result_t.HD44780_OK)
        { Handler := w.Handler, reads := w.reads + (2 * n + 4),
          trace := w.trace ++ waitTrace n } := by
  have hw := HD44780_WaitBusy_run rd n fuel w hb hc hf
  refine ⟨by rw [hw]; rfl, rfl, readValue_lt rd _, ?_, ?_⟩
  · have h := bit7_clear_iff _ (readValue_lt rd (w.reads + 2 * n + 2))
    unfold Busy
    rw [← h]
    exact ⟨fun h1 h2 => h2 h1, fun h1 => not_not.1 h1⟩
  · unfold HD44780_Putc
    apply bind_step hw
    rw [if_pos rfl]
    rfl

/-- Witness of C18 amended: the stream whose status read after the settle has
bit 7 set. -/
theorem HD44780_WaitBusy_returns_status_byte_witness :
    Bound freshWorld.Handler ∧ FirstClear lateBusyStream freshWorld.reads 0 ∧
    HD44780_WaitBusy lateBusyStream 1 freshWorld =
      (Outcome.ret (readValue lateBusyStream (freshWorld.reads + 2 * 0 + 2)),
        { Handler := freshWorld.Handler, reads := freshWorld.reads + (2 * 0 + 4),
          trace := freshWorld.trace ++ waitTrace 0 }) :=
  have hc : FirstClear lateBusyStream freshWorld.reads 0 :=
    ⟨fun k hk => absurd hk (Nat.not_lt_zero k), by decide⟩
  ⟨by decide, hc,
    (HD44780_WaitBusy_returns_status_byte lateBusyStream 0 1 freshWorld (by decide) hc
      (by decide)).1⟩

/-- C19, as stated, fails at Pos = 0x20, a position with 0x14 ≤ Pos < 0x40:
on an idle display `HD44780_NewLine` issues the command 0x80 + 0x54 = 0xD4
(row 4), and the instruction write of 0x80 (row 1) occurs nowhere in its
trace. -/
theorem HD44780_NewLine_row3_counterexample :
    HD44780_NewLine idleStream 1 0x20 freshWorld =
      (Outcome.ret (),
        { Handler := boundHandler, reads := 4,
          trace := waitTrace 0 ++ writeTrace 0xD4 0 }) ∧
    ¬ (writeTrace (0x80 + HD44780_START_LINE1) 0 <:+:
        (HD44780_NewLine idleStream 1 0x20 freshWorld).2.trace) := by
  have hrun : HD44780_NewLine idleStream 1 0x20 freshWorld =
      (Outcome.ret (),
        { Handler := boundHandler, reads := 4,
          trace := waitTrace 0 ++ writeTrace 0xD4 0 }) := by
    rw [HD44780_NewLine_run idleStream 0 1 0x20 freshWorld (by decide) (idle_FirstClear _)
      (by decide)]
    rfl
  rw [hrun]
  exact ⟨rfl, by decide⟩

/-- C19, amended: for every byte Pos, `HD44780_NewLine(h, Pos)` is exactly one
`HD44780_Command` of the byte 0x80 + target(Pos), where Pos < 0x14 gives 0x40
(row 2), 0x40 ≤ Pos < 0x54 gives 0x14 (row 3), 0x14 ≤ Pos < 0x40 gives 0x54
(row 4) and every other Pos, that is Pos ≥ 0x54, gives 0x00 (row 1); with a
busy-wait that terminates the trace is that busy-wait and the one instruction
write. -/
theorem HD44780_NewLine_mapping (rd : Nat → Nat) (fuel Pos : Nat) (w : World) :
    HD44780_NewLine rd fuel Pos w =
      (HD44780_Command rd fuel (0x80 + newLineTarget Pos) >>= fun _ => pure ()) w ∧
    (Pos < 0x14 → newLineTarget Pos = 0x40) ∧
    (0x40 ≤ Pos → Pos < 0x54 → newLineTarget Pos = 0x14) ∧
    (0x14 ≤ Pos → Pos < 0x40 → newLineTarget Pos = 0x54) ∧
    (0x54 ≤ Pos → newLineTarget Pos = 0x00) ∧
    (∀ n, Bound w.Handler → FirstClear rd w.reads n → n < fuel →
      HD44780_NewLine rd fuel Pos w =
        (Outcome.ret (),
          { Handler := w.Handler, reads := w.reads + (2 * n + 4),
            trace := w.trace ++ waitTrace n ++ writeTrace (0x80 + newLineTarget Pos) 0 })) := by
  have ht := newLineTarget_by_range Pos
  refine ⟨by rw [HD44780_NewLine_eq], ?_, ?_, ?_, ?_, ?_⟩
  · intro h
    rw [ht, if_pos h]
  · intro h1 h2
    rw [ht, if_neg (by omega), if_neg (by omega), if_pos h2]
  · intro h1 h2
    rw [ht, if_neg (by omega), if_pos h2]
  · intro h
    rw [ht, if_neg (by omega), if_neg (by omega), if_neg (by omega)]
  · intro n hb hc hf
    rw [HD44780_NewLine_run rd n fuel Pos w hb hc hf]
    rfl

/-- Witness of C19 amended: from position 0x20 (row 3) the new line goes to
row 4. -/
theorem HD44780_NewLine_mapping_witness :
    newLineTarget 0x20 = 0x54 ∧
    HD44780_NewLine idleStream 1 0x20 freshWorld =
      (Outcome.ret (),
        { Handler := freshWorld.Handler, reads := freshWorld.reads + (2 * 0 + 4),
          trace := freshWorld.trace ++ waitTrace 0 ++
            writeTrace (0x80 + newLineTarget 0x20) 0 }) :=
  have h := HD44780_NewLine_mapping idleStream 1 0x20 freshWorld
  ⟨h.2.2.2.1 (by decide) (by decide),
    h.2.2.2.2.2 0 (by decide) (idle_FirstClear _) (by decide)⟩

/-- C20, as stated, fails at Pos = 0x14: on an idle display the trace of
`HD44780_NewLine` holds the instruction write of 0xD4 = 0x80 + 0x54, the start
of row 4. -/
theorem HD44780_NewLine_row4_counterexample :
    HD44780_NewLine idleStream 1 0x14 freshWorld =
      (Outcome.ret (),
        { Handler := boundHandler, reads := 4,
          trace := waitTrace 0 ++ writeTrace 0xD4 0 }) ∧
    writeTrace (0x80 + HD44780_START_LINE4) 0 <:+:
      (HD44780_NewLine idleStream 1 0x14 freshWorld).2.trace ∧
    (HD44780_START_LINE3 ≤ 0x14 ∧ 0x14 < HD44780_START_LINE2) := by
  have hrun : HD44780_NewLine idleStream 1 0x14 freshWorld =
      (Outcome.ret (),
        { Handler := boundHandler, reads := 4,
          trace := waitTrace 0 ++ writeTrace 0xD4 0 }) := by
    rw [HD44780_NewLine_run idleStream 0 1 0x14 freshWorld (by decide) (idle_FirstClear _)
      (by decide)]
    rfl
  rw [hrun]
  exact ⟨rfl, by decide, by decide⟩

/-- C20, amended: the row-4 branch of `HD44780_NewLine` is reached exactly for
the positions 0x14 ≤ Pos < 0x40: the range [row3-start, row2-start) that guards
it is not empty, the byte of the one command that `HD44780_NewLine` issues is
0xD4 = 0x80 + 0x54 if and only if Pos lies in it, and then, with a busy-wait
that terminates, the trace ends with the instruction write of 0xD4. -/
theorem HD44780_NewLine_row4_iff (rd : Nat → Nat) (fuel Pos : Nat) (w : World) :
    HD44780_NewLine rd fuel Pos w =
      (HD44780_Command rd fuel (0x80 + newLineTarget Pos) >>= fun _ => pure ()) w ∧
    (0x80 + newLineTarget Pos = 0xD4 ↔
      HD44780_START_LINE3 ≤ Pos ∧ Pos < HD44780_START_LINE2) ∧
    HD44780_START_LINE3 < HD44780_START_LINE2 ∧
    (∀ n, Bound w.Handler → FirstClear rd w.reads n → n < fuel →
      HD44780_START_LINE3 ≤ Pos → Pos < HD44780_START_LINE2 →
      HD44780_NewLine rd fuel Pos w =
        (Outcome.ret (),
          { Handler := w.Handler, reads := w.reads + (2 * n + 4),
            trace := w.trace ++ waitTrace n ++ writeTrace 0xD4 0 })) := by
  have ht := newLineTarget_by_range Pos
  have hiff : 0x80 + newLineTarget Pos = 0xD4 ↔
      HD44780_START_LINE3 ≤ Pos ∧ Pos < HD44780_START_LINE2 := by
    unfold HD44780_START_LINE3 HD44780_START_LINE2
    rw [ht]
    split_ifs <;> omega
  refine ⟨by rw [HD44780_NewLine_eq], hiff, by decide, ?_⟩
  intro n hb hc hf h1 h2
  rw [HD44780_NewLine_run rd n fuel Pos w hb hc hf, hiff.2 ⟨h1, h2⟩]
  rfl

/-- Witness of C20 amended: position 0x27, the last column of row 3 of a
4 x 20 display. -/
theorem HD44780_NewLine_row4_iff_witness :
    (HD44780_START_LINE3 ≤ 0x27 ∧ 0x27 < HD44780_START_LINE2) ∧
    HD44780_NewLine idleStream 1 0x27 freshWorld =
      (Outcome.ret (),
        { Handler := freshWorld.Handler, reads := freshWorld.reads + (2 * 0 + 4),
          trace := freshWorld.trace ++ waitTrace 0 ++ writeTrace 0xD4 0 }) :=
  ⟨by decide,
    (HD44780_NewLine_row4_iff idleStream 1 0x27 freshWorld).2.2.2 0 (by decide)
      (idle_FirstClear _) (by decide) (by decide) (by decide)⟩

/-! ## The read transaction -/

/-- C21: on a handler whose slots are set, for every RS and every stream,
`HD44780_Read` takes the next two samples s1 and s2 (as bytes), returns
(s1 & 0xF0) | (s2 >> 4) and appends exactly SetRS(1 if RS is non-zero else 0),
SetRW(1), SetDirData(0), SetE(1), DelayUs(1), ReadData, SetE(0), DelayUs(1),
SetE(1), DelayUs(1), ReadData, SetE(0), so that each sample is taken between
SetE(1), DelayUs(1) and SetE(0); a stream that agrees with this one on bits 4-7
of the two samples gives the same result. -/
theorem HD44780_Read_two_samples (rd : Nat → Nat) (RS : Nat) (w : World)
    (hb : Bound w.Handler) :
    HD44780_Read rd RS w =
      (Outcome.ret (((rd w.reads % 256) &&& 0xF0) ||| ((rd (w.reads + 1) % 256) >>> 4)),
        { Handler := w.Handler, reads := w.reads + 2,
          trace := w.trace ++
            [Event.SetRS (if RS ≠ 0 then 1 else 0), Event.SetRW 1, Event.SetDirData 0,
             Event.SetE 1, Event.DelayUs 1, Event.ReadData, Event.SetE 0, Event.DelayUs 1,
             Event.SetE 1, Event.DelayUs 1, Event.ReadData, Event.SetE 0] }) ∧
    (∀ rd1 : Nat → Nat,
      (rd1 w.reads % 256) &&& 0xF0 = (rd w.reads % 256) &&& 0xF0 →
      (rd1 (w.reads + 1) % 256) &&& 0xF0 = (rd (w.reads + 1) % 256) &&& 0xF0 →
      (HD44780_Read rd1 RS w).1 = (HD44780_Read rd RS w).1) := by
  constructor
  · rw [HD44780_Read_run rd RS w hb]
    rfl
  · intro rd1 h1 h2
    rw [HD44780_Read_run rd RS w hb, HD44780_Read_run rd1 RS w hb,
      readValue_congr rd1 rd w.reads w.reads h1 h2]

/-- Witness of C21: the samples 0x4F and 0x1F give the byte 0x41. -/
theorem HD44780_Read_two_samples_witness :
    Bound freshWorld.Handler ∧
    HD44780_Read (fun i => if i = 0 then 0x4F else 0x1F) 1 freshWorld =
      (Outcome.ret 0x41,
        { Handler := boundHandler, reads := 2,
          trace :=
            [Event.SetRS 1, Event.SetRW 1, Event.SetDirData 0,
             Event.SetE 1, Event.DelayUs 1, Event.ReadData, Event.SetE 0, Event.DelayUs 1,
             Event.SetE 1, Event.DelayUs 1, Event.ReadData, Event.SetE 0] }) :=
  ⟨by decide,
    (HD44780_Read_two_samples (fun i => if i = 0 then 0x4F else 0x1F) 1 freshWorld
      (by decide)).1⟩

/-- C26: for every byte b, when the two samples of `HD44780_Read` are the two
values that `HD44780_Write(b)` drives with WriteData, s1 = b & 0xF0 with any
bits 0-3 (`lo`) and s2 = (b << 4) & 0xF0, then `HD44780_Read` returns b:
(s1 & 0xF0) | (s2 >> 4) = b. -/
theorem HD44780_Read_of_Write_nibbles (rd : Nat → Nat) (b lo RS : Nat) (w : World)
    (hb : Bound w.Handler) (hbyte : b < 256) (hlo : lo < 16)
    (h1 : rd w.reads = (b &&& 0xF0) ||| lo) (h2 : rd (w.reads + 1) = (b <<< 4) &&& 0xF0) :
    (HD44780_Read rd RS w).1 = Outcome.ret b ∧
    ((((b &&& 0xF0) ||| lo) % 256) &&& 0xF0) ||| ((((b <<< 4) &&& 0xF0) % 256) >>> 4) = b ∧
    Event.WriteData (b &&& 0xF0) ∈ writeTrace b RS ∧
    Event.WriteData ((b <<< 4) &&& 0xF0) ∈ writeTrace b RS := by
  have hhi : b &&& 0xF0 = (b / 16) * 16 := high_eq_mul b hbyte
  have hq : b / 16 < 16 := by omega
  have hlt : (b / 16) * 16 ||| lo < 256 :=
    Nat.or_lt_two_pow (n := 8) (by norm_num; omega) (by norm_num; omega)
  have hs2 : (b <<< 4) &&& 0xF0 < 256 :=
    Nat.lt_of_le_of_lt Nat.and_le_right (by norm_num)
  have key : ((((b &&& 0xF0) ||| lo) % 256) &&& 0xF0) |||
      ((((b <<< 4) &&& 0xF0) % 256) >>> 4) = b := by
    rw [Nat.mod_eq_of_lt hs2, hhi, Nat.mod_eq_of_lt hlt, high_or_low _ hq _ hlo, ← hhi]
    exact nibbles_join b hbyte
  refine ⟨?_, key, by simp [writeTrace], by simp [writeTrace]⟩
  rw [HD44780_Read_run rd RS w hb]
  show Outcome.ret (readValue rd w.reads) = Outcome.ret b
  unfold readValue
  rw [h1, h2, key]

/-- Witness of C26: the byte 0xA5 read back from the nibbles 0xA0 (with low
bits 0x7) and 0x50. -/
theorem HD44780_Read_of_Write_nibbles_witness :
    Bound freshWorld.Handler ∧
    (HD44780_Read (fun i => if i = 0 then 0xA7 else 0x50) 0 freshWorld).1 =
      Outcome.ret 0xA5 :=
  ⟨by decide,
    (HD44780_Read_of_Write_nibbles (fun i => if i = 0 then 0xA7 else 0x50) 0xA5 0x7 0
      freshWorld (by decide) (by decide) (by decide) (by decide) (by decide)).1⟩

/-! ## The polling loop -/

/-- C24: on a handler whose slots are set, for every k, if the first k status
reads report busy and the next one does not, `HD44780_WaitBusy` with fuel for
more than k rounds returns after exactly k rounds of status read and
DelayMs(1), one more status read, DelayUs(2) and the final status read: k + 2
status reads (each starting with SetRS(0) and taking two samples), DelayMs(1)
k times, DelayUs(2) once.  It does not give up earlier: with fuel for at most k
rounds it is still polling.  And k has no bound: for every k there is a stream
with exactly k busy status reads. -/
theorem HD44780_WaitBusy_counts (rd : Nat → Nat) (k fuel : Nat) (w : World)
    (hb : Bound w.Handler) (hc : FirstClear rd w.reads k) :
    (k < fuel →
      HD44780_WaitBusy rd fuel w =
        (Outcome.ret (readValue rd (w.reads + 2 * k + 2)),
          { Handler := w.Handler, reads := w.reads + (2 * k + 4),
            trace := w.trace ++
              ((List.replicate k (readTrace 0 ++ [Event.DelayMs 1])).flatten ++
                readTrace 0 ++ [Event.DelayUs 2] ++ readTrace 0) })) ∧
    waitTrace k =
      (List.replicate k (readTrace 0 ++ [Event.DelayMs 1])).flatten ++
        readTrace 0 ++ [Event.DelayUs 2] ++ readTrace 0 ∧
    (waitTrace k).count (Event.SetRS 0) = k + 2 ∧
    countReads (waitTrace k) = 2 * (k + 2) ∧
    (waitTrace k).count (Event.DelayMs 1) = k ∧
    (waitTrace k).count (Event.DelayUs 2) = 1 ∧
    (fuel ≤ k →
      HD44780_WaitBusy rd fuel w =
        (Outcome.halt Halt.outOfFuel,
          { Handler := w.Handler, reads := w.reads + 2 * fuel,
            trace := w.trace ++
              (List.replicate fuel (readTrace 0 ++ [Event.DelayMs 1])).flatten })) ∧
    (∀ j, FirstClear (busyFor w.reads j) w.reads j) := by
  have hw : waitTrace k =
      (List.replicate k (readTrace 0 ++ [Event.DelayMs 1])).flatten ++
        readTrace 0 ++ [Event.DelayUs 2] ++ readTrace 0 := by
    unfold waitTrace
    rw [pollTrace_eq_replicate]
  have r1 : (readTrace 0).count (Event.SetRS 0) = 1 := by decide
  have r2 : [Event.DelayUs 2].count (Event.SetRS 0) = 0 := by decide
  have r3 : (readTrace 0).count (Event.DelayMs 1) = 0 := by decide
  have r4 : [Event.DelayUs 2].count (Event.DelayMs 1) = 0 := by decide
  have r5 : (readTrace 0).count (Event.DelayUs 2) = 0 := by decide
  have r6 : [Event.DelayUs 2].count (Event.DelayUs 2) = 1 := by decide
  refine ⟨?_, hw, ?_, ?_, ?_, ?_, ?_, fun j => busyFor_firstClear w.reads j⟩
  · intro hf
    rw [HD44780_WaitBusy_run rd k fuel w hb hc hf, ← hw]
    rfl
  · simp only [waitTrace, List.count_append, count_SetRS_pollTrace, r1, r2]
  · rw [countReads_waitTrace]
    omega
  · simp only [waitTrace, List.count_append, count_DelayMs_pollTrace, r3, r4]
    omega
  · simp only [waitTrace, List.count_append, count_DelayUs2_pollTrace, r5, r6]
  · intro hf
    rw [HD44780_WaitBusy_stuck rd fuel w hb (fun i hi => hc.1 i (by omega)),
      ← pollTrace_eq_replicate]
    rfl

/-- Witness of C24: a display that is busy for three status reads. -/
theorem HD44780_WaitBusy_counts_witness :
    Bound freshWorld.Handler ∧ FirstClear (busyFor 0 3) freshWorld.reads 3 ∧
    HD44780_WaitBusy (busyFor 0 3) 4 freshWorld =
      (Outcome.ret (readValue (busyFor 0 3) (freshWorld.reads + 2 * 3 + 2)),
        { Handler := freshWorld.Handler, reads := freshWorld.reads + (2 * 3 + 4),
          trace := freshWorld.trace ++
            ((List.replicate 3 (readTrace 0 ++ [Event.DelayMs 1])).flatten ++
              readTrace 0 ++ [Event.DelayUs 2] ++ readTrace 0) }) :=
  ⟨by decide, busyFor_firstClear 0 3,
    (HD44780_WaitBusy_counts (busyFor 0 3) 3 4 freshWorld (by decide)
      (busyFor_firstClear 0 3)).1 (by decide)⟩

/-! ## The platform binding -/

/-- C22: `HD44780_Platform_Init` returns with the nine binding fields of the
handler set to the addresses of the nine platform functions, so none is
`NULL`, and with `Lines`, `Length`, the samples taken and the trace unchanged;
the handler then passes the check of `HD44780_Init`.  On the zero-initialised
handler of the example application, `HD44780_Platform_Init` followed by
`HD44780_Init(2, 16, DispAttr)` returns `HD44780_OK` after the hook call and
the command sequence, when the busy-waits terminate. -/
theorem HD44780_Platform_Init_binds (p : PlatformFunctions) (rd : Nat → Nat)
    (fuel Lines Length DispAttr : Nat) (w : World) (n1 n2 n3 n4 n5 : Nat)
    (hc : WaitsClear rd w.reads [n1, n2, n3, n4, n5])
    (hf : n1 < fuel ∧ n2 < fuel ∧ n3 < fuel ∧ n4 < fuel ∧ n5 < fuel) :
    HD44780_Platform_Init p w =
      (Outcome.ret (),
        { Handler :=
            { Lines := w.Handler.Lines, Length := w.Handler.Length,
              PlatformInitRsRwE := some p.InitRsRwE, PlatformSetValRs := some p.SetValRs,
              PlatformSetValRw := some p.SetValRw, PlatformSetValE := some p.SetValE,
              PlatformSetDirData := some p.SetDirData, PlatformWriteData := some p.WriteData,
              PlatformReadData := some p.ReadData, PlatformDelayMs := some p.DelayMs,
              PlatformDelayUs := some p.DelayUs },
          reads := w.reads, trace := w.trace }) ∧
    Bound (HD44780_Platform_Init p w).2.Handler ∧
    ¬ SlotMissing (HD44780_Platform_Init p w).2.Handler ∧
    (HD44780_Platform_Init p w).2.Handler.PlatformInitRsRwE ≠ none ∧
    ((HD44780_Platform_Init p >>= fun _ => HD44780_Init rd fuel Lines Length DispAttr) w).1 =
      Outcome.ret HD44780_Result_t.HD44780_OK ∧
    ((HD44780_Platform_Init p >>= fun _ => HD44780_Init rd fuel Lines Length DispAttr) w).2.trace =
      w.trace ++ [Event.InitRsRwE] ++ initTrace n1 n2 n3 n4 n5 DispAttr := by
  have hrun := HD44780_Platform_Init_run p w
  have hbound : Bound (HD44780_Platform_Init p w).2.Handler := by
    rw [hrun]
    exact ⟨rfl, rfl, rfl, rfl, rfl, rfl, rfl, rfl⟩
  have hinit := HD44780_Init_run rd fuel Lines Length DispAttr (HD44780_Platform_Init p w).2
    n1 n2 n3 n4 n5 hbound hc hf
  have hseq : (HD44780_Platform_Init p >>= fun _ =>
      HD44780_Init rd fuel Lines Length DispAttr) w =
      HD44780_Init rd fuel Lines Length DispAttr (HD44780_Platform_Init p w).2 :=
    bind_step hrun rfl
  refine ⟨hrun, hbound, fun h => (SlotMissing_iff _).1 h hbound, ?_, ?_, ?_⟩
  · rw [hrun]
    simp
  · rw [hseq, hinit]
  · rw [hseq, hinit]
    rfl

/-- Witness of C22: the example application on an idle display. -/
theorem HD44780_Platform_Init_binds_witness :
    WaitsClear idleStream zeroWorld.reads [0, 0, 0, 0, 0] ∧
    ((HD44780_Platform_Init examplePlatform >>= fun _ =>
        HD44780_Init idleStream 1 2 16 0x0C) zeroWorld).1 =
      Outcome.ret HD44780_Result_t.HD44780_OK :=
  ⟨idle_WaitsClear _ _ (by simp),
    (HD44780_Platform_Init_binds examplePlatform idleStream 1 2 16 0x0C zeroWorld 0 0 0 0 0
      (idle_WaitsClear _ _ (by simp)) (by decide)).2.2.2.2.1⟩

/-! ## The stored display size -/

/-- C23: for two handlers with the same nine bindings (they may differ in
`Lines` and `Length`), the same samples taken and the same trace so far, each
of `HD44780_GoToXY`, `HD44780_Putc`, `HD44780_Puts`, `HD44780_Command`,
`HD44780_Data`, `HD44780_ClearScreen` and `HD44780_Home` gives the same outcome
and the same bus trace, for every argument, stream and fuel.  In particular
`HD44780_GoToXY` with X ≥ Length sends the address computed from X, not a
clamped one, and `HD44780_Puts` of more than Length characters is one
`HD44780_Putc` for each of them. -/
theorem Lines_Length_not_enforced (rd : Nat → Nat) (fuel X Y Cmd Data Len : Nat) (C : Int)
    (Str : List Int) (w1 w2 : World) (h : Alike w1 w2) :
    (SameRun (HD44780_GoToXY rd fuel X Y) w1 w2 ∧
     SameRun (HD44780_Putc rd fuel C) w1 w2 ∧
     SameRun (HD44780_Puts rd fuel Str Len) w1 w2 ∧
     SameRun (HD44780_Command rd fuel Cmd) w1 w2 ∧
     SameRun (HD44780_Data rd fuel Data) w1 w2 ∧
     SameRun (HD44780_ClearScreen rd fuel) w1 w2 ∧
     SameRun (HD44780_Home rd fuel) w1 w2) ∧
    (∀ n, Bound w1.Handler → FirstClear rd w1.reads n → n < fuel → Y < 4 →
      w1.Handler.Length ≤ X →
      HD44780_GoToXY rd fuel X Y w1 =
        (Outcome.ret HD44780_Result_t.HD44780_OK,
          { Handler := w1.Handler, reads := w1.reads + (2 * n + 4),
            trace := w1.trace ++ waitTrace n ++
              writeTrace ((0x80 + rowStart Y + X) % 256) 0 })) ∧
    (∀ pre post : List Int, (∀ c ∈ pre, c ≠ 0) → w1.Handler.Length < pre.length →
      HD44780_Puts rd fuel (pre ++ 0 :: post) 0 w1 =
        (putcEach rd fuel pre >>= fun _ => pure HD44780_Result_t.HD44780_OK) w1) := by
  refine ⟨⟨(Blind_GoToXY rd fuel X Y).sameRun h, (Blind_Putc rd fuel C).sameRun h,
    (Blind_Puts rd fuel Str Len).sameRun h, (Blind_Command rd fuel Cmd).sameRun h,
    (Blind_Data rd fuel Data).sameRun h, (Blind_ClearScreen rd fuel).sameRun h,
    (Blind_Home rd fuel).sameRun h⟩, ?_, ?_⟩
  · intro n hb hc hf hY _
    rw [HD44780_GoToXY_run rd n fuel X Y w1 hb hc hf hY]
    rfl
  · intro pre post hpre _
    simp only [HD44780_Puts, if_true, HD44780_Puts_untilNull_eq rd fuel post pre hpre]

/-- Witness of C23: the handler before and after an initialisation for 2 x 16:
cursor to column 40 of row 0. -/
theorem Lines_Length_not_enforced_witness :
    Alike freshWorld sizedWorld ∧
    SameRun (HD44780_GoToXY idleStream 1 40 0) freshWorld sizedWorld ∧
    SameRun (HD44780_Puts idleStream 1 [72, 105, 0] 0) freshWorld sizedWorld :=
  have h := Lines_Length_not_enforced idleStream 1 40 0 0x0C 0x41 0 65 [72, 105, 0]
    freshWorld sizedWorld (by decide)
  ⟨by decide, h.1.1, h.1.2.2.1⟩

/-! ## Frame -/

/-- C29, as stated, fails for an initialisation that does not return: on a
display that is always busy `HD44780_Init(4, 20, 0x0C)` runs out of fuel in its
first busy-wait, so it is no successful initialisation, and yet the handler,
which held `Lines = 0` and `Length = 0`, holds `Lines = 4` and `Length = 20`:
the two stores come before the command sequence. -/
theorem HD44780_Init_stuck_counterexample :
    HD44780_Init alwaysBusyStream 3 4 20 0x0C freshWorld =
      (Outcome.halt Halt.outOfFuel,
        { Handler := { boundHandler with Lines := 4, Length := 20 }, reads := 6,
          trace := [Event.InitRsRwE] ++ writeTrace 0x33 0 ++ writeTrace 0x32 0 ++
            pollTrace 3 }) ∧
    (HD44780_Init alwaysBusyStream 3 4 20 0x0C freshWorld).1 ≠
      Outcome.ret HD44780_Result_t.HD44780_OK ∧
    (HD44780_Init alwaysBusyStream 3 4 20 0x0C freshWorld).2.Handler ≠ freshWorld.Handler ∧
    freshWorld.Handler.Lines = 0 ∧ freshWorld.Handler.Length = 0 := by
  have hrun : HD44780_Init alwaysBusyStream 3 4 20 0x0C freshWorld =
      (Outcome.halt Halt.outOfFuel,
        { Handler := { boundHandler with Lines := 4, Length := 20 }, reads := 6,
          trace := [Event.InitRsRwE] ++ writeTrace 0x33 0 ++ writeTrace 0x32 0 ++
            pollTrace 3 }) := by
    rw [HD44780_Init_stuck alwaysBusyStream 3 4 20 0x0C freshWorld (by decide)
      (fun k _ => alwaysBusyStream_Busy _)]
    rfl
  rw [hrun]
  exact ⟨rfl, by simp, by decide, rfl, rfl⟩

/-- C29, amended: for every argument, stream and fuel, `HD44780_ClearScreen`,
`HD44780_Home`, `HD44780_GoToXY`, `HD44780_Putc`, `HD44780_Puts`,
`HD44780_Command` and `HD44780_Data` leave the handler (`Lines`, `Length` and
the nine binding fields) exactly as it was, whether they return or not.
`HD44780_Init` is the only operation that changes a handler field; it never
changes a binding field.  For every run of `HD44780_Init`, returning or not,
the handler afterwards is the handler before when one of the eight checked
slots is `NULL`, and otherwise the handler before with `Lines` and `Length`
replaced: the stores come after the check and before the command sequence, so
they are made also when a busy-wait then never ends.  When `HD44780_Init`
returns `HD44780_FAIL` the handler is unchanged, `Lines` and `Length` included;
when it returns `HD44780_OK` the handler is the one before with `Lines` and
`Length` replaced. -/
theorem handler_frame (rd : Nat → Nat) (fuel X Y Cmd Data Len Lines Length DispAttr : Nat)
    (C : Int) (Str : List Int) (w : World) :
    (HD44780_ClearScreen rd fuel w).2.Handler = w.Handler ∧
    (HD44780_Home rd fuel w).2.Handler = w.Handler ∧
    (HD44780_GoToXY rd fuel X Y w).2.Handler = w.Handler ∧
    (HD44780_Putc rd fuel C w).2.Handler = w.Handler ∧
    (HD44780_Puts rd fuel Str Len w).2.Handler = w.Handler ∧
    (HD44780_Command rd fuel Cmd w).2.Handler = w.Handler ∧
    (HD44780_Data rd fuel Data w).2.Handler = w.Handler ∧
    SameBinding (HD44780_Init rd fuel Lines Length DispAttr w).2.Handler w.Handler ∧
    ((HD44780_Init rd fuel Lines Length DispAttr w).1 =
        Outcome.ret HD44780_Result_t.HD44780_FAIL →
      (HD44780_Init rd fuel Lines Length DispAttr w).2.Handler = w.Handler) ∧
    ((HD44780_Init rd fuel Lines Length DispAttr w).1 =
        Outcome.ret HD44780_Result_t.HD44780_OK →
      (HD44780_Init rd fuel Lines Length DispAttr w).2.Handler =
        { w.Handler with Lines := Lines, Length := Length }) ∧
    (HD44780_Init rd fuel Lines Length DispAttr w).2.Handler =
      (if SlotMissing w.Handler then w.Handler
       else { w.Handler with Lines := Lines, Length := Length }) ∧
    (Bound w.Handler → (∀ k, k < fuel → Busy rd (w.reads + 2 * k)) →
      (HD44780_Init rd fuel Lines Length DispAttr w).1 = Outcome.halt Halt.outOfFuel ∧
      (HD44780_Init rd fuel Lines Length DispAttr w).2.Handler =
        { w.Handler with Lines := Lines, Length := Length }) := by
  refine ⟨(Steady_ClearScreen rd fuel w).1, (Steady_Home rd fuel w).1,
    (Steady_GoToXY rd fuel X Y w).1, (Steady_Putc rd fuel C w).1,
    (Steady_Puts rd fuel Str Len w).1, (Steady_Command rd fuel Cmd w).1,
    (Steady_Data rd fuel Data w).1, ?_, ?_, ?_,
    HD44780_Init_handler rd fuel Lines Length DispAttr w, ?_⟩
  · rcases HD44780_Init_keeps_binding rd fuel Lines Length DispAttr w with h | h <;>
    · rw [h]
      exact ⟨rfl, rfl, rfl, rfl, rfl, rfl, rfl, rfl, rfl⟩
  · intro hfail
    by_cases hb : Bound w.Handler
    · rw [HD44780_Init_bound rd fuel Lines Length DispAttr w hb] at hfail
      exact absurd hfail (initSequence_ne_fail rd fuel DispAttr _)
    · rw [HD44780_Init_fail rd fuel Lines Length DispAttr w hb]
      rfl
  · intro hok
    by_cases hb : Bound w.Handler
    · rw [HD44780_Init_bound rd fuel Lines Length DispAttr w hb]
      exact (Steady_initSequence rd fuel DispAttr _).1
    · rw [HD44780_Init_fail rd fuel Lines Length DispAttr w hb] at hok
      exact absurd hok (by simp)
  · intro hb hbusy
    rw [HD44780_Init_stuck rd fuel Lines Length DispAttr w hb hbusy]
    exact ⟨rfl, rfl⟩

/-- Witness of C29 amended: a failing initialisation for 4 x 20 leaves `Lines`
and `Length` of the handler at 0, and an initialisation for 4 x 20 on a display
that stays busy runs out of fuel with `Lines` and `Length` already replaced. -/
theorem handler_frame_witness :
    ((HD44780_Init idleStream 1 4 20 0x0C delaylessWorld).1 =
        Outcome.ret HD44780_Result_t.HD44780_FAIL ∧
      (HD44780_Init idleStream 1 4 20 0x0C delaylessWorld).2.Handler =
        delaylessWorld.Handler) ∧
    (Bound freshWorld.Handler ∧
      (∀ k, k < 3 → Busy alwaysBusyStream (freshWorld.reads + 2 * k)) ∧
      (HD44780_Init alwaysBusyStream 3 4 20 0x0C freshWorld).1 =
        Outcome.halt Halt.outOfFuel ∧
      (HD44780_Init alwaysBusyStream 3 4 20 0x0C freshWorld).2.Handler =
        { freshWorld.Handler with Lines := 4, Length := 20 }) :=
  have hfail : (HD44780_Init idleStream 1 4 20 0x0C delaylessWorld).1 =
      Outcome.ret HD44780_Result_t.HD44780_FAIL :=
    congrArg Prod.fst (HD44780_Init_fail idleStream 1 4 20 0x0C delaylessWorld (by decide))
  have hbound : Bound freshWorld.Handler := by decide
  have hbusy : ∀ k, k < 3 → Busy alwaysBusyStream (freshWorld.reads + 2 * k) :=
    fun k _ => alwaysBusyStream_Busy _
  ⟨⟨hfail,
    (handler_frame idleStream 1 0 0 0 0 0 4 20 0x0C 0 [] delaylessWorld).2.2.2.2.2.2.2.2.1
      hfail⟩,
   hbound, hbusy,
    (handler_frame alwaysBusyStream 3 0 0 0 0 0 4 20 0x0C 0 [] freshWorld).2.2.2.2.2.2.2.2.2.2.2
      hbound hbusy⟩

/-! ## Termination -/

/-- C25: on a handler whose slots are set, if after finitely many status reads
from where it starts one reports not busy, `HD44780_WaitBusy` returns once the
fuel covers the busy status reads, with a result that no longer depends on the
fuel; so do `HD44780_Command`, `HD44780_Data`, `HD44780_ClearScreen`,
`HD44780_Home` and `HD44780_GoToXY`; and when this holds wherever a busy-wait
starts, so do `HD44780_Putc`, `HD44780_Init` and, for a buffer that holds a null
or at least Len ≥ 1 characters, `HD44780_Puts`.  Without it there is no
termination: if every status read reports busy, `HD44780_WaitBusy` halts out of
fuel for every fuel. -/
theorem busy_wait_terminates (rd : Nat → Nat) (X Y Cmd Data Len Lines Length DispAttr : Nat)
    (C : Int) (Str : List Int) (w : World) (hb : Bound w.Handler) :
    ((∃ n, ¬ Busy rd (w.reads + 2 * n)) →
      Terminates (fun fuel => HD44780_WaitBusy rd fuel) w ∧
      Terminates (fun fuel => HD44780_Command rd fuel Cmd) w ∧
      Terminates (fun fuel => HD44780_Data rd fuel Data) w ∧
      Terminates (fun fuel => HD44780_ClearScreen rd fuel) w ∧
      Terminates (fun fuel => HD44780_Home rd fuel) w ∧
      Terminates (fun fuel => HD44780_GoToXY rd fuel X Y) w) ∧
    (EventuallyClear rd →
      Terminates (fun fuel => HD44780_Putc rd fuel C) w ∧
      Terminates (fun fuel => HD44780_Init rd fuel Lines Length DispAttr) w ∧
      ((0 : Int) ∈ Str ∨ (0 < Len ∧ Len ≤ Str.length) →
        Terminates (fun fuel => HD44780_Puts rd fuel Str Len) w)) ∧
    ((∀ n, Busy rd (w.reads + 2 * n)) →
      ∀ fuel, (HD44780_WaitBusy rd fuel w).1 = Outcome.halt Halt.outOfFuel) := by
  refine ⟨fun h => ⟨HD44780_WaitBusy_terminates rd w hb h,
      HD44780_Command_terminates rd Cmd w hb h, HD44780_Data_terminates rd Data w hb h,
      HD44780_ClearScreen_terminates rd w hb h, HD44780_Home_terminates rd w hb h,
      HD44780_GoToXY_terminates rd X Y w hb h⟩,
    fun h => ⟨HD44780_Putc_terminates rd C w hb h,
      HD44780_Init_terminates rd Lines Length DispAttr w hb h,
      fun hs => HD44780_Puts_terminates rd h Str Len w hb hs⟩, ?_⟩
  intro hbusy fuel
  rw [HD44780_WaitBusy_stuck rd fuel w hb (fun k _ => hbusy k)]

/-- Witness of C25: on an idle display the string "Hi" is written. -/
theorem busy_wait_terminates_witness :
    Bound freshWorld.Handler ∧ EventuallyClear idleStream ∧
    Terminates (fun fuel => HD44780_Puts idleStream fuel [72, 105, 0] 0) freshWorld ∧
    Terminates (fun fuel => HD44780_Init idleStream fuel 2 16 0x0C) freshWorld :=
  have h := (busy_wait_terminates idleStream 0 0 0 0 0 2 16 0x0C 65 [72, 105, 0] freshWorld
    (by decide)).2.1 idleStream_EventuallyClear
  ⟨by decide, idleStream_EventuallyClear, h.2.2 (Or.inl (by decide)), h.2.1⟩

/-! ## Invariants of the bus trace -/

/-- C27: on a handler whose slots are set, for every argument, stream and
fuel, whenever one of `HD44780_Init`, `HD44780_ClearScreen`, `HD44780_Home`,
`HD44780_GoToXY`, `HD44780_Putc`, `HD44780_Puts`, `HD44780_Command` and
`HD44780_Data` returns, the events it has added to the trace pass the check of
the E line: the SetE events alternate SetE(1), SetE(0), the first is SetE(1),
the last is SetE(0), and a DelayUs(1) lies between each SetE(1) and the SetE(0)
after it; so E is low after the operation if it was low before.  The check
refuses a second SetE(1) without a SetE(0) in between, a SetE(0) with no
DelayUs(1) since the SetE(1), a trace that ends with E high, and a SetE(0)
while E is low. -/
theorem E_line_alternates (rd : Nat → Nat)
    (fuel X Y Cmd Data Len Lines Length DispAttr : Nat) (C : Int) (Str : List Int)
    (w : World) (hb : Bound w.Handler) :
    (ReturnsWith EAlternates (HD44780_Init rd fuel Lines Length DispAttr) w ∧
     ReturnsWith EAlternates (HD44780_ClearScreen rd fuel) w ∧
     ReturnsWith EAlternates (HD44780_Home rd fuel) w ∧
     ReturnsWith EAlternates (HD44780_GoToXY rd fuel X Y) w ∧
     ReturnsWith EAlternates (HD44780_Putc rd fuel C) w ∧
     ReturnsWith EAlternates (HD44780_Puts rd fuel Str Len) w ∧
     ReturnsWith EAlternates (HD44780_Command rd fuel Cmd) w ∧
     ReturnsWith EAlternates (HD44780_Data rd fuel Data) w) ∧
    (¬ EAlternates [Event.SetE 1, Event.DelayUs 1, Event.SetE 1, Event.SetE 0] ∧
     ¬ EAlternates [Event.SetE 1, Event.SetE 0] ∧
     ¬ EAlternates [Event.SetE 1, Event.DelayUs 1] ∧
     ¬ EAlternates [Event.SetE 0]) := by
  have hQ := EAlternates_inv
  exact ⟨⟨HD44780_Init_returnsWith _ hQ rd fuel Lines Length DispAttr w,
    (Keeps_ClearScreen _ hQ rd fuel).returnsWith hb,
    (Keeps_Home _ hQ rd fuel).returnsWith hb,
    (Keeps_GoToXY _ hQ rd fuel X Y).returnsWith hb,
    (Keeps_Putc _ hQ rd fuel C).returnsWith hb,
    (Keeps_Puts _ hQ rd fuel Str Len).returnsWith hb,
    (Keeps_Command _ hQ rd fuel Cmd).returnsWith hb,
    (Keeps_Data _ hQ rd fuel Data).returnsWith hb⟩,
    by decide, by decide, by decide, by decide⟩

/-- Witness of C27: a line feed sent to an idle display returns, and what it
has added to the trace passes the check of the E line. -/
theorem E_line_alternates_witness :
    Bound freshWorld.Handler ∧
    (HD44780_Putc idleStream 1 10 freshWorld).1 = Outcome.ret HD44780_Result_t.HD44780_OK ∧
    ReturnsWith EAlternates (HD44780_Putc idleStream 1 10) freshWorld :=
  ⟨by decide,
    congrArg Prod.fst (HD44780_Putc_run_newline idleStream 0 0 1 freshWorld (by decide)
      (idle_WaitsClear _ _ (by simp)) (by decide)),
    (E_line_alternates idleStream 1 0 0 0 0 0 0 0 0 10 [] freshWorld (by decide)).1.2.2.2.2.1⟩

end HD44780
